import Mathlib

/-!
Plasmacore message bus (Libraries/Plasmacore/SDL/Plasmacore.cpp)

A shallow embedding of the message bus of `Plasmacore.cpp`: the frame format
written by `post`, the frame-decoding loop of `real_update`, the handler and
reply tables, and the burst scheduler.

Conventions.
* A byte (`uint8_t`) is a `Fin 256`; a byte list is a `List Byte`, and its
  `int count` field is the length read as a 32-bit twos-complement `int`.
* `int` arithmetic is arithmetic on `Int` followed by `wrap32`.
* The collaborators that are not part of the file (the transport
  `RogueInterface_post_messages`, the message codec, the callbacks of the
  application, the floating-point conversion of the idle interval) are fields of
  `Env`; they may depend on everything that happened before (the trace).
* Every operation that calls `real_update` in the source takes the
  `real_update` of the bus as its argument `ru`; `real_update` passes itself.
* A read outside the inbound buffer and the exhaustion of the evaluation
  budget are recorded in the field `fault`, and stop the tick that hit them.
-/

namespace PlasmacoreBus

/-- A `uint8_t`. -/
abbrev Byte := Fin 256

/-- A `double`, carried as its bit pattern; its arithmetic is left to `Env`. -/
abbrev Double := Nat

/-- Twos-complement reading of an integer as a 32-bit `int`. -/
def wrap32 (x : Int) : Int := (x + 2147483648) % 4294967296 - 2147483648

/-- The `int count` field of a byte list. -/
def count (l : List Byte) : Int := wrap32 l.length

/-- The reply object of a message (`m._reply`): its bytes and its `sent` flag. -/
structure Reply where
  data : List Byte
  sent : Bool
deriving DecidableEq, Repr

/-- A `PlasmacoreMessage`, as far as the bus looks at it. -/
structure PlasmacoreMessage where
  type : String
  message_id : Int
  data : List Byte
  reply : Option Reply
deriving DecidableEq, Repr

/-- A `HandlerCallback`: the lambda that `configure` installs under the type
`""`, or a callback of the application, named by a number. -/
inductive Callback where
  | reply_router
  | user (id : Nat)
deriving DecidableEq, Repr

/-- A `PlasmacoreMessageHandler` object; `addr` is the identity of the object
created by `new`. -/
structure PlasmacoreMessageHandler where
  addr : Nat
  type : String
  callback : Callback
deriving DecidableEq, Repr

/-- The two functions handed to `do_async_call`. -/
inductive AsyncTarget where
  | update
  | fast_update
deriving DecidableEq, Repr

/-- What a run of the bus does to the outside, in order. -/
inductive Event where
  /-- The call of `RogueInterface_post_messages`: the bytes handed over and the bytes returned. -/
  | post_messages (sent received : List Byte)
  /-- A call of `dispatch`. -/
  | dispatch (m : PlasmacoreMessage)
  /-- A call of a callback of the application. -/
  | callback (id : Nat) (m : PlasmacoreMessage)
  /-- The line "*** Skipping message due to invalid size." on stderr. -/
  | skipped
  /-- A call of `do_async_call`. -/
  | async_call (cb : AsyncTarget) (millis : Int)
  /-- The call of `RogueInterface_configure`. -/
  | rogue_configure
  /-- The call of `RogueInterface_launch`. -/
  | rogue_launch
deriving DecidableEq, Repr

/-- Why a tick did not run to its end. -/
inductive Fault where
  /-- The evaluation budget of the model ran out. -/
  | out_of_fuel
  /-- A byte outside `[0, count)` of the inbound buffer was read. -/
  | out_of_bounds
deriving DecidableEq, Repr

/-- The calls a callback of the application can make on the bus. -/
inductive Action where
  | set_message_handler (type : String) (handler : Nat)
  | remove_message_handler (type : String)
  | post (m : PlasmacoreMessage)
  | post_rsvp (m : PlasmacoreMessage) (callback : Nat)
  | setIdleUpdateFrequency (f : Double)
  | start
  | stop
  | update
  | fast_update
deriving DecidableEq, Repr

/-- What one call of a callback of the application does: the calls it makes on
the bus, in order, and the reply object of its message when it returns. -/
structure CallbackRun where
  actions : List Action
  reply : Option Reply
deriving DecidableEq, Repr

/-- The collaborators of the bus. -/
structure Env where
  /-- The function `RogueInterface_post_messages`: the inbound bytes returned for the outbound bytes. -/
  post_messages : List Event → List Byte → List Byte
  /-- The type that the constructor `PlasmacoreMessage(decode_buffer)` decodes. -/
  message_type : List Byte → String
  /-- The message id that the constructor decodes. -/
  message_id : List Byte → Int
  /-- The reply object that the constructor leaves in the message. -/
  message_reply : List Byte → Option Reply
  /-- The behaviour of the callbacks of the application. -/
  callback : Nat → List Event → PlasmacoreMessage → CallbackRun
  /-- The value of `int(1000*idleUpdateFrequency)`. -/
  idle_millis : Double → Int
  /-- The encoded bytes of the message "Application.on_launch". -/
  launch_message : List Byte

/-- Modelled from the spec: the lookup of `PlasmacoreStringTable` and
`PlasmacoreIntTable` (their headers are not part of the source): a table maps
a key to at most one value. -/
def Table.find {κ α : Type} [DecidableEq κ] : List (κ × α) → κ → Option α
  | [], _ => none
  | (k', v) :: t, k => if k' = k then some v else Table.find t k

/-- Modelled from the spec: the assignment `table[key] = value` of the tables:
the value replaces the one stored under the key, or is added. -/
def Table.set {κ α : Type} [DecidableEq κ] : List (κ × α) → κ → α → List (κ × α)
  | [], k, v => [(k, v)]
  | (k', v') :: t, k, v => if k' = k then (k, v) :: t else (k', v') :: Table.set t k v

/-- Modelled from the spec: `table.remove(key)` of the tables. -/
def Table.remove {κ α : Type} [DecidableEq κ] (t : List (κ × α)) (k : κ) : List (κ × α) :=
  t.filter (fun e => decide (e.1 ≠ k))

/-- The singleton `Plasmacore`, with the record of what it did. -/
structure Plasmacore where
  handlers : List (String × PlasmacoreMessageHandler)
  reply_handlers : List (Int × PlasmacoreMessageHandler)
  pending_message_data : List Byte
  io_buffer : List Byte
  decode_buffer : List Byte
  idleUpdateFrequency : Double
  is_configured : Bool
  is_launched : Bool
  update_timer : Bool
  is_sending : Bool
  update_requested : Bool
  /-- The number of handler objects created by `new` so far. -/
  next_addr : Nat
  /-- The handler objects created by `new` and not yet deleted. -/
  live : List Nat
  /-- Everything the bus did to the outside so far. -/
  trace : List Event
  fault : Option Fault
deriving DecidableEq, Repr

/-- The bus before `configure`. -/
def Plasmacore.singleton : Plasmacore :=
  { handlers := [], reply_handlers := [], pending_message_data := [], io_buffer := [],
    decode_buffer := [], idleUpdateFrequency := 0, is_configured := false,
    is_launched := false, update_timer := false, is_sending := false,
    update_requested := false, next_addr := 0, live := [], trace := [], fault := none }

/-- Append an event to the trace. -/
def Plasmacore.log (w : Plasmacore) (e : Event) : Plasmacore :=
  { w with trace := w.trace ++ [e] }

/-- The function `do_async_call(cb, millis)`. -/
def do_async_call (cb : AsyncTarget) (millis : Int) (w : Plasmacore) : Plasmacore :=
  w.log (Event.async_call cb millis)

/-- The expression `new PlasmacoreMessageHandler(type, handler)`. -/
def new_handler (type : String) (handler : Callback) (w : Plasmacore) :
    PlasmacoreMessageHandler × Plasmacore :=
  ({ addr := w.next_addr, type := type, callback := handler },
   { w with next_addr := w.next_addr + 1, live := w.live ++ [w.next_addr] })

/-- The statement `delete handler`. -/
def delete_handler (handler : PlasmacoreMessageHandler) (w : Plasmacore) : Plasmacore :=
  { w with live := w.live.filter (fun a => decide (a ≠ handler.addr)) }

/-- The function `Plasmacore::set_message_handler`. -/
def set_message_handler (type : String) (handler : Callback) (w : Plasmacore) : Plasmacore :=
  let (info, w) := new_handler type handler w
  { w with handlers := Table.set w.handlers type info }

/-- The function `Plasmacore::remove_message_handler`. -/
def remove_message_handler (type : String) (w : Plasmacore) : Plasmacore :=
  match Table.find w.handlers type with
  | some handler =>
    let w := { w with handlers := Table.remove w.handlers type }
    delete_handler handler w
  | none => w

/-- The four bytes `uint8_t((size>>24)&255)`, ..., `uint8_t(size&255)` that
`post` writes for a payload of `size` bytes. The bits 0..31 of the length are
the bits of the `int` that `m.data.count` holds. -/
def size_bytes (size : Nat) : List Byte :=
  [Fin.ofNat ((size >>> 24) &&& 255), Fin.ofNat ((size >>> 16) &&& 255),
   Fin.ofNat ((size >>> 8) &&& 255), Fin.ofNat (size &&& 255)]

/-- The function `Plasmacore::post`. -/
def post (ru : Bool → Plasmacore → Plasmacore) (m : PlasmacoreMessage) (w : Plasmacore) :
    Plasmacore :=
  let size := m.data.length
  let w := { w with pending_message_data := w.pending_message_data ++ size_bytes size }
  let w := { w with pending_message_data := w.pending_message_data ++ m.data }
  ru false w

/-- The function `Plasmacore::post_rsvp`. -/
def post_rsvp (ru : Bool → Plasmacore → Plasmacore) (m : PlasmacoreMessage) (callback : Nat)
    (w : Plasmacore) : Plasmacore :=
  let (info, w) := new_handler "" (Callback.user callback) w
  let w := { w with reply_handlers := Table.set w.reply_handlers m.message_id info }
  post ru m w

/-- The function `Plasmacore::configure`, as far as the bus is concerned: the view is
created and the arguments are handed to the runtime outside the bus. -/
def configure (w : Plasmacore) : Plasmacore :=
  if w.is_configured then w
  else
    let w := { w with is_configured := true }
    let w := set_message_handler "" Callback.reply_router w
    w.log Event.rogue_configure

/-- The function `Plasmacore::launch`. -/
def launch (ru : Bool → Plasmacore → Plasmacore) (env : Env) (w : Plasmacore) : Plasmacore :=
  if w.is_launched then w
  else
    let w := { w with is_launched := true }
    let w := w.log Event.rogue_launch
    post ru { type := "Application.on_launch", message_id := 0, data := env.launch_message,
              reply := none } w

/-- The function `Plasmacore::stop`. -/
def stop (w : Plasmacore) : Plasmacore :=
  { w with update_timer := false }

/-- The function `Plasmacore::start`. -/
def start (ru : Bool → Plasmacore → Plasmacore) (env : Env) (w : Plasmacore) : Plasmacore :=
  let w := if !w.is_launched then launch ru env (configure w) else w
  let w := { w with update_timer := true }
  ru true w

/-- The function `Plasmacore::setIdleUpdateFrequency`. -/
def setIdleUpdateFrequency (ru : Bool → Plasmacore → Plasmacore) (env : Env) (f : Double)
    (w : Plasmacore) : Plasmacore :=
  let w := { w with idleUpdateFrequency := f }
  if w.update_timer then start ru env (stop w) else w

/-- The function `Plasmacore::update`. -/
def update (ru : Bool → Plasmacore → Plasmacore) (w : Plasmacore) : Plasmacore :=
  ru true w

/-- The function `Plasmacore::fast_update`. -/
def fast_update (ru : Bool → Plasmacore → Plasmacore) (w : Plasmacore) : Plasmacore :=
  ru false w

/-- One call that a callback makes on the bus. -/
def run_action (ru : Bool → Plasmacore → Plasmacore) (env : Env) (a : Action)
    (w : Plasmacore) : Plasmacore :=
  match a with
  | Action.set_message_handler type handler => set_message_handler type (Callback.user handler) w
  | Action.remove_message_handler type => remove_message_handler type w
  | Action.post m => post ru m w
  | Action.post_rsvp m callback => post_rsvp ru m callback w
  | Action.setIdleUpdateFrequency f => setIdleUpdateFrequency ru env f w
  | Action.start => start ru env w
  | Action.stop => stop w
  | Action.update => update ru w
  | Action.fast_update => fast_update ru w

/-- The calls of a callback, in order. -/
def run_actions (ru : Bool → Plasmacore → Plasmacore) (env : Env) (actions : List Action)
    (w : Plasmacore) : Plasmacore :=
  actions.foldl (fun w a => run_action ru env a w) w

/-- The call `callback(m)` of a callback of the application: the message comes
back with the reply object the callback left in it. -/
def call_user (ru : Bool → Plasmacore → Plasmacore) (env : Env) (id : Nat)
    (m : PlasmacoreMessage) (w : Plasmacore) : Plasmacore × PlasmacoreMessage :=
  let run := env.callback id w.trace m
  let w := w.log (Event.callback id m)
  (run_actions ru env run.actions w, { m with reply := run.reply })

/-- The call `handler->callback(m)` of a stored handler. The lambda of
`configure` looks the message id up in `reply_handlers`, removes the entry,
calls its callback and deletes the handler object. The reply table only holds
callbacks of the application (`post_rsvp` is its only writer); the lambda
called on a message whose entry it has just removed would find nothing. -/
def invoke (ru : Bool → Plasmacore → Plasmacore) (env : Env) (cb : Callback)
    (m : PlasmacoreMessage) (w : Plasmacore) : Plasmacore × PlasmacoreMessage :=
  match cb with
  | Callback.user id => call_user ru env id m w
  | Callback.reply_router =>
    match Table.find w.reply_handlers m.message_id with
    | some handler =>
      let w := { w with reply_handlers := Table.remove w.reply_handlers m.message_id }
      let (w, m) :=
        match handler.callback with
        | Callback.user id => call_user ru env id m w
        | Callback.reply_router => (w, m)
      (delete_handler handler w, m)
    | none => (w, m)

/-- The function `Plasmacore::dispatch`. -/
def dispatch (ru : Bool → Plasmacore → Plasmacore) (env : Env) (m : PlasmacoreMessage)
    (w : Plasmacore) : Plasmacore × PlasmacoreMessage :=
  let w := w.log (Event.dispatch m)
  match Table.find w.handlers m.type with
  | some entry => invoke ru env entry.callback m w
  | none => (w, m)

/-- The read `bytes[i]` of the inbound buffer. -/
def byte_at (bytes : List Byte) (i : Int) : Option Byte :=
  if 0 ≤ i then bytes[i.toNat]? else none

/-- The `int` with the bit pattern `u`. -/
def to_int32 (u : Nat) : Int := wrap32 u

/-- The four reads that assemble `size` at `read_pos`. -/
def read_size (bytes : List Byte) (read_pos : Int) : Option Int :=
  match byte_at bytes read_pos, byte_at bytes (wrap32 (read_pos + 1)),
        byte_at bytes (wrap32 (read_pos + 2)), byte_at bytes (wrap32 (read_pos + 3)) with
  | some b0, some b1, some b2, some b3 =>
    some (to_int32 ((b0.val <<< 24) ||| (b1.val <<< 16) ||| (b2.val <<< 8) ||| b3.val))
  | _, _, _, _ => none

/-- The loop `for (int i = 0; i < size; ++i) decode_buffer.add( bytes[read_pos+i] )`,
from `i` on, with `n` passes left. -/
def copy_payload (bytes : List Byte) (read_pos : Int) (i : Nat) : Nat → Option (List Byte)
  | 0 => some []
  | n + 1 =>
    match byte_at bytes (wrap32 (read_pos + i)) with
    | none => none
    | some b => (copy_payload bytes read_pos (i + 1) n).map (fun rest => b :: rest)

/-- Modelled from the spec: the constructor `PlasmacoreMessage(decode_buffer)`
(PlasmacoreMessage.cpp is not part of the source): the message keeps the
payload bytes; its type, id and reply object are what the codec decodes. -/
def decode_message (env : Env) (payload : List Byte) : PlasmacoreMessage :=
  { type := env.message_type payload, message_id := env.message_id payload,
    data := payload, reply := env.message_reply payload }

/-- Modelled from the spec: `m._reply->post()` (PlasmacoreMessage.cpp is not
part of the source): the reply is handed to `Plasmacore::post`. -/
def post_reply (ru : Bool → Plasmacore → Plasmacore) (m : PlasmacoreMessage) (r : Reply)
    (w : Plasmacore) : Plasmacore :=
  post ru { type := "", message_id := m.message_id, data := r.data, reply := none } w

/-- The lines `dispatch( m ); if (m._reply && !m._reply->sent) m._reply->post();`. -/
def dispatch_and_reply (ru : Bool → Plasmacore → Plasmacore) (env : Env)
    (m : PlasmacoreMessage) (w : Plasmacore) : Plasmacore :=
  let (w, m) := dispatch ru env m w
  match m.reply with
  | some r => if !r.sent then post_reply ru m r w else w
  | none => w

/-- The frame-decoding loop `while (read_pos+4 <= count)` of `real_update`,
with `fuel` passes allowed. -/
def decode_loop (ru : Bool → Plasmacore → Plasmacore) (env : Env) (bytes : List Byte)
    (count : Int) : Nat → Int → Plasmacore → Plasmacore
  | 0, read_pos, w =>
    if wrap32 (read_pos + 4) ≤ count then { w with fault := some Fault.out_of_fuel } else w
  | fuel + 1, read_pos, w =>
    if wrap32 (read_pos + 4) ≤ count then
      match read_size bytes read_pos with
      | none => { w with fault := some Fault.out_of_bounds }
      | some size =>
        let read_pos := wrap32 (read_pos + 4)
        if wrap32 (read_pos + size) ≤ count then
          match copy_payload bytes read_pos 0 size.toNat with
          | none => { w with fault := some Fault.out_of_bounds }
          | some payload =>
            let w := { w with decode_buffer := payload }
            let m := decode_message env w.decode_buffer
            let w := dispatch_and_reply ru env m w
            decode_loop ru env bytes count fuel (wrap32 (read_pos + size)) w
        else
          let w := w.log Event.skipped
          decode_loop ru env bytes count fuel (wrap32 (read_pos + size)) w
    else w

/-- The body of the loop `for (int _ = 0; _ < 10; ++_)` up to `io_buffer.clear()`. -/
def burst_iteration (ru : Bool → Plasmacore → Plasmacore) (env : Env) (fuel : Nat)
    (w : Plasmacore) : Plasmacore :=
  let w := { w with update_requested := false }
  let w := { w with io_buffer := w.pending_message_data }
  let w := { w with pending_message_data := [] }
  let received := env.post_messages w.trace w.io_buffer
  let w := { w with trace := w.trace ++ [Event.post_messages w.io_buffer received],
                    io_buffer := received }
  let w := decode_loop ru env w.io_buffer (count w.io_buffer) fuel 0 w
  if w.fault.isSome then w else { w with io_buffer := [] }

/-- The loop `for (int _ = 0; _ < 10; ++_)` with `n` passes left. -/
def burst (ru : Bool → Plasmacore → Plasmacore) (env : Env) (fuel : Nat) :
    Nat → Plasmacore → Plasmacore
  | 0, w => w
  | n + 1, w =>
    let w := burst_iteration ru env fuel w
    if w.fault.isSome then w
    else if !w.update_requested then w
    else burst ru env fuel n w

/-- The function `Plasmacore::real_update`. A burst needs one unit of `fuel`; its decode
loops and the calls made from its callbacks get the rest. -/
def real_update (env : Env) (fuel : Nat) (reschedule : Bool) (w : Plasmacore) : Plasmacore :=
  if !w.update_timer then w
  else
    let w := if reschedule then do_async_call AsyncTarget.update (env.idle_millis w.idleUpdateFrequency) w
             else w
    if w.is_sending then { w with update_requested := true }
    else
      match fuel with
      | 0 => { w with fault := some Fault.out_of_fuel }
      | fuel + 1 =>
        let w := { w with is_sending := true }
        let w := burst (real_update env fuel) env fuel 10 w
        if w.fault.isSome then w
        else
          let w := { w with is_sending := false }
          if w.update_requested then do_async_call AsyncTarget.fast_update 16 w else w

/-- The exchanges with the runtime recorded in a trace, in order. -/
def exchanged : List Event → List (List Byte × List Byte)
  | [] => []
  | Event.post_messages s r :: t => (s, r) :: exchanged t
  | _ :: t => exchanged t

/-- The messages handed to `dispatch` in a trace, in order. -/
def dispatched : List Event → List PlasmacoreMessage
  | [] => []
  | Event.dispatch m :: t => m :: dispatched t
  | _ :: t => dispatched t

/-- The calls of callbacks of the application in a trace, in order. -/
def called : List Event → List (Nat × PlasmacoreMessage)
  | [] => []
  | Event.callback id m :: t => (id, m) :: called t
  | _ :: t => called t

/-- The number of framing errors reported in a trace. -/
def skips : List Event → Nat
  | [] => 0
  | Event.skipped :: t => skips t + 1
  | _ :: t => skips t

/-- The calls of `do_async_call` in a trace, in order. -/
def async_calls : List Event → List (AsyncTarget × Int)
  | [] => []
  | Event.async_call cb ms :: t => (cb, ms) :: async_calls t
  | _ :: t => async_calls t

/-- The bytes that `post` appends for a payload: the length, then the payload. -/
def frame (payload : List Byte) : List Byte := size_bytes payload.length ++ payload

/-- The frames of a sequence of payloads, one after the other. -/
def frames : List (List Byte) → List Byte
  | [] => []
  | p :: ps => frame p ++ frames ps

/-- The events that are neither an exchange, a dispatch, a callback call, a
framing error nor a catch-up tick. -/
def Event.silent : Event → Bool
  | Event.rogue_configure => true
  | Event.rogue_launch => true
  | Event.async_call AsyncTarget.update _ => true
  | _ => false

/-- What a call made while a burst is running leaves alone: the guard, the
inbound buffer, the fault, the exchanges and the framing errors. It only
appends frames to the outbound buffer and only schedules idle ticks; `ds` and
`cs` are the dispatches and the callback calls it adds. -/
structure Quiet (ds : List PlasmacoreMessage) (cs : List (Nat × PlasmacoreMessage))
    (w w' : Plasmacore) : Prop where
  sending : w'.is_sending = w.is_sending
  io : w'.io_buffer = w.io_buffer
  fault : w'.fault = w.fault
  exchanged : exchanged w'.trace = exchanged w.trace
  skipped : skips w'.trace = skips w.trace
  dispatched : dispatched w'.trace = dispatched w.trace ++ ds
  called : called w'.trace = called w.trace ++ cs
  pending : ∃ fs, w'.pending_message_data = w.pending_message_data ++ frames fs
  scheduled : ∃ more, async_calls w'.trace = async_calls w.trace ++ more ∧
    ∀ c ∈ more, c.1 = AsyncTarget.update

/-- No outbound work is stranded: if bytes are pending while updates are
active, a continuation has been requested. -/
def Covered (w : Plasmacore) : Prop :=
  w.pending_message_data ≠ [] → w.update_timer = true → w.update_requested = true

/-- The tick that `real_update` runs when a burst is in progress. -/
def nested_tick (env : Env) (reschedule : Bool) (w : Plasmacore) : Plasmacore :=
  if !w.update_timer then w
  else
    let w := if reschedule then do_async_call AsyncTarget.update (env.idle_millis w.idleUpdateFrequency) w
             else w
    { w with update_requested := true }

/-- The `real_update` handed to an operation behaves as the one of the bus
while a burst is in progress. -/
def Guarded (env : Env) (ru : Bool → Plasmacore → Plasmacore) : Prop :=
  ∀ r w, w.is_sending = true → ru r w = nested_tick env r w

/-- A runtime that answers nothing, a codec that decodes the type "t" and the
id 0, and callbacks that do nothing. -/
def sample_env : Env where
  post_messages := fun _ _ => []
  message_type := fun _ => "t"
  message_id := fun _ => 0
  message_reply := fun _ => none
  callback := fun _ _ _ => { actions := [], reply := none }
  idle_millis := fun f => f
  launch_message := []

/-- A bus in the middle of a burst. -/
def sending_bus : Plasmacore :=
  { Plasmacore.singleton with update_timer := true, is_sending := true }

/-- A message with the given payload. -/
def message_of (payload : List Byte) : PlasmacoreMessage :=
  { type := "t", message_id := 0, data := payload, reply := none }

/-- Posting a sequence of messages, in order. -/
def post_all (ru : Bool → Plasmacore → Plasmacore) (ms : List PlasmacoreMessage)
    (w : Plasmacore) : Plasmacore :=
  ms.foldl (fun w m => post ru m w) w

/-- A payload of 2^31 - 4 bytes. -/
def payload_at_int_limit : List Byte := List.replicate 2147483644 0

/-- A payload of 2^30 bytes. -/
def payload_of_one_gigabyte : List Byte := List.replicate 1073741824 0

/-- The first half of a pass of the burst loop: the continuation flag is
reset, the outbound buffer is moved to the exchange buffer and handed to the
runtime, which leaves its answer there. -/
def exchange_step (env : Env) (w : Plasmacore) : Plasmacore :=
  { w with update_requested := false, pending_message_data := [],
           io_buffer := env.post_messages w.trace w.pending_message_data,
           trace := w.trace ++ [Event.post_messages w.pending_message_data
             (env.post_messages w.trace w.pending_message_data)] }

/-- The start of a tick that passed the guard on `update_timer`: the next
idle update is scheduled when `reschedule` is set. -/
def tick_entry (env : Env) (reschedule : Bool) (w : Plasmacore) : Plasmacore :=
  if reschedule then do_async_call AsyncTarget.update (env.idle_millis w.idleUpdateFrequency) w
  else w

/-- The state in which the burst loop starts: the tick is entered and the
guard `is_sending` is set. -/
def burst_entry (env : Env) (reschedule : Bool) (w : Plasmacore) : Plasmacore :=
  { tick_entry env reschedule w with is_sending := true }

/-- The end of a tick that ran a burst: the guard is released and the
catch-up tick is scheduled when a continuation is requested. A burst that
faulted does not get there. -/
def tick_finish (w : Plasmacore) : Plasmacore :=
  if w.fault.isSome then w
  else if w.update_requested then
    do_async_call AsyncTarget.fast_update 16 { w with is_sending := false }
  else { w with is_sending := false }

/-- A runtime that answers every exchange with one frame of an empty payload,
decoded as a message of type "t", and callbacks that post one message every
time they are called. -/
def echo_env : Env where
  post_messages := fun _ _ => [0, 0, 0, 0]
  message_type := fun _ => "t"
  message_id := fun _ => 0
  message_reply := fun _ => none
  callback := fun _ _ _ => { actions := [Action.post (message_of [])], reply := none }
  idle_millis := fun f => f
  launch_message := []

/-- An idle bus with updates active and callback 0 registered for the type "t". -/
def echo_bus : Plasmacore :=
  { Plasmacore.singleton with
    update_timer := true
    handlers := [("t", { addr := 0, type := "t", callback := Callback.user 0 })]
    next_addr := 1
    live := [0] }

/-- What one pass of the burst loop adds to the trace with the echoing runtime. -/
def echo_events (sent : List Byte) : List Event :=
  [Event.post_messages sent [0, 0, 0, 0],
   Event.dispatch (decode_message echo_env []),
   Event.callback 0 (decode_message echo_env [])]

/-- One pass of the burst loop with the echoing runtime: the pending bytes go
out, one message comes in, and its callback posts one empty payload. -/
def echo_pass (w : Plasmacore) : Plasmacore :=
  { w with update_requested := true, pending_message_data := [0, 0, 0, 0],
           io_buffer := [], decode_buffer := [],
           trace := w.trace ++ echo_events w.pending_message_data }

/-- The ticks that a stretch of a run schedules beyond those of `old` are
idle ticks only. -/
def OnlyIdle (old : List (AsyncTarget × Int)) (v : Plasmacore) : Prop :=
  ∃ more, async_calls v.trace = old ++ more ∧ ∀ c ∈ more, c.1 = AsyncTarget.update

/-- An idle bus with updates active. -/
def idle_bus : Plasmacore :=
  { Plasmacore.singleton with update_timer := true }

/-- A run of ticks, one after the other, with the given `reschedule` flags. -/
def ticks (env : Env) (fuel : Nat) (rs : List Bool) (w : Plasmacore) : Plasmacore :=
  rs.foldl (fun v r => real_update env fuel r v) w

/-- The state of the bus apart from the continuation flag `update_requested`
and the record of what it did. -/
def apart_from_request (w : Plasmacore) : Plasmacore :=
  { w with update_requested := false, trace := [] }

/-- A runtime that answers every exchange with one frame of an empty payload
and callbacks that call `stop` and then post one message. -/
def stopping_env : Env where
  post_messages := fun _ _ => [0, 0, 0, 0]
  message_type := fun _ => "t"
  message_id := fun _ => 0
  message_reply := fun _ => none
  callback := fun _ _ _ => { actions := [Action.stop, Action.post (message_of [])], reply := none }
  idle_millis := fun f => f
  launch_message := []

/-- The call of a callback respects the correlation of the message id `X`: it
stores no reply callback under `X` (message ids are unique) and leaves the
reserved type `""` alone. -/
def Action.keeps (X : Int) : Action → Prop
  | Action.post_rsvp m _ => m.message_id ≠ X
  | Action.set_message_handler t _ => t ≠ ""
  | Action.remove_message_handler t => t ≠ ""
  | _ => True

/-- The reserved type `""` is handled by the lambda of `configure`. -/
def RouterInstalled (w : Plasmacore) : Prop :=
  (Table.find w.handlers "").map (fun h => h.callback) = some Callback.reply_router

/-- The reply table answers for `X` as before and the lambda of `configure`
is still installed. -/
def Kept (X : Int) (w w' : Plasmacore) : Prop :=
  Table.find w'.reply_handlers X = Table.find w.reply_handlers X ∧
    (RouterInstalled w → RouterInstalled w')

/-- The first line of `post_rsvp`: the callback is stored under the message
id in a new handler object. -/
def store_reply (message_id : Int) (callback : Nat) (w : Plasmacore) : Plasmacore :=
  { w with next_addr := w.next_addr + 1, live := w.live ++ [w.next_addr],
           reply_handlers := Table.set w.reply_handlers message_id
             { addr := w.next_addr, type := "", callback := Callback.user callback } }

/-- A configured bus in its burst on which the message with id 5 has been
posted with the callback 3. -/
def awaiting_bus : Plasmacore :=
  post_rsvp (real_update sample_env 1)
    { type := "q", message_id := 5, data := [1], reply := none } 3 (configure sending_bus)

/-- The runtime answers every exchange with at most `n` complete frames that
the `int` count of the exchange buffer holds. -/
def WellFramed (env : Env) (n : Nat) : Prop :=
  ∀ tr out, ∃ ps, env.post_messages tr out = frames ps ∧ ps.length ≤ n ∧
    (frames ps).length + 4 < 2147483648

/-- The bytes that the auto-reply of `real_update` appends for a message that
comes back from `dispatch`: the frame of its reply object when there is one
that is not marked sent, nothing otherwise. -/
def auto_reply_frames (m : PlasmacoreMessage) : List Byte :=
  match m.reply with
  | some r => if r.sent then [] else frame r.data
  | none => []

/-- A message with a reply object that no callback has sent. -/
def asking_message : PlasmacoreMessage :=
  { type := "t", message_id := 9, data := [1], reply := some { data := [5], sent := false } }

/-- An inbound buffer whose four bytes declare the length FF FF FF FC. -/
def minus_four_frame : List Byte := [255, 255, 255, 252]

/-- An inbound buffer whose four bytes declare the length 80 00 00 00. -/
def int_min_frame : List Byte := [128, 0, 0, 0]

/-- The scenario of the burst bound: the runtime answers every exchange with
one complete frame whose message has the type `t`, and the callback `c` posts
exactly one message every time it is called (and leaves no reply object for
the auto-reply to post). -/
def PingPong (env : Env) (t : String) (c : Nat) : Prop :=
  (∀ tr out, ∃ p, env.post_messages tr out = frame p ∧ p.length + 8 < 2147483648 ∧
    env.message_type p = t) ∧
  (∀ tr m, ∃ m', (env.callback c tr m).actions = [Action.post m'] ∧
    ∀ r, (env.callback c tr m).reply = some r → r.sent = true)

/-- The callback `c` is the handler of the type `t`. -/
def Handles (w : Plasmacore) (t : String) (c : Nat) : Prop :=
  ∃ h, Table.find w.handlers t = some h ∧ h.callback = Callback.user c

/-- What one pass of the burst loop does in the scenario of the burst bound:
one exchange, one dispatch, one call of the callback, which leaves the frame
of the one message it posted in the outbound buffer and a continuation
requested. -/
def PingPass (env : Env) (c : Nat) (v v' : Plasmacore) : Prop :=
  v'.is_sending = v.is_sending ∧ v'.update_timer = v.update_timer ∧
  v'.handlers = v.handlers ∧ v'.fault = v.fault ∧ v'.update_requested = true ∧
  (exchanged v'.trace).length = (exchanged v.trace).length + 1 ∧
  (dispatched v'.trace).length = (dispatched v.trace).length + 1 ∧
  (called v'.trace).length = (called v.trace).length + 1 ∧
  async_calls v'.trace = async_calls v.trace ∧
  ∃ tr m m', (env.callback c tr m).actions = [Action.post m'] ∧
    v'.pending_message_data = frame m'.data

/-- The bytes handed to the runtime by a sequence of exchanges, in order. -/
def handed_over (news : List (List Byte × List Byte)) : List Byte :=
  (news.map Prod.fst).flatten

/-- Outbound conservation between a state `w` and a later state `v`: the
exchanges of `v` are those of `w` followed by new ones, and the bytes handed
over by the new ones followed by the outbound buffer of `v` are the outbound
buffer of `w` followed by whole frames. -/
def Conserved (w v : Plasmacore) : Prop :=
  ∃ news fs, exchanged v.trace = exchanged w.trace ++ news ∧
    handed_over news ++ v.pending_message_data = w.pending_message_data ++ frames fs

/-- The bus together with the timers set by `do_async_call` that have not
fired yet. A timer, once set, stays in the queue until it fires: the bus
never cancels one. -/
structure Timed where
  bus : Plasmacore
  queue : List (AsyncTarget × Int)

/-- An operation of the bus, run with the timer queue: the timers it sets
(the calls of `do_async_call` it adds to the trace) join the queue. -/
def Timed.run (op : Plasmacore → Plasmacore) (s : Timed) : Timed :=
  { bus := op s.bus,
    queue := s.queue ++ (async_calls (op s.bus).trace).drop (async_calls s.bus.trace).length }

/-- The timer at position `i` of the queue fires: it leaves the queue and its
function (`update` or `fast_update`) is called. -/
def Timed.fire (env : Env) (fuel : Nat) (i : Nat) (s : Timed) : Timed :=
  match s.queue[i]? with
  | none => s
  | some (AsyncTarget.update, _) =>
    Timed.run (update (real_update env fuel)) { s with queue := s.queue.eraseIdx i }
  | some (AsyncTarget.fast_update, _) =>
    Timed.run (fast_update (real_update env fuel)) { s with queue := s.queue.eraseIdx i }

/-- What happens next to a running bus: the application changes the idle
cadence, or the timer at a position of the queue fires. -/
inductive TimerStep where
  | cadence (f : Double)
  | fire (i : Nat)
deriving DecidableEq, Repr

/-- One step of a run with the timer queue. -/
def Timed.step (env : Env) (fuel : Nat) (a : TimerStep) (s : Timed) : Timed :=
  match a with
  | TimerStep.cadence f => Timed.run (setIdleUpdateFrequency (real_update env fuel) env f) s
  | TimerStep.fire i => Timed.fire env fuel i s

/-- A run with the timer queue: the steps, one after the other. -/
def Timed.steps (env : Env) (fuel : Nat) (l : List TimerStep) (s : Timed) : Timed :=
  l.foldl (fun s a => Timed.step env fuel a s) s

/-- The number of cadence changes in a run. -/
def cadence_changes : List TimerStep → Nat
  | [] => 0
  | TimerStep.cadence _ :: l => cadence_changes l + 1
  | TimerStep.fire _ :: l => cadence_changes l

/-- The number of idle ticks (timers of `update`) that are pending. -/
def idle_pending (s : Timed) : Nat :=
  (s.queue.filter (fun c => decide (c.1 = AsyncTarget.update))).length

/-- A pass of the burst loop in which nothing comes in: the outbound buffer is
handed over and the exchange buffer is cleared. -/
def empty_pass (env : Env) (v : Plasmacore) : Plasmacore :=
  { exchange_step env v with io_buffer := [] }

/-- The bus after `start()`, with the timer that `start` set. -/
def started : Timed :=
  Timed.run (start (real_update sample_env 1) sample_env) { bus := Plasmacore.singleton, queue := [] }

/-- A launched bus with updates active, no burst in progress and no fault,
whose pending timers are all idle ticks. -/
def Running (s : Timed) : Prop :=
  s.bus.update_timer = true ∧ s.bus.is_sending = false ∧ s.bus.is_launched = true ∧
    s.bus.fault = none ∧ ∀ c ∈ s.queue, c.1 = AsyncTarget.update

/-- The payloads that one call of a callback on the bus enqueues, in a state
`w` in which a burst is running: the payload of a posted message, and the
launch message when the call starts a bus that was not launched. -/
def enqueued_by (env : Env) (a : Action) (w : Plasmacore) : List (List Byte) :=
  match a with
  | Action.post m => [m.data]
  | Action.post_rsvp m _ => [m.data]
  | Action.start => if w.is_launched then [] else [env.launch_message]
  | Action.setIdleUpdateFrequency _ =>
    if w.update_timer && !w.is_launched then [env.launch_message] else []
  | _ => []

/-- The payloads that the calls of a callback enqueue, in the order of the calls. -/
def enqueued_by_all (ru : Bool → Plasmacore → Plasmacore) (env : Env) :
    List Action → Plasmacore → List (List Byte)
  | [], _ => []
  | a :: as, w => enqueued_by env a w ++ enqueued_by_all ru env as (run_action ru env a w)

/-- The calls of a callback that start a tick while the burst is in progress:
`update`, `fast_update`, and `post`, whose last line is `real_update(false)`. -/
def Action.ticks : Action → Bool
  | Action.update => true
  | Action.fast_update => true
  | Action.post _ => true
  | _ => false

/-- The catch-up ticks (`fast_update`) scheduled in a trace, in order. -/
def catch_ups (tr : List Event) : List (AsyncTarget × Int) :=
  (async_calls tr).filter (fun c => decide (c.1 = AsyncTarget.fast_update))

/-- The scenario of coalescing: counted from `n0` exchanges on, the runtime
answers the next `j` exchanges with one complete frame each, whose message
has the type `t`, and every later exchange with nothing; the callback `c`
starts ticks every time it is called, one or more, as many as it likes, and
does nothing else (and leaves no reply object for the auto-reply to post). -/
def Nagging (env : Env) (t : String) (c : Nat) (n0 j : Nat) : Prop :=
  (∀ tr out, (exchanged tr).length < n0 + j →
    ∃ p, env.post_messages tr out = frame p ∧ p.length + 8 < 2147483648 ∧
      env.message_type p = t) ∧
  (∀ tr out, n0 + j ≤ (exchanged tr).length → env.post_messages tr out = []) ∧
  (∀ tr m, (env.callback c tr m).actions ≠ [] ∧
    (∀ a ∈ (env.callback c tr m).actions, a.ticks = true) ∧
    ∀ r, (env.callback c tr m).reply = some r → r.sent = true)

/-- A runtime that answers the first `j` exchanges with one frame of an empty
payload and every later one with nothing, and callbacks that start three
ticks every time they are called: `update`, `post` and `fast_update`. -/
def nagging_env (j : Nat) : Env where
  post_messages := fun tr _ => if (exchanged tr).length < j then [0, 0, 0, 0] else []
  message_type := fun _ => "t"
  message_id := fun _ => 0
  message_reply := fun _ => none
  callback := fun _ _ _ =>
    { actions := [Action.update, Action.post (message_of []), Action.fast_update],
      reply := none }
  idle_millis := fun f => f
  launch_message := []

/-- The lambda of `configure` is installed under the reserved type `""` only:
the application registers its own callbacks. -/
def RouterReserved (w : Plasmacore) : Prop :=
  ∀ t h, Table.find w.handlers t = some h → h.callback = Callback.reply_router → t = ""

/-- The callback call that `dispatch` of `m` may make in the state `v` for a
reason other than the reply entry of the id `X`: the call of the handler
registered for the type of `m`, or the call of the reply entry of another id. -/
def OtherCall (X : Int) (v : Plasmacore) (m : PlasmacoreMessage) (c : Nat) : Prop :=
  (m.type ≠ "" ∧ ∃ h, Table.find v.handlers m.type = some h ∧ h.callback = Callback.user c) ∨
  (m.type = "" ∧ m.message_id ≠ X ∧
    ∃ h, Table.find v.reply_handlers m.message_id = some h ∧ h.callback = Callback.user c)

/-- The inbound messages `ms` handed to `dispatch`, one after the other. -/
def dispatch_all (ru : Bool → Plasmacore → Plasmacore) (env : Env)
    (ms : List PlasmacoreMessage) (w : Plasmacore) : Plasmacore :=
  ms.foldl (fun w m => (dispatch ru env m w).1) w

/-- The payloads that the calls of a callback post, in the order of the
calls: those of its `post` and `post_rsvp` calls. -/
def posts_of : List Action → List (List Byte)
  | [] => []
  | Action.post m :: as => m.data :: posts_of as
  | Action.post_rsvp m _ :: as => m.data :: posts_of as
  | _ :: as => posts_of as

/-- The payload that the auto-reply posts for a reply object: its bytes when
there is one that is not marked sent. -/
def auto_reply_payloads : Option Reply → List (List Byte)
  | some r => if r.sent then [] else [r.data]
  | none => []

/-- The line `if (m._reply && !m._reply->sent) m._reply->post();` on the
state and the message that `dispatch` leaves. -/
def auto_reply (ru : Bool → Plasmacore → Plasmacore) (p : Plasmacore × PlasmacoreMessage) :
    Plasmacore :=
  match p.2.reply with
  | some r => if !r.sent then post_reply ru p.2 r p.1 else p.1
  | none => p.1

/-- The events that a run from `w` to `v` added to the trace. -/
def new_events (w v : Plasmacore) : List Event :=
  v.trace.drop w.trace.length

/-- A launched bus with updates active and the callback 0 registered for the
type "t". -/
def launched_echo_bus : Plasmacore :=
  { echo_bus with is_launched := true, is_configured := true }

/-- The events that are neither an exchange, a dispatch nor a callback call. -/
def Event.plain : Event → Bool
  | Event.post_messages _ _ => false
  | Event.dispatch _ => false
  | Event.callback _ _ => false
  | _ => true

/-- The outbound side of a run as its trace tells it: the events read so far,
the dispatched message whose callback call (if any) has not been read yet,
the buffers that the exchanges read so far should have handed over, the
payloads enqueued so far, and the outbound buffer. -/
structure Outbound where
  seen : List Event
  awaiting : Option PlasmacoreMessage
  handed : List (List Byte)
  enqueued : List (List Byte)
  buffer : List Byte

/-- A dispatch that no callback call follows made no call: only the
auto-reply of the decoded message is enqueued. -/
def Outbound.settle (o : Outbound) : Outbound :=
  match o.awaiting with
  | none => o
  | some m =>
    { o with awaiting := none,
             enqueued := o.enqueued ++ auto_reply_payloads m.reply,
             buffer := o.buffer ++ frames (auto_reply_payloads m.reply) }

/-- One event of the trace, read for the outbound side. An exchange hands the
whole outbound buffer over and leaves it empty. The callback call that
follows a dispatch enqueues, at the end of the buffer, the frames of the
messages that its calls post, in the order of the calls, and then the
auto-reply if the reply object it leaves is not marked sent. -/
def Outbound.step (env : Env) (o : Outbound) (e : Event) : Outbound :=
  match e with
  | Event.callback id m =>
    match o.awaiting with
    | some _ =>
      { seen := o.seen ++ [e], awaiting := none, handed := o.handed,
        enqueued := o.enqueued
          ++ (posts_of (env.callback id o.seen m).actions
              ++ auto_reply_payloads (env.callback id o.seen m).reply),
        buffer := o.buffer
          ++ frames (posts_of (env.callback id o.seen m).actions
              ++ auto_reply_payloads (env.callback id o.seen m).reply) }
    | none => { o with seen := o.seen ++ [e] }
  | Event.dispatch m =>
    { o.settle with seen := o.seen ++ [e], awaiting := some m }
  | Event.post_messages _ _ =>
    { o.settle with seen := o.seen ++ [e], handed := o.settle.handed ++ [o.settle.buffer],
                    buffer := [] }
  | _ => { o.settle with seen := o.seen ++ [e] }

/-- The outbound side of the events `S` that follow the state `w`. -/
def outbound_replay (env : Env) (w : Plasmacore) (S : List Event) : Outbound :=
  (S.foldl (Outbound.step env)
    { seen := w.trace, awaiting := none, handed := [], enqueued := [],
      buffer := w.pending_message_data }).settle

/-- The outbound side of the run from `w` to `v` is as the trace tells it:
the trace of `v` continues the one of `w`, every exchange in between handed
over the buffer that the replay of the events expects, and the outbound
buffer of `v` is the one the replay ends with. -/
def Replayed (env : Env) (w v : Plasmacore) : Prop :=
  ∃ S, v.trace = w.trace ++ S ∧
    (outbound_replay env w S).handed = (exchanged S).map Prod.fst ∧
    (outbound_replay env w S).buffer = v.pending_message_data

/-- What the replay keeps, whatever the events: the buffers it expects the
exchanges to hand over, followed by the outbound buffer, are the outbound
buffer at the start followed by the frames of the payloads enqueued. -/
def Outbound.conserves (start : List Byte) (o : Outbound) : Prop :=
  o.handed.flatten ++ o.buffer = start ++ frames o.enqueued

/-- The payload `p` is the encoding of a reply to the message id `id`: it
decodes as a message of the reserved type `""` with that id. -/
def is_reply_to (env : Env) (id : Int) (p : List Byte) : Bool :=
  decide (env.message_type p = "") && decide (env.message_id p = id)

/-- The number of replies to the message id `id` among the payloads `ps`. -/
def replies_to (env : Env) (id : Int) (ps : List (List Byte)) : Nat :=
  (ps.filter (is_reply_to env id)).length

/-- A codec that decodes the payload `[5]` as a reply to the id 9 and every
other payload as a message of the type "t", and callbacks that post that
reply themselves and mark the reply object of their message as sent. -/
def replying_env : Env where
  post_messages := fun _ _ => []
  message_type := fun p => if p = [5] then "" else "t"
  message_id := fun _ => 9
  message_reply := fun _ => none
  callback := fun _ _ _ =>
    { actions := [Action.post { type := "", message_id := 9, data := [5], reply := none }],
      reply := some { data := [5], sent := true } }
  idle_millis := fun f => f
  launch_message := []

/-- The bus `launched_echo_bus` in the middle of a burst. -/
def echo_sending_bus : Plasmacore :=
  { launched_echo_bus with is_sending := true }

theorem exchanged_append (a b : List Event) : exchanged (a ++ b) = exchanged a ++ exchanged b := by
  induction a with
  | nil => rfl
  | cons e t ih => cases e <;> simp [exchanged, ih]

theorem dispatched_append (a b : List Event) :
    dispatched (a ++ b) = dispatched a ++ dispatched b := by
  induction a with
  | nil => rfl
  | cons e t ih => cases e <;> simp [dispatched, ih]

theorem called_append (a b : List Event) : called (a ++ b) = called a ++ called b := by
  induction a with
  | nil => rfl
  | cons e t ih => cases e <;> simp [called, ih]

theorem skips_append (a b : List Event) : skips (a ++ b) = skips a + skips b := by
  induction a with
  | nil => simp [skips]
  | cons e t ih => cases e <;> simp [skips, ih]; omega

theorem async_calls_append (a b : List Event) :
    async_calls (a ++ b) = async_calls a ++ async_calls b := by
  induction a with
  | nil => rfl
  | cons e t ih => cases e <;> simp [async_calls, ih]

theorem frames_append (a b : List (List Byte)) : frames (a ++ b) = frames a ++ frames b := by
  induction a with
  | nil => rfl
  | cons p ps ih => simp [frames, ih]

theorem Quiet.refl (w : Plasmacore) : Quiet [] [] w w := by
  constructor <;> first
    | exact ⟨[], by simp [frames]⟩
    | simp

theorem Quiet.trans {ds1 ds2 cs1 cs2} {w1 w2 w3 : Plasmacore} (h1 : Quiet ds1 cs1 w1 w2)
    (h2 : Quiet ds2 cs2 w2 w3) : Quiet (ds1 ++ ds2) (cs1 ++ cs2) w1 w3 := by
  constructor
  · rw [h2.sending, h1.sending]
  · rw [h2.io, h1.io]
  · rw [h2.fault, h1.fault]
  · rw [h2.exchanged, h1.exchanged]
  · rw [h2.skipped, h1.skipped]
  · rw [h2.dispatched, h1.dispatched, List.append_assoc]
  · rw [h2.called, h1.called, List.append_assoc]
  · obtain ⟨f1, e1⟩ := h1.pending
    obtain ⟨f2, e2⟩ := h2.pending
    exact ⟨f1 ++ f2, by rw [e2, e1, frames_append, List.append_assoc]⟩
  · obtain ⟨m1, e1, a1⟩ := h1.scheduled
    obtain ⟨m2, e2, a2⟩ := h2.scheduled
    refine ⟨m1 ++ m2, by rw [e2, e1, List.append_assoc], ?_⟩
    intro c hc
    rcases List.mem_append.1 hc with h | h
    · exact a1 c h
    · exact a2 c h

theorem Quiet.trans_nil {w1 w2 w3 : Plasmacore} (h1 : Quiet [] [] w1 w2)
    (h2 : Quiet [] [] w2 w3) : Quiet [] [] w1 w3 := by
  simpa using h1.trans h2

/-- A change of fields that the relation does not look at. -/
theorem quiet_of_same {w w' : Plasmacore} (h1 : w'.is_sending = w.is_sending)
    (h2 : w'.io_buffer = w.io_buffer) (h3 : w'.fault = w.fault)
    (h4 : w'.pending_message_data = w.pending_message_data) (h5 : w'.trace = w.trace) :
    Quiet [] [] w w' := by
  constructor
  · exact h1
  · exact h2
  · exact h3
  · rw [h5]
  · rw [h5]
  · rw [h5]; simp
  · rw [h5]; simp
  · exact ⟨[], by rw [h4]; simp [frames]⟩
  · exact ⟨[], by rw [h5]; simp, by simp⟩

theorem quiet_log_silent (w : Plasmacore) (e : Event) (he : e.silent = true) :
    Quiet [] [] w (w.log e) := by
  constructor
  case pending => exact ⟨[], by simp [Plasmacore.log, frames]⟩
  case scheduled =>
    cases e with
    | async_call cb ms =>
      cases cb with
      | fast_update => simp [Event.silent] at he
      | update =>
        exact ⟨[(AsyncTarget.update, ms)],
          by simp [Plasmacore.log, async_calls_append, async_calls], by simp⟩
    | rogue_configure =>
      exact ⟨[], by simp [Plasmacore.log, async_calls_append, async_calls], by simp⟩
    | rogue_launch =>
      exact ⟨[], by simp [Plasmacore.log, async_calls_append, async_calls], by simp⟩
    | post_messages s r => simp [Event.silent] at he
    | dispatch m => simp [Event.silent] at he
    | callback id m => simp [Event.silent] at he
    | skipped => simp [Event.silent] at he
  all_goals
    cases e with
    | async_call cb ms =>
      simp [Plasmacore.log, exchanged_append, skips_append, dispatched_append,
        called_append, exchanged, skips, dispatched, called]
    | rogue_configure =>
      simp [Plasmacore.log, exchanged_append, skips_append, dispatched_append,
        called_append, exchanged, skips, dispatched, called]
    | rogue_launch =>
      simp [Plasmacore.log, exchanged_append, skips_append, dispatched_append,
        called_append, exchanged, skips, dispatched, called]
    | post_messages s r => simp [Event.silent] at he
    | dispatch m => simp [Event.silent] at he
    | callback id m => simp [Event.silent] at he
    | skipped => simp [Event.silent] at he

theorem quiet_log_callback (w : Plasmacore) (id : Nat) (m : PlasmacoreMessage) :
    Quiet [] [(id, m)] w (w.log (Event.callback id m)) := by
  constructor
  case pending => exact ⟨[], by simp [Plasmacore.log, frames]⟩
  case scheduled =>
    exact ⟨[], by simp [Plasmacore.log, async_calls_append, async_calls], by simp⟩
  all_goals
    simp [Plasmacore.log, exchanged_append, skips_append, dispatched_append,
      called_append, exchanged, skips, dispatched, called]

theorem quiet_log_dispatch (w : Plasmacore) (m : PlasmacoreMessage) :
    Quiet [m] [] w (w.log (Event.dispatch m)) := by
  constructor
  case pending => exact ⟨[], by simp [Plasmacore.log, frames]⟩
  case scheduled =>
    exact ⟨[], by simp [Plasmacore.log, async_calls_append, async_calls], by simp⟩
  all_goals
    simp [Plasmacore.log, exchanged_append, skips_append, dispatched_append,
      called_append, exchanged, skips, dispatched, called]

theorem quiet_append_frame (w : Plasmacore) (p : List Byte) :
    Quiet [] [] w { w with pending_message_data := w.pending_message_data ++ frame p } := by
  constructor
  case pending => exact ⟨[p], by simp [frames]⟩
  case scheduled => exact ⟨[], by simp, by simp⟩
  all_goals simp

theorem real_update_sending (env : Env) (fuel : Nat) (r : Bool) (w : Plasmacore)
    (h : w.is_sending = true) : real_update env fuel r w = nested_tick env r w := by
  unfold real_update nested_tick
  cases ht : w.update_timer <;> cases r <;> cases fuel <;> simp [h, do_async_call, Plasmacore.log]

theorem real_update_guarded (env : Env) (fuel : Nat) : Guarded env (real_update env fuel) :=
  fun r w h => real_update_sending env fuel r w h

theorem nested_tick_quiet (env : Env) (r : Bool) (w : Plasmacore) :
    Quiet [] [] w (nested_tick env r w) := by
  unfold nested_tick
  cases ht : w.update_timer
  · exact Quiet.refl w
  · cases r
    · exact quiet_of_same rfl rfl rfl rfl rfl
    · exact Quiet.trans_nil (quiet_log_silent w
        (Event.async_call AsyncTarget.update (env.idle_millis w.idleUpdateFrequency)) rfl)
        (quiet_of_same rfl rfl rfl rfl rfl)

theorem set_message_handler_quiet (t : String) (c : Callback) (w : Plasmacore) :
    Quiet [] [] w (set_message_handler t c w) :=
  quiet_of_same rfl rfl rfl rfl rfl

theorem remove_message_handler_quiet (t : String) (w : Plasmacore) :
    Quiet [] [] w (remove_message_handler t w) := by
  unfold remove_message_handler
  split
  · exact quiet_of_same rfl rfl rfl rfl rfl
  · exact Quiet.refl w

theorem post_quiet {env : Env} {ru : Bool → Plasmacore → Plasmacore} (hru : Guarded env ru)
    (m : PlasmacoreMessage) (w : Plasmacore) (h : w.is_sending = true) :
    Quiet [] [] w (post ru m w) := by
  have e : post ru m w = ru false
      { w with pending_message_data := w.pending_message_data ++ frame m.data } := by
    simp [post, frame]
  rw [e, hru _ _ (by simpa using h)]
  exact Quiet.trans_nil (quiet_append_frame w m.data) (nested_tick_quiet env false _)

theorem post_rsvp_quiet {env : Env} {ru : Bool → Plasmacore → Plasmacore} (hru : Guarded env ru)
    (m : PlasmacoreMessage) (c : Nat) (w : Plasmacore) (h : w.is_sending = true) :
    Quiet [] [] w (post_rsvp ru m c w) := by
  unfold post_rsvp
  simp only [new_handler]
  refine Quiet.trans_nil ?_ (post_quiet hru m _ (by simpa using h))
  exact quiet_of_same rfl rfl rfl rfl rfl

theorem configure_quiet (w : Plasmacore) : Quiet [] [] w (configure w) := by
  unfold configure
  split
  · exact Quiet.refl w
  · have h1 : Quiet [] [] w (set_message_handler "" Callback.reply_router
        { w with is_configured := true }) := quiet_of_same rfl rfl rfl rfl rfl
    exact Quiet.trans_nil h1 (quiet_log_silent _ Event.rogue_configure rfl)

theorem launch_quiet {env : Env} {ru : Bool → Plasmacore → Plasmacore} (hru : Guarded env ru)
    (w : Plasmacore) (h : w.is_sending = true) : Quiet [] [] w (launch ru env w) := by
  unfold launch
  split
  · exact Quiet.refl w
  · have h1 : Quiet [] [] w { w with is_launched := true } :=
      quiet_of_same rfl rfl rfl rfl rfl
    have h2 := Quiet.trans_nil h1 (quiet_log_silent { w with is_launched := true }
      Event.rogue_launch rfl)
    exact Quiet.trans_nil h2 (post_quiet hru _ _ (by rw [h2.sending]; exact h))

theorem stop_quiet (w : Plasmacore) : Quiet [] [] w (stop w) :=
  quiet_of_same rfl rfl rfl rfl rfl

theorem start_quiet {env : Env} {ru : Bool → Plasmacore → Plasmacore} (hru : Guarded env ru)
    (w : Plasmacore) (h : w.is_sending = true) : Quiet [] [] w (start ru env w) := by
  unfold start
  have h1 : Quiet [] [] w (if !w.is_launched then launch ru env (configure w) else w) := by
    split
    · exact Quiet.trans_nil (configure_quiet w)
        (launch_quiet hru _ (by rw [(configure_quiet w).sending]; exact h))
    · exact Quiet.refl w
  simp only []
  rw [hru _ _ (by simp only []; rw [h1.sending]; exact h)]
  refine Quiet.trans_nil (Quiet.trans_nil h1 ?_) (nested_tick_quiet env true _)
  exact quiet_of_same rfl rfl rfl rfl rfl

theorem setIdleUpdateFrequency_quiet {env : Env} {ru : Bool → Plasmacore → Plasmacore}
    (hru : Guarded env ru) (f : Double) (w : Plasmacore) (h : w.is_sending = true) :
    Quiet [] [] w (setIdleUpdateFrequency ru env f w) := by
  unfold setIdleUpdateFrequency
  simp only []
  split
  · refine Quiet.trans_nil ?_ (start_quiet hru _ (by simpa [stop] using h))
    exact quiet_of_same rfl rfl rfl rfl rfl
  · exact quiet_of_same rfl rfl rfl rfl rfl

theorem run_action_quiet {env : Env} {ru : Bool → Plasmacore → Plasmacore}
    (hru : Guarded env ru) (a : Action) (w : Plasmacore) (h : w.is_sending = true) :
    Quiet [] [] w (run_action ru env a w) := by
  cases a with
  | set_message_handler t c => exact set_message_handler_quiet _ _ _
  | remove_message_handler t => exact remove_message_handler_quiet _ _
  | post m => exact post_quiet hru m w h
  | post_rsvp m c => exact post_rsvp_quiet hru m c w h
  | setIdleUpdateFrequency f => exact setIdleUpdateFrequency_quiet hru f w h
  | start => exact start_quiet hru w h
  | stop => exact stop_quiet w
  | update => simp only [run_action, update]; rw [hru _ _ h]; exact nested_tick_quiet env true w
  | fast_update =>
    simp only [run_action, fast_update]; rw [hru _ _ h]; exact nested_tick_quiet env false w

theorem run_actions_quiet {env : Env} {ru : Bool → Plasmacore → Plasmacore}
    (hru : Guarded env ru) (as : List Action) (w : Plasmacore) (h : w.is_sending = true) :
    Quiet [] [] w (run_actions ru env as w) := by
  induction as generalizing w with
  | nil => exact Quiet.refl w
  | cons a t ih =>
    have h1 := run_action_quiet hru a w h
    have h2 := ih (run_action ru env a w) (by rw [h1.sending]; exact h)
    exact Quiet.trans_nil h1 h2

theorem call_user_quiet {env : Env} {ru : Bool → Plasmacore → Plasmacore}
    (hru : Guarded env ru) (id : Nat) (m : PlasmacoreMessage) (w : Plasmacore)
    (h : w.is_sending = true) : Quiet [] [(id, m)] w (call_user ru env id m w).1 := by
  unfold call_user
  simp only []
  have h1 : Quiet [] [(id, m)] w (w.log (Event.callback id m)) := quiet_log_callback w id m
  have h2 := run_actions_quiet hru (env.callback id w.trace m).actions
    (w.log (Event.callback id m)) (by rw [h1.sending]; exact h)
  simpa using h1.trans h2

theorem invoke_quiet {env : Env} {ru : Bool → Plasmacore → Plasmacore}
    (hru : Guarded env ru) (cb : Callback) (m : PlasmacoreMessage) (w : Plasmacore)
    (h : w.is_sending = true) :
    ∃ cs, cs.length ≤ 1 ∧ Quiet [] cs w (invoke ru env cb m w).1 := by
  cases cb with
  | user id => exact ⟨[(id, m)], by simp, call_user_quiet hru id m w h⟩
  | reply_router =>
    unfold invoke
    simp only []
    cases hf : Table.find w.reply_handlers m.message_id with
    | none => exact ⟨[], by simp, Quiet.refl w⟩
    | some handler =>
      have h0 : Quiet [] [] w
          { w with reply_handlers := Table.remove w.reply_handlers m.message_id } :=
        quiet_of_same rfl rfl rfl rfl rfl
      cases hc : handler.callback with
      | reply_router =>
        refine ⟨[], by simp, ?_⟩
        simp only [hc]
        refine Quiet.trans_nil h0 ?_
        exact quiet_of_same rfl rfl rfl rfl rfl
      | user id =>
        refine ⟨[(id, m)], by simp, ?_⟩
        simp only [hc]
        have h1 := call_user_quiet hru id m
          { w with reply_handlers := Table.remove w.reply_handlers m.message_id }
          (by simpa using h)
        have h2 : Quiet [] [] (call_user ru env id m
            { w with reply_handlers := Table.remove w.reply_handlers m.message_id }).1
            (delete_handler handler (call_user ru env id m
            { w with reply_handlers := Table.remove w.reply_handlers m.message_id }).1) :=
          quiet_of_same rfl rfl rfl rfl rfl
        simpa using (h0.trans h1).trans h2

theorem dispatch_quiet {env : Env} {ru : Bool → Plasmacore → Plasmacore}
    (hru : Guarded env ru) (m : PlasmacoreMessage) (w : Plasmacore)
    (h : w.is_sending = true) :
    ∃ cs, cs.length ≤ 1 ∧ Quiet [m] cs w (dispatch ru env m w).1 := by
  unfold dispatch
  simp only []
  have h1 : Quiet [m] [] w (w.log (Event.dispatch m)) := quiet_log_dispatch w m
  cases hf : Table.find (w.log (Event.dispatch m)).handlers m.type with
  | none => exact ⟨[], by simp, h1⟩
  | some entry =>
    obtain ⟨cs, hcs, h2⟩ := invoke_quiet hru entry.callback m (w.log (Event.dispatch m))
      (by rw [h1.sending]; exact h)
    exact ⟨cs, hcs, by simpa using h1.trans h2⟩

theorem dispatch_and_reply_quiet {env : Env} {ru : Bool → Plasmacore → Plasmacore}
    (hru : Guarded env ru) (m : PlasmacoreMessage) (w : Plasmacore)
    (h : w.is_sending = true) :
    ∃ cs, cs.length ≤ 1 ∧ Quiet [m] cs w (dispatch_and_reply ru env m w) := by
  obtain ⟨cs, hcs, h1⟩ := dispatch_quiet hru m w h
  refine ⟨cs, hcs, ?_⟩
  unfold dispatch_and_reply
  simp only []
  split
  · split
    · have h2 := post_quiet hru
        { type := "", message_id := (dispatch ru env m w).2.message_id,
          data := (‹Reply› : Reply).data, reply := none }
        (dispatch ru env m w).1 (by rw [h1.sending]; exact h)
      simpa [post_reply] using h1.trans h2
    · exact h1
  · exact h1

theorem wrap32_eq (x : Int) (h1 : -2147483648 ≤ x) (h2 : x < 2147483648) : wrap32 x = x := by
  unfold wrap32; omega

theorem be_value (a b c d : Nat) (hb : b < 256) (hc : c < 256) (hd : d < 256) :
    (a <<< 24 ||| b <<< 16 ||| c <<< 8 ||| d) = a * 16777216 + b * 65536 + c * 256 + d := by
  have h1 : c <<< 8 ||| d = c * 256 + d := by
    rw [Nat.shiftLeft_eq, Nat.mul_comm]
    exact (Nat.mul_add_lt_is_or (i := 8) (by simpa using hd) c).symm
  have h2 : b <<< 16 ||| (c * 256 + d) = b * 65536 + (c * 256 + d) := by
    rw [Nat.shiftLeft_eq, Nat.mul_comm]
    exact (Nat.mul_add_lt_is_or (i := 16) (by norm_num; omega) b).symm
  have h3 : a <<< 24 ||| (b * 65536 + (c * 256 + d)) = a * 16777216 + (b * 65536 + (c * 256 + d)) := by
    rw [Nat.shiftLeft_eq, Nat.mul_comm]
    exact (Nat.mul_add_lt_is_or (i := 24) (by norm_num; omega) a).symm
  rw [Nat.lor_assoc, Nat.lor_assoc, h1, h2, h3]
  omega

theorem size_bytes_length (n : Nat) : (size_bytes n).length = 4 := rfl

theorem frame_length (p : List Byte) : (frame p).length = p.length + 4 := by
  simp [frame, size_bytes_length]; omega

theorem byte_at_append (pre l : List Byte) (i : Nat) :
    byte_at (pre ++ l) ((pre.length + i : Nat) : Int) = l[i]? := by
  unfold byte_at
  rw [if_pos (by omega)]
  have e : (((pre.length + i : Nat) : Int)).toNat = pre.length + i := by omega
  rw [e, List.getElem?_append_right (by omega)]
  congr 1
  omega

theorem count_eq (l : List Byte) (h : l.length < 2147483648) : count l = l.length := by
  unfold count; exact wrap32_eq _ (by omega) (by omega)

theorem size_byte_val (n k : Nat) :
    ((Fin.ofNat ((n >>> k) &&& 255) : Byte)).val = n / 2 ^ k % 256 := by
  have h : (n >>> k) &&& 255 = n / 2 ^ k % 256 := by
    rw [Nat.shiftRight_eq_div_pow]
    exact Nat.and_pow_two_sub_one_eq_mod _ 8
  rw [h]
  simp [Fin.ofNat]

theorem size_byte_val0 (n : Nat) : ((Fin.ofNat (n &&& 255) : Byte)).val = n % 256 := by
  have h : n &&& 255 = n % 256 := Nat.and_pow_two_sub_one_eq_mod _ 8
  rw [h]
  simp [Fin.ofNat]

theorem size_bytes_value (n : Nat) :
    ((Fin.ofNat ((n >>> 24) &&& 255) : Byte).val <<< 24
      ||| (Fin.ofNat ((n >>> 16) &&& 255) : Byte).val <<< 16
      ||| (Fin.ofNat ((n >>> 8) &&& 255) : Byte).val <<< 8
      ||| (Fin.ofNat (n &&& 255) : Byte).val) = n % 4294967296 := by
  rw [size_byte_val, size_byte_val, size_byte_val, size_byte_val0]
  rw [be_value _ _ _ _ (Nat.mod_lt _ (by norm_num)) (Nat.mod_lt _ (by norm_num))
    (Nat.mod_lt _ (by norm_num))]
  norm_num
  omega

theorem read_size_frame (pre rest : List Byte) (n : Nat) (h : pre.length + 4 < 2147483648) :
    read_size (pre ++ (size_bytes n ++ rest)) (pre.length : Int)
      = some (to_int32 (n % 4294967296)) := by
  unfold read_size
  have e1 : wrap32 ((pre.length : Int) + 1) = ((pre.length + 1 : Nat) : Int) := by
    rw [wrap32_eq _ (by omega) (by omega)]; omega
  have e2 : wrap32 ((pre.length : Int) + 2) = ((pre.length + 2 : Nat) : Int) := by
    rw [wrap32_eq _ (by omega) (by omega)]; omega
  have e3 : wrap32 ((pre.length : Int) + 3) = ((pre.length + 3 : Nat) : Int) := by
    rw [wrap32_eq _ (by omega) (by omega)]; omega
  have b0 := byte_at_append pre (size_bytes n ++ rest) 0
  have b1 := byte_at_append pre (size_bytes n ++ rest) 1
  have b2 := byte_at_append pre (size_bytes n ++ rest) 2
  have b3 := byte_at_append pre (size_bytes n ++ rest) 3
  rw [Nat.add_zero] at b0
  rw [e1, e2, e3, b0, b1, b2, b3]
  simp only [size_bytes, List.cons_append, List.getElem?_cons_zero, List.getElem?_cons_succ]
  rw [size_bytes_value]

theorem copy_payload_eq (pre p rest : List Byte) (h : pre.length + p.length < 2147483648) :
    ∀ (k i : Nat), i + k = p.length →
      copy_payload (pre ++ (p ++ rest)) (pre.length : Int) i k = some (p.drop i) := by
  intro k
  induction k with
  | zero =>
    intro i hi
    rw [copy_payload, List.drop_eq_nil_of_le (show p.length ≤ i by omega)]
  | succ k ih =>
    intro i hi
    rw [copy_payload]
    have e : wrap32 ((pre.length : Int) + (i : Int)) = ((pre.length + i : Nat) : Int) := by
      rw [wrap32_eq _ (by omega) (by omega)]; omega
    rw [e, byte_at_append, List.getElem?_append_left (by omega)]
    rw [List.getElem?_eq_getElem (by omega)]
    simp only []
    rw [ih (i + 1) (by omega)]
    simp only [Option.map_some']
    rw [List.drop_eq_getElem_cons (by omega : i < p.length)]

theorem to_int32_eq (n : Nat) (h : n < 2147483648) : to_int32 (n % 4294967296) = (n : Int) := by
  unfold to_int32
  rw [Nat.mod_eq_of_lt (by omega)]
  exact wrap32_eq _ (by omega) (by omega)

theorem decode_loop_done (ru : Bool → Plasmacore → Plasmacore) (env : Env) (bytes : List Byte)
    (cnt : Int) (fuel : Nat) (read_pos : Int) (w : Plasmacore)
    (h : ¬ wrap32 (read_pos + 4) ≤ cnt) : decode_loop ru env bytes cnt fuel read_pos w = w := by
  cases fuel <;> simp [decode_loop, h]

theorem decode_loop_frame (ru : Bool → Plasmacore → Plasmacore) (env : Env)
    (B pre p rest : List Byte) (fuel : Nat) (w : Plasmacore)
    (hB : B = pre ++ (frame p ++ rest)) (hlen : B.length < 2147483648) :
    decode_loop ru env B (count B) (fuel + 1) (pre.length : Int) w
      = decode_loop ru env B (count B) fuel ((pre ++ frame p).length : Int)
        (dispatch_and_reply ru env (decode_message env p) { w with decode_buffer := p }) := by
  have hl : B.length = pre.length + (p.length + 4) + rest.length := by
    rw [hB]; simp [frame_length]; omega
  rw [hl] at hlen
  rw [decode_loop]
  have hc : count B = ((pre.length + (p.length + 4) + rest.length : Nat) : Int) := by
    rw [count_eq _ (by omega), hl]
  have e4 : wrap32 ((pre.length : Int) + 4) = ((pre.length + 4 : Nat) : Int) := by
    rw [wrap32_eq _ (by omega) (by omega)]; omega
  have hrs : read_size B (pre.length : Int) = some (p.length : Int) := by
    have := read_size_frame pre (p ++ rest) p.length (by omega)
    rw [to_int32_eq _ (by omega)] at this
    rw [hB]
    simpa [frame] using this
  have e5 : wrap32 (((pre.length + 4 : Nat) : Int) + (p.length : Int))
      = (((pre ++ frame p).length : Nat) : Int) := by
    rw [wrap32_eq _ (by omega) (by omega)]; simp [frame_length]; omega
  have hcp : copy_payload B ((pre.length + 4 : Nat) : Int) 0 p.length = some p := by
    have := copy_payload_eq (pre ++ size_bytes p.length) p rest
      (by simp [size_bytes_length]; omega) p.length 0 (by omega)
    rw [hB]
    simpa [frame, size_bytes_length] using this
  have hle : (((pre ++ frame p).length : Nat) : Int)
      ≤ ((pre.length + (p.length + 4) + rest.length : Nat) : Int) := by
    simp [frame_length]
  rw [hc, e4, if_pos (by omega), hrs]
  simp only [e5]
  rw [if_pos hle]
  simp only [Int.toNat_ofNat, hcp]

theorem decode_loop_frames {env : Env} {ru : Bool → Plasmacore → Plasmacore}
    (hru : Guarded env ru) (B : List Byte) (hlen : B.length < 2147483648)
    (ps : List (List Byte)) :
    ∀ (pre rest : List Byte) (fuel : Nat) (w : Plasmacore), w.is_sending = true →
      B = pre ++ (frames ps ++ rest) →
      ∃ w1 cs, Quiet (ps.map (decode_message env)) cs w w1 ∧
        decode_loop ru env B (count B) (fuel + ps.length) (pre.length : Int) w
        = decode_loop ru env B (count B) fuel ((pre ++ frames ps).length : Int) w1 := by
  induction ps with
  | nil =>
    intro pre rest fuel w _ _
    exact ⟨w, [], Quiet.refl w, by simp [frames]⟩
  | cons p ps ih =>
    intro pre rest fuel w hs hB
    obtain ⟨cs1, _, hq1⟩ := dispatch_and_reply_quiet hru (decode_message env p)
      { w with decode_buffer := p } (by simpa using hs)
    have hq0 : Quiet [] [] w { w with decode_buffer := p } :=
      quiet_of_same rfl rfl rfl rfl rfl
    have hq := hq0.trans hq1
    obtain ⟨w1, cs2, hq2, heq⟩ := ih (pre ++ frame p) rest fuel
      (dispatch_and_reply ru env (decode_message env p) { w with decode_buffer := p })
      (by rw [hq.sending]; exact hs) (by rw [hB]; simp [frames])
    refine ⟨w1, _, by simpa using hq.trans hq2, ?_⟩
    have hstep := decode_loop_frame ru env B pre p (frames ps ++ rest) (fuel + ps.length) w
      (by rw [hB]; simp [frames]) hlen
    have hf : fuel + (p :: ps).length = fuel + ps.length + 1 := by simp; omega
    have hp : pre ++ frames (p :: ps) = pre ++ frame p ++ frames ps := by simp [frames]
    rw [hf, hstep, heq, hp]

theorem read_size_at_end (B : List Byte) : read_size B (B.length : Int) = none := by
  have h : byte_at B (B.length : Int) = none := by
    unfold byte_at
    rw [if_pos (by omega)]
    simp
  unfold read_size
  rw [h]

theorem decode_loop_at_end (ru : Bool → Plasmacore → Plasmacore) (env : Env) (B : List Byte)
    (fuel : Nat) (w : Plasmacore) :
    ∃ f, decode_loop ru env B (count B) fuel (B.length : Int) w = { w with fault := f } := by
  cases fuel with
  | zero =>
    rw [decode_loop]
    split
    · exact ⟨_, rfl⟩
    · exact ⟨w.fault, rfl⟩
  | succ n =>
    rw [decode_loop]
    split
    · rw [read_size_at_end]
      exact ⟨_, rfl⟩
    · exact ⟨w.fault, rfl⟩

/-- Decoding a buffer of complete frames: every payload is dispatched, in
order, and nothing is skipped; the loop ends without a fault when four more
bytes would still fit the `int` count. -/
theorem decode_loop_complete {env : Env} {ru : Bool → Plasmacore → Plasmacore}
    (hru : Guarded env ru) (ps : List (List Byte)) (fuel : Nat) (w : Plasmacore)
    (hs : w.is_sending = true) (hlen : (frames ps).length < 2147483648)
    (hfuel : ps.length ≤ fuel) :
    ∃ w1 cs f, Quiet (ps.map (decode_message env)) cs w w1 ∧
      decode_loop ru env (frames ps) (count (frames ps)) fuel 0 w = { w1 with fault := f } ∧
      ((frames ps).length + 4 < 2147483648 → f = w.fault) := by
  obtain ⟨w1, cs, hq, heq⟩ := decode_loop_frames hru (frames ps) hlen ps [] []
    (fuel - ps.length) w hs (by simp)
  have hf : fuel - ps.length + ps.length = fuel := by omega
  rw [hf] at heq
  simp only [List.length_nil, Nat.cast_zero, List.nil_append] at heq
  by_cases h4 : (frames ps).length + 4 < 2147483648
  · refine ⟨w1, cs, w.fault, hq, ?_, fun _ => rfl⟩
    rw [heq, decode_loop_done]
    · rw [← hq.fault]
    · rw [count_eq _ hlen, wrap32_eq _ (by omega) (by omega)]
      omega
  · obtain ⟨f, hf⟩ := decode_loop_at_end ru env (frames ps) (fuel - ps.length) w1
    exact ⟨w1, cs, f, hq, by rw [heq, hf], fun h => absurd h h4⟩

/-- An invariant of the frame-decoding loop: it holds after the loop when it
holds before, is kept by a fault, by a reported framing error and by the
dispatch of a frame. -/
theorem decode_loop_induct {ru : Bool → Plasmacore → Plasmacore} {env : Env}
    (P : Plasmacore → Prop) (bytes : List Byte) (cnt : Int)
    (hfault : ∀ w f, P w → P { w with fault := f })
    (hskip : ∀ w, P w → P (w.log Event.skipped))
    (hframe : ∀ w payload, P w →
      P (dispatch_and_reply ru env (decode_message env payload)
        { w with decode_buffer := payload })) :
    ∀ (fuel : Nat) (read_pos : Int) (w : Plasmacore), P w →
      P (decode_loop ru env bytes cnt fuel read_pos w) := by
  intro fuel
  induction fuel with
  | zero =>
    intro rp w hw
    rw [decode_loop]
    split
    · exact hfault w _ hw
    · exact hw
  | succ n ih =>
    intro rp w hw
    rw [decode_loop]
    split
    · split
      · exact hfault w _ hw
      · simp only []
        split
        · split
          · exact hfault w _ hw
          · exact ih _ _ (hframe w _ hw)
        · exact ih _ _ (hskip w hw)
    · exact hw

/-- An invariant of the burst loop: it holds after the loop when it holds
before and every pass keeps it. -/
theorem burst_induct {ru : Bool → Plasmacore → Plasmacore} {env : Env} {fuel : Nat}
    (P : Plasmacore → Prop) (hiter : ∀ w, P w → P (burst_iteration ru env fuel w)) :
    ∀ (n : Nat) (w : Plasmacore), P w → P (burst ru env fuel n w) := by
  intro n
  induction n with
  | zero => intro w hw; exact hw
  | succ n ih =>
    intro w hw
    rw [burst]
    split
    · exact hiter w hw
    · split
      · exact hiter w hw
      · exact ih _ (hiter w hw)

theorem decode_loop_exchanged {env : Env} {ru : Bool → Plasmacore → Plasmacore}
    (hru : Guarded env ru) (bytes : List Byte) (cnt : Int) (fuel : Nat) (read_pos : Int)
    (w : Plasmacore) (hs : w.is_sending = true) :
    (decode_loop ru env bytes cnt fuel read_pos w).is_sending = true ∧
      exchanged (decode_loop ru env bytes cnt fuel read_pos w).trace = exchanged w.trace := by
  refine decode_loop_induct
    (fun v => v.is_sending = true ∧ exchanged v.trace = exchanged w.trace) bytes cnt
    ?_ ?_ ?_ fuel read_pos w ⟨hs, rfl⟩
  · intro v f hv
    exact hv
  · intro v hv
    refine ⟨hv.1, ?_⟩
    rw [← hv.2]
    simp [Plasmacore.log, exchanged_append, exchanged]
  · intro v payload hv
    obtain ⟨cs, _, hq⟩ := dispatch_and_reply_quiet hru (decode_message env payload)
      { v with decode_buffer := payload } hv.1
    exact ⟨by rw [hq.sending]; exact hv.1, by rw [hq.exchanged]; exact hv.2⟩

theorem burst_iteration_eq (ru : Bool → Plasmacore → Plasmacore) (env : Env) (fuel : Nat)
    (w : Plasmacore) :
    burst_iteration ru env fuel w =
      if (decode_loop ru env (exchange_step env w).io_buffer
          (count (exchange_step env w).io_buffer) fuel 0 (exchange_step env w)).fault.isSome
      then decode_loop ru env (exchange_step env w).io_buffer
          (count (exchange_step env w).io_buffer) fuel 0 (exchange_step env w)
      else { decode_loop ru env (exchange_step env w).io_buffer
          (count (exchange_step env w).io_buffer) fuel 0 (exchange_step env w)
          with io_buffer := [] } := rfl

theorem burst_iteration_exchanged {env : Env} {ru : Bool → Plasmacore → Plasmacore}
    (hru : Guarded env ru) (fuel : Nat) (w : Plasmacore) (hs : w.is_sending = true) :
    (burst_iteration ru env fuel w).is_sending = true ∧
      (exchanged (burst_iteration ru env fuel w).trace).length
        = (exchanged w.trace).length + 1 := by
  rw [burst_iteration_eq]
  have h := decode_loop_exchanged hru (exchange_step env w).io_buffer
    (count (exchange_step env w).io_buffer) fuel 0 (exchange_step env w) hs
  have e : (exchanged (exchange_step env w).trace).length = (exchanged w.trace).length + 1 := by
    simp [exchange_step, exchanged_append, exchanged]
  split
  · exact ⟨h.1, by rw [h.2, e]⟩
  · exact ⟨h.1, by simp only []; rw [h.2, e]⟩

theorem burst_exchanged {env : Env} {ru : Bool → Plasmacore → Plasmacore}
    (hru : Guarded env ru) (fuel : Nat) :
    ∀ (n : Nat) (w : Plasmacore), w.is_sending = true →
      (burst ru env fuel n w).is_sending = true ∧
      (exchanged (burst ru env fuel n w).trace).length ≤ (exchanged w.trace).length + n := by
  intro n
  induction n with
  | zero => intro w hs; exact ⟨hs, by simp [burst]⟩
  | succ n ih =>
    intro w hs
    have h1 := burst_iteration_exchanged hru fuel w hs
    have h2 := ih (burst_iteration ru env fuel w) h1.1
    rw [burst]
    split
    · exact ⟨h1.1, by omega⟩
    · split
      · exact ⟨h1.1, by omega⟩
      · exact ⟨h2.1, by omega⟩

theorem tick_entry_fields (env : Env) (r : Bool) (w : Plasmacore) :
    (tick_entry env r w).is_sending = w.is_sending ∧
      (tick_entry env r w).update_timer = w.update_timer ∧
      (tick_entry env r w).fault = w.fault ∧
      (tick_entry env r w).pending_message_data = w.pending_message_data ∧
      exchanged (tick_entry env r w).trace = exchanged w.trace := by
  cases r <;> simp [tick_entry, do_async_call, Plasmacore.log, exchanged_append, exchanged]

theorem real_update_out_of_fuel (env : Env) (r : Bool) (w : Plasmacore)
    (ht : w.update_timer = true) (hs : w.is_sending = false) :
    real_update env 0 r w = { tick_entry env r w with fault := some Fault.out_of_fuel } := by
  unfold real_update tick_entry
  cases r <;> simp [ht, hs, do_async_call, Plasmacore.log]

theorem real_update_burst (env : Env) (k : Nat) (r : Bool) (w : Plasmacore)
    (ht : w.update_timer = true) (hs : w.is_sending = false) :
    real_update env (k + 1) r w
      = tick_finish (burst (real_update env k) env k 10
          (burst_entry env r w)) := by
  rw [real_update]
  unfold burst_entry tick_entry tick_finish
  cases r <;> simp [ht, hs, do_async_call, Plasmacore.log]

theorem tick_finish_exchanged (w : Plasmacore) :
    exchanged (tick_finish w).trace = exchanged w.trace := by
  unfold tick_finish
  split
  · rfl
  · split
    · simp [do_async_call, Plasmacore.log, exchanged_append, exchanged]
    · rfl

theorem real_update_stopped (env : Env) (fuel : Nat) (r : Bool) (w : Plasmacore)
    (h : w.update_timer = false) : real_update env fuel r w = w := by
  unfold real_update
  simp [h]

theorem post_stopped (env : Env) (fuel : Nat) (m : PlasmacoreMessage) (w : Plasmacore)
    (h : w.update_timer = false) :
    post (real_update env fuel) m w
      = { w with pending_message_data := w.pending_message_data ++ frame m.data } := by
  unfold post
  simp only []
  rw [real_update_stopped _ _ _ _ (by simpa using h)]
  simp [frame]

theorem post_all_stopped (env : Env) (fuel : Nat) (ms : List PlasmacoreMessage) :
    ∀ (w : Plasmacore), w.update_timer = false →
      post_all (real_update env fuel) ms w
        = { w with pending_message_data :=
              w.pending_message_data ++ frames (ms.map (fun m => m.data)) } := by
  induction ms with
  | nil => intro w _; simp [post_all, frames]
  | cons m ms ih =>
    intro w h
    have := ih (post (real_update env fuel) m w) (by rw [post_stopped _ _ _ _ h]; exact h)
    simp only [post_all, List.foldl_cons] at this ⊢
    rw [this, post_stopped _ _ _ _ h]
    simp [frames]

theorem count_frame_at_limit (p : List Byte) (h : p.length = 2147483644) :
    count (frame p) = -2147483648 := by
  unfold count
  rw [frame_length, h]
  decide

theorem payload_at_int_limit_length : payload_at_int_limit.length = 2147483644 :=
  List.length_replicate _ _

theorem no_dispatch_at_int_limit (p : List Byte) (hp : p.length = 2147483644) :
    (message_of p).data.length < 2147483648 ∧
    ¬ ∃ fuel,
      dispatched (decode_loop (real_update sample_env 1) sample_env
        (post (real_update sample_env 1) (message_of p)
          Plasmacore.singleton).pending_message_data
        (count (post (real_update sample_env 1) (message_of p)
          Plasmacore.singleton).pending_message_data) fuel 0 sending_bus).trace
      = dispatched sending_bus.trace ++ [decode_message sample_env (message_of p).data] := by
  have hd : (message_of p).data = p := rfl
  constructor
  · rw [hd, hp]
    decide
  · rintro ⟨fuel, h⟩
    rw [post_stopped _ _ _ _ rfl] at h
    have hp0 : (Plasmacore.singleton).pending_message_data = [] := rfl
    simp only [hp0, List.nil_append] at h
    rw [hd, count_frame_at_limit _ hp, decode_loop_done _ _ _ _ _ _ _ (by decide)] at h
    have hl := congrArg List.length h
    rw [List.length_append, List.length_singleton] at hl
    omega

theorem payload_of_one_gigabyte_length : payload_of_one_gigabyte.length = 1073741824 :=
  List.length_replicate _ _

theorem no_dispatch_past_int_limit (p : List Byte) (hp : p.length = 1073741824) :
    ¬ ∃ fuel,
      dispatched (decode_loop (real_update sample_env 1) sample_env
        (post_all (real_update sample_env 1) [message_of p, message_of p]
          Plasmacore.singleton).pending_message_data
        (count (post_all (real_update sample_env 1) [message_of p, message_of p]
          Plasmacore.singleton).pending_message_data) fuel 0 sending_bus).trace
      = dispatched sending_bus.trace
          ++ [message_of p, message_of p].map (fun m => decode_message sample_env m.data) := by
  rintro ⟨fuel, h⟩
  rw [post_all_stopped _ _ _ _ rfl] at h
  have hp0 : (Plasmacore.singleton).pending_message_data = [] := rfl
  have hd : (message_of p).data = p := rfl
  simp only [hp0, List.nil_append, List.map_cons, List.map_nil, hd] at h
  have hc : count (frames [p, p]) = -2147483640 := by
    unfold count
    simp only [frames, List.length_append, frame_length, hp, List.length_nil]
    decide
  rw [hc, decode_loop_done _ _ _ _ _ _ _ (by decide)] at h
  have hl := congrArg List.length h
  simp only [List.length_append, List.length_cons, List.length_nil] at hl
  omega

theorem nested_tick_covered (env : Env) (r : Bool) (w : Plasmacore) :
    Covered (nested_tick env r w) := by
  unfold nested_tick Covered
  cases ht : w.update_timer <;> cases r <;> simp [ht, do_async_call, Plasmacore.log]

theorem covered_of_same {w w' : Plasmacore} (h : Covered w)
    (h1 : w'.pending_message_data = w.pending_message_data)
    (h2 : w'.update_timer = w.update_timer)
    (h3 : w'.update_requested = w.update_requested) : Covered w' := by
  unfold Covered at h ⊢
  rw [h1, h2, h3]
  exact h

theorem post_covered {env : Env} {ru : Bool → Plasmacore → Plasmacore} (hru : Guarded env ru)
    (m : PlasmacoreMessage) (w : Plasmacore) (h : w.is_sending = true) :
    Covered (post ru m w) := by
  unfold post
  simp only []
  rw [hru _ _ (by simpa using h)]
  exact nested_tick_covered _ _ _

theorem launch_covered {env : Env} {ru : Bool → Plasmacore → Plasmacore} (hru : Guarded env ru)
    (w : Plasmacore) (h : w.is_sending = true) (hc : Covered w) :
    Covered (launch ru env w) := by
  unfold launch
  split
  · exact hc
  · exact post_covered hru _ _ (by simpa [Plasmacore.log] using h)

theorem start_covered {env : Env} {ru : Bool → Plasmacore → Plasmacore} (hru : Guarded env ru)
    (w : Plasmacore) (h : w.is_sending = true) : Covered (start ru env w) := by
  unfold start
  have h1 : Quiet [] [] w (if !w.is_launched then launch ru env (configure w) else w) := by
    split
    · exact Quiet.trans_nil (configure_quiet w)
        (launch_quiet hru _ (by rw [(configure_quiet w).sending]; exact h))
    · exact Quiet.refl w
  simp only []
  rw [hru _ _ (by simp only []; rw [h1.sending]; exact h)]
  exact nested_tick_covered _ _ _

theorem run_action_covered {env : Env} {ru : Bool → Plasmacore → Plasmacore}
    (hru : Guarded env ru) (a : Action) (w : Plasmacore) (h : w.is_sending = true)
    (hc : Covered w) : Covered (run_action ru env a w) := by
  cases a with
  | set_message_handler t c => exact covered_of_same hc rfl rfl rfl
  | remove_message_handler t =>
    simp only [run_action, remove_message_handler]
    split
    · exact covered_of_same hc rfl rfl rfl
    · exact hc
  | post m => exact post_covered hru m w h
  | post_rsvp m c =>
    simp only [run_action, post_rsvp, new_handler]
    exact post_covered hru m _ (by simpa using h)
  | setIdleUpdateFrequency f =>
    simp only [run_action, setIdleUpdateFrequency]
    split
    · exact start_covered hru _ (by simpa [stop] using h)
    · exact covered_of_same hc rfl rfl rfl
  | start => exact start_covered hru w h
  | stop =>
    simp only [run_action, stop, Covered]
    intro _ h2
    simp at h2
  | update =>
    simp only [run_action, update]; rw [hru _ _ h]; exact nested_tick_covered _ _ _
  | fast_update =>
    simp only [run_action, fast_update]; rw [hru _ _ h]; exact nested_tick_covered _ _ _

theorem run_actions_covered {env : Env} {ru : Bool → Plasmacore → Plasmacore}
    (hru : Guarded env ru) (as : List Action) (w : Plasmacore) (h : w.is_sending = true)
    (hc : Covered w) : Covered (run_actions ru env as w) := by
  induction as generalizing w with
  | nil => exact hc
  | cons a t ih =>
    have h1 := run_action_quiet hru a w h
    exact ih (run_action ru env a w) (by rw [h1.sending]; exact h)
      (run_action_covered hru a w h hc)

theorem call_user_covered {env : Env} {ru : Bool → Plasmacore → Plasmacore}
    (hru : Guarded env ru) (id : Nat) (m : PlasmacoreMessage) (w : Plasmacore)
    (h : w.is_sending = true) (hc : Covered w) : Covered (call_user ru env id m w).1 := by
  unfold call_user
  simp only []
  exact run_actions_covered hru _ _ (by simpa [Plasmacore.log] using h)
    (covered_of_same hc rfl rfl rfl)

theorem invoke_covered {env : Env} {ru : Bool → Plasmacore → Plasmacore}
    (hru : Guarded env ru) (cb : Callback) (m : PlasmacoreMessage) (w : Plasmacore)
    (h : w.is_sending = true) (hc : Covered w) : Covered (invoke ru env cb m w).1 := by
  cases cb with
  | user id => exact call_user_covered hru id m w h hc
  | reply_router =>
    unfold invoke
    simp only []
    cases hf : Table.find w.reply_handlers m.message_id with
    | none => exact hc
    | some handler =>
      cases hcb : handler.callback with
      | reply_router =>
        simp only [hcb]
        exact covered_of_same hc rfl rfl rfl
      | user id =>
        simp only [hcb]
        have h1 := call_user_covered hru id m
          { w with reply_handlers := Table.remove w.reply_handlers m.message_id }
          (by simpa using h) (covered_of_same hc rfl rfl rfl)
        exact covered_of_same h1 rfl rfl rfl

theorem dispatch_covered {env : Env} {ru : Bool → Plasmacore → Plasmacore}
    (hru : Guarded env ru) (m : PlasmacoreMessage) (w : Plasmacore)
    (h : w.is_sending = true) (hc : Covered w) : Covered (dispatch ru env m w).1 := by
  unfold dispatch
  simp only []
  have h1 : Covered (w.log (Event.dispatch m)) := covered_of_same hc rfl rfl rfl
  cases hf : Table.find (w.log (Event.dispatch m)).handlers m.type with
  | none => exact h1
  | some entry =>
    exact invoke_covered hru entry.callback m _ (by simpa [Plasmacore.log] using h) h1

theorem dispatch_and_reply_covered {env : Env} {ru : Bool → Plasmacore → Plasmacore}
    (hru : Guarded env ru) (m : PlasmacoreMessage) (w : Plasmacore)
    (h : w.is_sending = true) (hc : Covered w) : Covered (dispatch_and_reply ru env m w) := by
  obtain ⟨cs, _, h1⟩ := dispatch_quiet hru m w h
  have h2 := dispatch_covered hru m w h hc
  unfold dispatch_and_reply
  simp only []
  split
  · split
    · exact post_covered hru _ _ (by rw [h1.sending]; exact h)
    · exact h2
  · exact h2

theorem decode_loop_covered {env : Env} {ru : Bool → Plasmacore → Plasmacore}
    (hru : Guarded env ru) (bytes : List Byte) (cnt : Int) (fuel : Nat) (read_pos : Int)
    (w : Plasmacore) (hs : w.is_sending = true) (hc : Covered w) :
    (decode_loop ru env bytes cnt fuel read_pos w).is_sending = true ∧
      Covered (decode_loop ru env bytes cnt fuel read_pos w) := by
  refine decode_loop_induct (fun v => v.is_sending = true ∧ Covered v) bytes cnt
    ?_ ?_ ?_ fuel read_pos w ⟨hs, hc⟩
  · intro v f hv
    exact ⟨hv.1, covered_of_same hv.2 rfl rfl rfl⟩
  · intro v hv
    exact ⟨hv.1, covered_of_same hv.2 rfl rfl rfl⟩
  · intro v payload hv
    obtain ⟨cs, _, hq⟩ := dispatch_and_reply_quiet hru (decode_message env payload)
      { v with decode_buffer := payload } hv.1
    exact ⟨by rw [hq.sending]; exact hv.1,
      dispatch_and_reply_covered hru _ _ hv.1 (covered_of_same hv.2 rfl rfl rfl)⟩

theorem burst_iteration_covered {env : Env} {ru : Bool → Plasmacore → Plasmacore}
    (hru : Guarded env ru) (fuel : Nat) (w : Plasmacore) (hs : w.is_sending = true) :
    (burst_iteration ru env fuel w).is_sending = true ∧
      Covered (burst_iteration ru env fuel w) := by
  rw [burst_iteration_eq]
  have hc0 : Covered (exchange_step env w) := by
    intro h; exact absurd rfl h
  have h := decode_loop_covered hru (exchange_step env w).io_buffer
    (count (exchange_step env w).io_buffer) fuel 0 (exchange_step env w) hs hc0
  split
  · exact h
  · exact ⟨h.1, covered_of_same h.2 rfl rfl rfl⟩

theorem burst_covered {env : Env} {ru : Bool → Plasmacore → Plasmacore}
    (hru : Guarded env ru) (fuel : Nat) (n : Nat) (w : Plasmacore)
    (hs : w.is_sending = true) :
    (burst ru env fuel (n + 1) w).is_sending = true ∧
      Covered (burst ru env fuel (n + 1) w) := by
  have h1 := burst_iteration_covered hru fuel w hs
  rw [burst]
  split
  · exact h1
  · split
    · exact h1
    · exact burst_induct (fun v => v.is_sending = true ∧ Covered v)
        (fun v hv => burst_iteration_covered hru fuel v hv.1) n _ h1

theorem echo_dispatch (k : Nat) (w : Plasmacore) (hs : w.is_sending = true)
    (ht : w.update_timer = true) (hh : w.handlers = echo_bus.handlers) :
    dispatch_and_reply (real_update echo_env k) echo_env (decode_message echo_env []) w
      = { w with update_requested := true,
                 pending_message_data := w.pending_message_data ++ [0, 0, 0, 0],
                 trace := w.trace ++ [Event.dispatch (decode_message echo_env []),
                   Event.callback 0 (decode_message echo_env [])] } := by
  have hp : ∀ v : Plasmacore, v.is_sending = true → v.update_timer = true →
      post (real_update echo_env k) (message_of []) v
        = { v with update_requested := true,
                   pending_message_data := v.pending_message_data ++ [0, 0, 0, 0] } := by
    intro v hv1 hv2
    unfold post
    simp only []
    rw [real_update_sending _ _ _ _ (by simpa using hv1)]
    simp [nested_tick, hv2, message_of, size_bytes]
    rfl
  have e1 : (decode_message echo_env []).type = "t" := rfl
  have e2 : ∀ tr, echo_env.callback 0 tr (decode_message echo_env [])
      = { actions := [Action.post (message_of [])], reply := none } := fun _ => rfl
  have e3 : (decode_message echo_env []).reply = none := rfl
  unfold dispatch_and_reply dispatch
  simp only [Plasmacore.log, hh, e1]
  simp only [echo_bus, Table.find, if_true, invoke, call_user, e2,
    run_actions, List.foldl, run_action, Plasmacore.log]
  rw [hp _ (by simpa using hs) (by simpa using ht)]
  simp [e3]

theorem echo_iteration (k j : Nat) (w : Plasmacore) (hs : w.is_sending = true)
    (ht : w.update_timer = true) (hh : w.handlers = echo_bus.handlers)
    (hf : w.fault = none) :
    burst_iteration (real_update echo_env k) echo_env (j + 1) w = echo_pass w := by
  rw [burst_iteration_eq]
  have hio : (exchange_step echo_env w).io_buffer = [0, 0, 0, 0] := rfl
  rw [hio]
  have hB : ([0, 0, 0, 0] : List Byte) = [] ++ (frame [] ++ []) := rfl
  have h1 := decode_loop_frame (real_update echo_env k) echo_env [0, 0, 0, 0] [] [] [] j
    (exchange_step echo_env w) hB (by decide)
  simp only [List.length_nil, Nat.cast_zero] at h1
  rw [h1, decode_loop_done _ _ _ _ _ _ _ (by decide),
    echo_dispatch k _ (by simpa [exchange_step] using hs) (by simpa [exchange_step] using ht)
      (by simpa [exchange_step] using hh)]
  have hpm : echo_env.post_messages w.trace w.pending_message_data = [0, 0, 0, 0] := rfl
  simp [exchange_step, echo_pass, echo_events, hf, hpm]

theorem echo_pass_fields (w : Plasmacore) :
    (echo_pass w).is_sending = w.is_sending ∧ (echo_pass w).update_timer = w.update_timer ∧
      (echo_pass w).handlers = w.handlers ∧ (echo_pass w).fault = w.fault ∧
      (echo_pass w).update_requested = true ∧
      (echo_pass w).pending_message_data = [0, 0, 0, 0] :=
  ⟨rfl, rfl, rfl, rfl, rfl, rfl⟩

theorem echo_burst (k j : Nat) :
    ∀ (n : Nat) (w : Plasmacore), w.is_sending = true → w.update_timer = true →
      w.handlers = echo_bus.handlers → w.fault = none →
      burst (real_update echo_env k) echo_env (j + 1) n w = echo_pass^[n] w := by
  intro n
  induction n with
  | zero => intro w _ _ _ _; rfl
  | succ n ih =>
    intro w hs ht hh hf
    have hp := echo_pass_fields w
    rw [burst, echo_iteration k j w hs ht hh hf]
    simp only [hp.2.2.2.1, hf, hp.2.2.2.2.1, Option.isSome_none, Bool.false_eq_true, if_false,
      Bool.not_true, Function.iterate_succ, Function.comp]
    exact ih (echo_pass w) (by rw [hp.1]; exact hs) (by rw [hp.2.1]; exact ht)
      (by rw [hp.2.2.1]; exact hh) (by rw [hp.2.2.2.1]; exact hf)

theorem echo_iterate_fields (n : Nat) :
    ∀ (w : Plasmacore), (echo_pass^[n + 1] w).is_sending = w.is_sending ∧
      (echo_pass^[n + 1] w).update_timer = w.update_timer ∧
      (echo_pass^[n + 1] w).fault = w.fault ∧
      (echo_pass^[n + 1] w).update_requested = true ∧
      (echo_pass^[n + 1] w).pending_message_data = [0, 0, 0, 0] := by
  induction n with
  | zero => intro w; exact ⟨rfl, rfl, rfl, rfl, rfl⟩
  | succ n ih =>
    intro w
    have h := ih (echo_pass w)
    rw [Function.iterate_succ, Function.comp]
    exact h

theorem echo_entry_fields (r : Bool) (w : Plasmacore) (ht : w.update_timer = true)
    (hh : w.handlers = echo_bus.handlers) (hf : w.fault = none) :
    (burst_entry echo_env r w).is_sending = true ∧
      (burst_entry echo_env r w).update_timer = true ∧
      (burst_entry echo_env r w).handlers = echo_bus.handlers ∧
      (burst_entry echo_env r w).fault = none := by
  cases r <;> simp [burst_entry, tick_entry, do_async_call, Plasmacore.log, ht, hh, hf]

theorem tick_finish_requested (v : Plasmacore) (hf : v.fault = none)
    (hr : v.update_requested = true) :
    tick_finish v = do_async_call AsyncTarget.fast_update 16 { v with is_sending := false } := by
  unfold tick_finish
  rw [if_neg (by simp [hf]), if_pos hr]

theorem tick_finish_settled (v : Plasmacore) (hf : v.fault = none)
    (hr : v.update_requested = false) :
    tick_finish v = { v with is_sending := false } := by
  unfold tick_finish
  rw [if_neg (by simp [hf]), if_neg (by simp [hr])]

/-- The tick of the echoing runtime: ten passes, then the catch-up tick. -/
theorem echo_tick (k : Nat) (r : Bool) (w : Plasmacore) (hs : w.is_sending = false)
    (ht : w.update_timer = true) (hh : w.handlers = echo_bus.handlers) (hf : w.fault = none) :
    real_update echo_env (k + 2) r w
      = do_async_call AsyncTarget.fast_update 16
          { echo_pass^[10] (burst_entry echo_env r w) with is_sending := false } := by
  have he := echo_entry_fields r w ht hh hf
  rw [real_update_burst _ _ _ _ ht hs,
    echo_burst (k + 1) k 10 (burst_entry echo_env r w) he.1 he.2.1 he.2.2.1 he.2.2.2]
  have h := echo_iterate_fields 9 (burst_entry echo_env r w)
  exact tick_finish_requested _ (h.2.2.1.trans he.2.2.2) h.2.2.2.1

theorem OnlyIdle.of_quiet {old : List (AsyncTarget × Int)} {ds cs} {v v' : Plasmacore}
    (h : OnlyIdle old v) (hq : Quiet ds cs v v') : OnlyIdle old v' := by
  obtain ⟨m1, e1, a1⟩ := h
  obtain ⟨m2, e2, a2⟩ := hq.scheduled
  refine ⟨m1 ++ m2, by rw [e2, e1, List.append_assoc], ?_⟩
  intro c hc
  rcases List.mem_append.1 hc with h | h
  · exact a1 c h
  · exact a2 c h

theorem OnlyIdle.of_trace {old : List (AsyncTarget × Int)} {v v' : Plasmacore}
    (h : OnlyIdle old v) (ht : async_calls v'.trace = async_calls v.trace) :
    OnlyIdle old v' := by
  obtain ⟨m1, e1, a1⟩ := h
  exact ⟨m1, by rw [ht, e1], a1⟩

theorem decode_loop_only_idle {env : Env} {ru : Bool → Plasmacore → Plasmacore}
    (hru : Guarded env ru) (old : List (AsyncTarget × Int)) (bytes : List Byte) (cnt : Int)
    (fuel : Nat) (read_pos : Int) (w : Plasmacore) (hs : w.is_sending = true)
    (h : OnlyIdle old w) :
    (decode_loop ru env bytes cnt fuel read_pos w).is_sending = true ∧
      OnlyIdle old (decode_loop ru env bytes cnt fuel read_pos w) := by
  refine decode_loop_induct (fun v => v.is_sending = true ∧ OnlyIdle old v) bytes cnt
    ?_ ?_ ?_ fuel read_pos w ⟨hs, h⟩
  · intro v f hv
    exact ⟨hv.1, hv.2.of_trace rfl⟩
  · intro v hv
    exact ⟨hv.1, hv.2.of_trace (by simp [Plasmacore.log, async_calls_append, async_calls])⟩
  · intro v payload hv
    obtain ⟨cs, _, hq⟩ := dispatch_and_reply_quiet hru (decode_message env payload)
      { v with decode_buffer := payload } hv.1
    have h1 : OnlyIdle old { v with decode_buffer := payload } := hv.2.of_trace rfl
    exact ⟨by rw [hq.sending]; exact hv.1, h1.of_quiet hq⟩

theorem burst_iteration_only_idle {env : Env} {ru : Bool → Plasmacore → Plasmacore}
    (hru : Guarded env ru) (old : List (AsyncTarget × Int)) (fuel : Nat) (w : Plasmacore)
    (hs : w.is_sending = true) (h : OnlyIdle old w) :
    (burst_iteration ru env fuel w).is_sending = true ∧
      OnlyIdle old (burst_iteration ru env fuel w) := by
  rw [burst_iteration_eq]
  have h0 : OnlyIdle old (exchange_step env w) :=
    h.of_trace (by simp [exchange_step, async_calls_append, async_calls])
  have h1 := decode_loop_only_idle hru old (exchange_step env w).io_buffer
    (count (exchange_step env w).io_buffer) fuel 0 (exchange_step env w) hs h0
  split
  · exact h1
  · exact ⟨h1.1, h1.2.of_trace rfl⟩

theorem burst_only_idle {env : Env} {ru : Bool → Plasmacore → Plasmacore}
    (hru : Guarded env ru) (old : List (AsyncTarget × Int)) (fuel n : Nat) (w : Plasmacore)
    (hs : w.is_sending = true) (h : OnlyIdle old w) :
    OnlyIdle old (burst ru env fuel n w) :=
  (burst_induct (fun v => v.is_sending = true ∧ OnlyIdle old v)
    (fun v hv => burst_iteration_only_idle hru old fuel v hv.1 hv.2) n w ⟨hs, h⟩).2

theorem nested_tick_same (env : Env) (r : Bool) (w : Plasmacore) :
    apart_from_request (nested_tick env r w) = apart_from_request w ∧
      (nested_tick env r w).trace = w.trace
        ++ (if r = true ∧ w.update_timer = true
            then [Event.async_call AsyncTarget.update (env.idle_millis w.idleUpdateFrequency)]
            else []) ∧
      (nested_tick env r w).update_requested = (w.update_timer || w.update_requested) := by
  unfold nested_tick apart_from_request
  cases ht : w.update_timer <;> cases r <;> simp [do_async_call, Plasmacore.log, ht]

theorem apart_from_request_fields {w w' : Plasmacore}
    (h : apart_from_request w' = apart_from_request w) :
    w'.is_sending = w.is_sending ∧ w'.update_timer = w.update_timer := by
  have h1 := congrArg Plasmacore.is_sending h
  have h2 := congrArg Plasmacore.update_timer h
  exact ⟨h1, h2⟩

theorem ticks_sending (env : Env) (fuel : Nat) (rs : List Bool) :
    ∀ (w : Plasmacore), w.is_sending = true →
      apart_from_request (ticks env fuel rs w) = apart_from_request w ∧
      (w.update_timer = true → rs ≠ [] → (ticks env fuel rs w).update_requested = true) ∧
      exchanged (ticks env fuel rs w).trace = exchanged w.trace ∧
      dispatched (ticks env fuel rs w).trace = dispatched w.trace := by
  induction rs with
  | nil =>
    intro w _
    exact ⟨rfl, fun _ h => absurd rfl h, rfl, rfl⟩
  | cons r rs ih =>
    intro w hs
    have h1 := nested_tick_same env r w
    have hq := nested_tick_quiet env r w
    have hf := apart_from_request_fields h1.1
    have h2 := ih (nested_tick env r w) (by rw [hf.1]; exact hs)
    have e : ticks env fuel (r :: rs) w = ticks env fuel rs (nested_tick env r w) := by
      simp only [ticks, List.foldl_cons]
      rw [real_update_sending _ _ _ _ hs]
    rw [e]
    refine ⟨h2.1.trans h1.1, ?_, ?_, ?_⟩
    · intro hta _
      by_cases hrs : rs = []
      · subst hrs
        have := h1.2.2
        rw [hta] at this
        simpa [ticks] using this
      · exact h2.2.1 (by rw [hf.2]; exact hta) hrs
    · rw [h2.2.2.1, hq.exchanged]
    · rw [h2.2.2.2, hq.dispatched, List.append_nil]

theorem Table.find_set_self {κ α : Type} [DecidableEq κ] (t : List (κ × α)) (k : κ) (v : α) :
    Table.find (Table.set t k v) k = some v := by
  induction t with
  | nil => simp [Table.set, Table.find]
  | cons e t ih =>
    obtain ⟨k', v'⟩ := e
    by_cases h : k' = k
    · simp [Table.set, Table.find, h]
    · simp [Table.set, Table.find, h, ih]

theorem Table.find_set_other {κ α : Type} [DecidableEq κ] (t : List (κ × α)) (k k' : κ)
    (v : α) (h : k' ≠ k) : Table.find (Table.set t k v) k' = Table.find t k' := by
  induction t with
  | nil => simp [Table.set, Table.find, Ne.symm h]
  | cons e t ih =>
    obtain ⟨k1, v1⟩ := e
    by_cases h1 : k1 = k
    · subst h1
      simp [Table.set, Table.find, Ne.symm h]
    · by_cases h2 : k1 = k'
      · subst h2
        simp [Table.set, Table.find, h1]
      · simp [Table.set, Table.find, h1, h2, ih]

theorem Table.find_remove_self {κ α : Type} [DecidableEq κ] (t : List (κ × α)) (k : κ) :
    Table.find (Table.remove t k) k = none := by
  induction t with
  | nil => simp [Table.remove, Table.find]
  | cons e t ih =>
    obtain ⟨k1, v1⟩ := e
    by_cases h1 : k1 = k
    · simpa [Table.remove, List.filter_cons, h1] using ih
    · simpa [Table.remove, List.filter_cons, h1, Table.find] using ih

theorem Table.find_remove_other {κ α : Type} [DecidableEq κ] (t : List (κ × α)) (k k' : κ)
    (h : k' ≠ k) : Table.find (Table.remove t k) k' = Table.find t k' := by
  induction t with
  | nil => simp [Table.remove, Table.find]
  | cons e t ih =>
    obtain ⟨k1, v1⟩ := e
    by_cases h1 : k1 = k
    · subst h1
      have h2 : k1 ≠ k' := fun h3 => h h3.symm
      simpa [Table.remove, List.filter_cons, Table.find, h2] using ih
    · by_cases h2 : k1 = k'
      · subst h2
        simp [Table.remove, List.filter_cons, h1, Table.find]
      · simpa [Table.remove, List.filter_cons, h1, Table.find, h2] using ih

theorem size_bytes_vals (n : Nat) :
    (size_bytes n).map (fun b => b.val)
      = [(n >>> 24) &&& 255, (n >>> 16) &&& 255, (n >>> 8) &&& 255, n &&& 255] := by
  have h : ∀ x : Nat, ((Fin.ofNat (x &&& 255) : Byte)).val = x &&& 255 := by
    intro x
    rw [size_byte_val0]
    exact (Nat.and_pow_two_sub_one_eq_mod x 8).symm
  simp only [size_bytes, List.map_cons, List.map_nil, h]

theorem Kept.keep_refl (X : Int) (w : Plasmacore) : Kept X w w := ⟨rfl, id⟩

theorem Kept.keep_trans {X : Int} {w1 w2 w3 : Plasmacore} (h1 : Kept X w1 w2) (h2 : Kept X w2 w3) :
    Kept X w1 w3 := ⟨h2.1.trans h1.1, fun h => h2.2 (h1.2 h)⟩

theorem kept_of_same {X : Int} {w w' : Plasmacore} (h1 : w'.reply_handlers = w.reply_handlers)
    (h2 : w'.handlers = w.handlers) : Kept X w w' := by
  unfold Kept RouterInstalled
  rw [h1, h2]
  exact ⟨rfl, id⟩

theorem nested_tick_tables (env : Env) (r : Bool) (w : Plasmacore) :
    (nested_tick env r w).reply_handlers = w.reply_handlers ∧
      (nested_tick env r w).handlers = w.handlers := by
  have h := (nested_tick_same env r w).1
  have h1 : (apart_from_request (nested_tick env r w)).reply_handlers
      = (apart_from_request w).reply_handlers := congrArg _ h
  have h2 : (apart_from_request (nested_tick env r w)).handlers
      = (apart_from_request w).handlers := congrArg _ h
  exact ⟨h1, h2⟩

theorem post_kept {env : Env} {ru : Bool → Plasmacore → Plasmacore} (hru : Guarded env ru)
    (X : Int) (m : PlasmacoreMessage) (w : Plasmacore) (h : w.is_sending = true) :
    Kept X w (post ru m w) := by
  unfold post
  simp only []
  rw [hru _ _ (by simpa using h)]
  exact kept_of_same (nested_tick_tables _ _ _).1 (nested_tick_tables _ _ _).2

theorem configure_kept (X : Int) (w : Plasmacore) : Kept X w (configure w) := by
  unfold configure
  split
  · exact Kept.keep_refl X w
  · refine ⟨rfl, fun _ => ?_⟩
    simp [RouterInstalled, Plasmacore.log, set_message_handler, new_handler,
      Table.find_set_self]

theorem launch_kept {env : Env} {ru : Bool → Plasmacore → Plasmacore} (hru : Guarded env ru)
    (X : Int) (w : Plasmacore) (h : w.is_sending = true) : Kept X w (launch ru env w) := by
  unfold launch
  split
  · exact Kept.keep_refl X w
  · have h1 : Kept X w ({ w with is_launched := true }.log Event.rogue_launch) :=
      kept_of_same rfl rfl
    exact h1.keep_trans (post_kept hru X _ _ (by simpa [Plasmacore.log] using h))

theorem start_kept {env : Env} {ru : Bool → Plasmacore → Plasmacore} (hru : Guarded env ru)
    (X : Int) (w : Plasmacore) (h : w.is_sending = true) : Kept X w (start ru env w) := by
  unfold start
  have h1 : Quiet [] [] w (if !w.is_launched then launch ru env (configure w) else w) := by
    split
    · exact Quiet.trans_nil (configure_quiet w)
        (launch_quiet hru _ (by rw [(configure_quiet w).sending]; exact h))
    · exact Quiet.refl w
  have h2 : Kept X w (if !w.is_launched then launch ru env (configure w) else w) := by
    split
    · exact (configure_kept X w).keep_trans
        (launch_kept hru X _ (by rw [(configure_quiet w).sending]; exact h))
    · exact Kept.keep_refl X w
  simp only []
  rw [hru _ _ (by simp only []; rw [h1.sending]; exact h)]
  refine h2.keep_trans ?_
  exact kept_of_same (nested_tick_tables _ _ _).1 (nested_tick_tables _ _ _).2

theorem run_action_kept {env : Env} {ru : Bool → Plasmacore → Plasmacore}
    (hru : Guarded env ru) (X : Int) (a : Action) (w : Plasmacore) (h : w.is_sending = true)
    (ha : a.keeps X) : Kept X w (run_action ru env a w) := by
  cases a with
  | set_message_handler t c =>
    refine ⟨rfl, fun hr => ?_⟩
    have ht : ("" : String) ≠ t := fun e => ha e.symm
    simpa [RouterInstalled, run_action, set_message_handler, new_handler,
      Table.find_set_other _ _ _ _ ht] using hr
  | remove_message_handler t =>
    have ht : ("" : String) ≠ t := fun e => ha e.symm
    simp only [run_action, remove_message_handler]
    split
    · refine ⟨rfl, fun hr => ?_⟩
      simpa [RouterInstalled, delete_handler, Table.find_remove_other _ _ _ ht] using hr
    · exact Kept.keep_refl X w
  | post m => exact post_kept hru X m w h
  | post_rsvp m c =>
    simp only [run_action, post_rsvp, new_handler]
    refine Kept.keep_trans ?_ (post_kept hru X m _ (by simpa using h))
    refine ⟨?_, id⟩
    exact Table.find_set_other _ _ _ _ (fun e => ha e.symm)
  | setIdleUpdateFrequency f =>
    simp only [run_action, setIdleUpdateFrequency]
    split
    · have h1 : Kept X w (stop { w with idleUpdateFrequency := f }) := kept_of_same rfl rfl
      exact h1.keep_trans (start_kept hru X _ (by simpa [stop] using h))
    · exact kept_of_same rfl rfl
  | start => exact start_kept hru X w h
  | stop => exact kept_of_same rfl rfl
  | update =>
    simp only [run_action, update]; rw [hru _ _ h]
    exact kept_of_same (nested_tick_tables _ _ _).1 (nested_tick_tables _ _ _).2
  | fast_update =>
    simp only [run_action, fast_update]; rw [hru _ _ h]
    exact kept_of_same (nested_tick_tables _ _ _).1 (nested_tick_tables _ _ _).2

theorem run_actions_kept {env : Env} {ru : Bool → Plasmacore → Plasmacore}
    (hru : Guarded env ru) (X : Int) (as : List Action) :
    ∀ (w : Plasmacore), w.is_sending = true → (∀ a ∈ as, a.keeps X) →
      Kept X w (run_actions ru env as w) := by
  induction as with
  | nil => intro w _ _; exact Kept.keep_refl X w
  | cons a t ih =>
    intro w h ha
    have h1 := run_action_quiet hru a w h
    have h2 := run_action_kept hru X a w h (ha a (by simp))
    exact h2.keep_trans (ih (run_action ru env a w) (by rw [h1.sending]; exact h)
      (fun b hb => ha b (by simp [hb])))

theorem call_user_kept {env : Env} {ru : Bool → Plasmacore → Plasmacore}
    (hru : Guarded env ru) (X : Int) (id : Nat) (m : PlasmacoreMessage) (w : Plasmacore)
    (h : w.is_sending = true) (ha : ∀ a ∈ (env.callback id w.trace m).actions, a.keeps X) :
    Kept X w (call_user ru env id m w).1 := by
  unfold call_user
  simp only []
  have h1 : Kept X w (w.log (Event.callback id m)) := kept_of_same rfl rfl
  exact h1.keep_trans (run_actions_kept hru X _ _ (by simpa [Plasmacore.log] using h) ha)

theorem dispatch_reply (ru : Bool → Plasmacore → Plasmacore) (env : Env)
    (r : PlasmacoreMessage) (w : Plasmacore) (hr : r.type = "") (hw : RouterInstalled w) :
    dispatch ru env r w = invoke ru env Callback.reply_router r (w.log (Event.dispatch r)) := by
  unfold dispatch
  simp only []
  have hh : (w.log (Event.dispatch r)).handlers = w.handlers := rfl
  unfold RouterInstalled at hw
  rw [hh, hr]
  cases hf : Table.find w.handlers "" with
  | none => rw [hf] at hw; simp at hw
  | some h0 =>
    rw [hf] at hw
    simp only [Option.map_some', Option.some.injEq] at hw
    simp only [hw]

theorem invoke_router_unmatched (ru : Bool → Plasmacore → Plasmacore) (env : Env)
    (r : PlasmacoreMessage) (w : Plasmacore)
    (h : Table.find w.reply_handlers r.message_id = none) :
    invoke ru env Callback.reply_router r w = (w, r) := by
  unfold invoke
  simp only [h]

theorem invoke_router_matched (ru : Bool → Plasmacore → Plasmacore) (env : Env)
    (r : PlasmacoreMessage) (w : Plasmacore) (handler : PlasmacoreMessageHandler) (cb : Nat)
    (h : Table.find w.reply_handlers r.message_id = some handler)
    (hc : handler.callback = Callback.user cb) :
    (invoke ru env Callback.reply_router r w).1
      = delete_handler handler (call_user ru env cb r
          { w with reply_handlers := Table.remove w.reply_handlers r.message_id }).1 := by
  unfold invoke
  simp only [h, hc]

theorem dispatch_unmatched_reply (ru : Bool → Plasmacore → Plasmacore) (env : Env)
    (r : PlasmacoreMessage) (v : Plasmacore) (hr : r.type = "") (hv : RouterInstalled v)
    (hn : Table.find v.reply_handlers r.message_id = none) :
    dispatch ru env r v = (v.log (Event.dispatch r), r) := by
  rw [dispatch_reply ru env r v hr hv]
  exact invoke_router_unmatched ru env r _ hn

theorem post_rsvp_stores {env : Env} {ru : Bool → Plasmacore → Plasmacore}
    (hru : Guarded env ru) (m : PlasmacoreMessage) (cb : Nat) (w0 : Plasmacore)
    (hs : w0.is_sending = true) :
    (post_rsvp ru m cb w0).reply_handlers = Table.set w0.reply_handlers m.message_id
        { addr := w0.next_addr, type := "", callback := Callback.user cb } ∧
      (post_rsvp ru m cb w0).handlers = w0.handlers := by
  simp only [post_rsvp, new_handler, post]
  rw [hru _ _ (by simpa using hs)]
  exact nested_tick_tables _ _ _

theorem dispatch_matched_reply {env : Env} {ru : Bool → Plasmacore → Plasmacore}
    (hru : Guarded env ru) (X : Int) (cb : Nat) (handler : PlasmacoreMessageHandler)
    (r : PlasmacoreMessage) (w : Plasmacore) (hs : w.is_sending = true)
    (hw : RouterInstalled w) (hr : r.type = "") (hid : r.message_id = X)
    (hf : Table.find w.reply_handlers X = some handler)
    (hc : handler.callback = Callback.user cb)
    (hkeep : ∀ tr, ∀ a ∈ (env.callback cb tr r).actions, a.keeps X) :
    called (dispatch ru env r w).1.trace = called w.trace ++ [(cb, r)] ∧
      Table.find (dispatch ru env r w).1.reply_handlers X = none ∧
      handler.addr ∉ (dispatch ru env r w).1.live ∧
      RouterInstalled (dispatch ru env r w).1 := by
  subst hid
  have hf2 : Table.find (w.log (Event.dispatch r)).reply_handlers r.message_id = some handler :=
    hf
  rw [dispatch_reply ru env r w hr hw,
    invoke_router_matched ru env r (w.log (Event.dispatch r)) handler cb hf2 hc]
  have hv : ∃ v : Plasmacore, v = { w.log (Event.dispatch r) with
      reply_handlers := Table.remove (w.log (Event.dispatch r)).reply_handlers r.message_id } :=
    ⟨_, rfl⟩
  obtain ⟨v, hv⟩ := hv
  rw [← hv]
  have hvs : v.is_sending = true := by rw [hv]; exact hs
  have hvt : called v.trace = called w.trace := by
    rw [hv]; simp [Plasmacore.log, called_append, called]
  have hvn : Table.find v.reply_handlers r.message_id = none := by
    rw [hv]; exact Table.find_remove_self _ _
  have hvr : RouterInstalled v := by rw [hv]; exact hw
  have hcq := call_user_quiet hru cb r v hvs
  have hck := call_user_kept hru r.message_id cb r v hvs (hkeep _)
  refine ⟨?_, ?_, ?_, ?_⟩
  · have := hcq.called
    rw [hvt] at this
    simpa [delete_handler] using this
  · have := hck.1
    rw [hvn] at this
    simpa [delete_handler] using this
  · simp [delete_handler]
  · exact hck.2 hvr

theorem decode_loop_truncated_frame (ru : Bool → Plasmacore → Plasmacore) (env : Env)
    (B pre tail : List Byte) (declared fuel : Nat) (w : Plasmacore)
    (hB : B = pre ++ (size_bytes declared ++ tail)) (hshort : tail.length < declared)
    (hroom : pre.length + 8 + declared < 2147483648) :
    decode_loop ru env B (count B) (fuel + 1) (pre.length : Int) w = w.log Event.skipped := by
  have hl : B.length = pre.length + 4 + tail.length := by
    rw [hB]; simp [size_bytes_length]; omega
  have hc : count B = ((pre.length + 4 + tail.length : Nat) : Int) := by
    rw [count_eq _ (by omega), hl]
  have e4 : wrap32 ((pre.length : Int) + 4) = ((pre.length + 4 : Nat) : Int) := by
    rw [wrap32_eq _ (by omega) (by omega)]; omega
  have hrs : read_size B (pre.length : Int) = some (declared : Int) := by
    have := read_size_frame pre tail declared (by omega)
    rw [to_int32_eq _ (by omega)] at this
    rw [hB]; exact this
  have e5 : wrap32 (((pre.length + 4 : Nat) : Int) + (declared : Int))
      = ((pre.length + 4 + declared : Nat) : Int) := by
    rw [wrap32_eq _ (by omega) (by omega)]; omega
  rw [decode_loop, hc, e4, if_pos (by omega), hrs]
  simp only [e5]
  rw [if_neg (by omega)]
  exact decode_loop_done _ _ _ _ _ _ _
    (by rw [wrap32_eq _ (by omega) (by omega)]; omega)

/-- Truncation is handled as C3 says when the declared length, read as an
`int`, is not negative and the read position cannot overflow: the complete
frames are dispatched in order, the remainder is skipped with one reported
framing error, nothing of it is dispatched, and the loop stops. -/
theorem decode_loop_truncated {env : Env} {ru : Bool → Plasmacore → Plasmacore}
    (hru : Guarded env ru) (ps : List (List Byte)) (tail : List Byte) (declared fuel : Nat)
    (w : Plasmacore) (hs : w.is_sending = true) (hshort : tail.length < declared)
    (hroom : (frames ps).length + 8 + declared < 2147483648) (hfuel : ps.length < fuel) :
    dispatched (decode_loop ru env (frames ps ++ (size_bytes declared ++ tail))
        (count (frames ps ++ (size_bytes declared ++ tail))) fuel 0 w).trace
      = dispatched w.trace ++ ps.map (decode_message env) ∧
    skips (decode_loop ru env (frames ps ++ (size_bytes declared ++ tail))
        (count (frames ps ++ (size_bytes declared ++ tail))) fuel 0 w).trace
      = skips w.trace + 1 ∧
    (decode_loop ru env (frames ps ++ (size_bytes declared ++ tail))
        (count (frames ps ++ (size_bytes declared ++ tail))) fuel 0 w).fault = w.fault := by
  have hlen : (frames ps ++ (size_bytes declared ++ tail)).length < 2147483648 := by
    simp [size_bytes_length]; omega
  obtain ⟨w1, cs, hq, heq⟩ := decode_loop_frames hru
    (frames ps ++ (size_bytes declared ++ tail)) hlen ps [] (size_bytes declared ++ tail)
    (fuel - ps.length) w hs (by simp)
  have hf : fuel - ps.length + ps.length = fuel := by omega
  rw [hf] at heq
  simp only [List.length_nil, Nat.cast_zero, List.nil_append] at heq
  obtain ⟨j, hj⟩ : ∃ j, fuel - ps.length = j + 1 := ⟨fuel - ps.length - 1, by omega⟩
  rw [heq, hj, decode_loop_truncated_frame ru env _ (frames ps) tail declared j w1 rfl hshort
    hroom]
  refine ⟨?_, ?_, ?_⟩
  · simp [Plasmacore.log, dispatched_append, dispatched, hq.dispatched]
  · simp [Plasmacore.log, skips_append, skips, hq.skipped]
  · exact hq.fault

theorem burst_iteration_returns {env : Env} {n k : Nat} (hw : WellFramed env n) (hk : n ≤ k)
    (j : Nat) (v : Plasmacore) (hs : v.is_sending = true) (hf : v.fault = none) :
    (burst_iteration (real_update env j) env k v).is_sending = true ∧
      (burst_iteration (real_update env j) env k v).fault = none := by
  rw [burst_iteration_eq]
  obtain ⟨ps, hps, hn, hl⟩ := hw v.trace v.pending_message_data
  have hio : (exchange_step env v).io_buffer = frames ps := hps
  rw [hio]
  obtain ⟨w1, cs, f, hq, heq, hff⟩ := decode_loop_complete (real_update_guarded env j) ps k
    (exchange_step env v) hs (by omega) (by omega)
  have hf1 : f = none := (hff hl).trans hf
  have hs1 : w1.is_sending = true := by rw [hq.sending]; exact hs
  rw [heq, hf1]
  simp only [Option.isSome_none, Bool.false_eq_true, if_false]
  exact ⟨hs1, trivial⟩

/-- With a runtime that answers in complete frames and a budget above their
number, every tick returns: `real_update` ends without a fault. -/
theorem real_update_returns {env : Env} {n k : Nat} (hw : WellFramed env n) (hk : n ≤ k)
    (r : Bool) (w : Plasmacore) (hf : w.fault = none) :
    (real_update env (k + 1) r w).fault = none := by
  cases ht : w.update_timer with
  | false => rw [real_update_stopped _ _ _ _ ht]; exact hf
  | true =>
    cases hs : w.is_sending with
    | true =>
      rw [real_update_sending _ _ _ _ hs, (nested_tick_quiet env r w).fault]
      exact hf
    | false =>
      rw [real_update_burst _ _ _ _ ht hs]
      have he : (burst_entry env r w).fault = none :=
        (tick_entry_fields env r w).2.2.1.trans hf
      have hb := burst_induct (fun v => v.is_sending = true ∧ v.fault = none)
        (fun v hv => burst_iteration_returns hw hk k v hv.1 hv.2) 10
        (burst_entry env r w) ⟨rfl, he⟩
      generalize burst (real_update env k) env k 10 (burst_entry env r w) = v at hb
      cases hr : v.update_requested with
      | true => rw [tick_finish_requested v hb.2 hr]; exact hb.2
      | false => rw [tick_finish_settled v hb.2 hr]; exact hb.2

theorem post_pending_guarded {env : Env} {ru : Bool → Plasmacore → Plasmacore}
    (hru : Guarded env ru) (m : PlasmacoreMessage) (w : Plasmacore) (h : w.is_sending = true) :
    (post ru m w).pending_message_data = w.pending_message_data ++ frame m.data := by
  unfold post
  simp only []
  rw [hru _ _ (by simpa using h)]
  unfold nested_tick
  split
  · simp [frame]
  · split <;> simp [frame, do_async_call, Plasmacore.log]

theorem burst_iteration_resets (ru : Bool → Plasmacore → Plasmacore) (env : Env) (fuel : Nat)
    (w : Plasmacore) :
    burst_iteration ru env fuel { w with update_requested := false }
      = burst_iteration ru env fuel w := rfl

theorem burst_resets (ru : Bool → Plasmacore → Plasmacore) (env : Env) (fuel n : Nat)
    (w : Plasmacore) :
    burst ru env fuel (n + 1) { w with update_requested := false }
      = burst ru env fuel (n + 1) w := by
  rw [burst, burst, burst_iteration_resets]

theorem burst_entry_resets (env : Env) (r : Bool) (w : Plasmacore) :
    burst_entry env r { w with update_requested := false }
      = { burst_entry env r w with update_requested := false } := by
  cases r <;> rfl

/-- The stale continuation flag is not read: a tick that runs a burst does
the same whatever the flag was when it was entered. -/
theorem real_update_resets (env : Env) (j : Nat) (r : Bool) (w : Plasmacore)
    (ht : w.update_timer = true) (hs : w.is_sending = false) :
    real_update env (j + 1) r { w with update_requested := false }
      = real_update env (j + 1) r w := by
  rw [real_update_burst _ _ _ _ ht hs, real_update_burst _ _ _ _ (by exact ht) (by exact hs),
    burst_entry_resets, burst_resets]

theorem tick_finish_fault (v : Plasmacore) : (tick_finish v).fault = v.fault := by
  unfold tick_finish
  split
  · rfl
  · split <;> rfl

/-- The pass of the decode loop over FF FF FF FC at read position 0: the
length is read as -4, the frame is taken for complete, an empty payload is
dispatched, and the read position is 0 again. -/
theorem decode_loop_minus_four (ru : Bool → Plasmacore → Plasmacore) (env : Env) (fuel : Nat)
    (w : Plasmacore) :
    decode_loop ru env minus_four_frame (count minus_four_frame) (fuel + 1) 0 w
      = decode_loop ru env minus_four_frame (count minus_four_frame) fuel 0
          (dispatch_and_reply ru env (decode_message env []) { w with decode_buffer := [] }) := by
  have h1 : wrap32 (0 + 4) ≤ count minus_four_frame := by decide
  have h2 : read_size minus_four_frame 0 = some (-4) := by decide
  have h3 : wrap32 (wrap32 (0 + 4) + -4) = 0 := by decide
  have h4 : copy_payload minus_four_frame (wrap32 (0 + 4)) 0 (Int.toNat (-4)) = some [] := by
    decide
  rw [decode_loop, if_pos h1]
  simp only [h2, h3, h4]
  rw [if_pos (by decide)]

/-- The decode loop never ends on FF FF FF FC: whatever the budget, it is used
up, one dispatch per pass. -/
theorem decode_loop_never_ends {env : Env} {ru : Bool → Plasmacore → Plasmacore}
    (hru : Guarded env ru) :
    ∀ (fuel : Nat) (w : Plasmacore), w.is_sending = true →
      (decode_loop ru env minus_four_frame (count minus_four_frame) fuel 0 w).fault
        = some Fault.out_of_fuel ∧
      (dispatched (decode_loop ru env minus_four_frame (count minus_four_frame) fuel 0
        w).trace).length = (dispatched w.trace).length + fuel := by
  intro fuel
  induction fuel with
  | zero =>
    intro w _
    rw [decode_loop, if_pos (by decide)]
    exact ⟨rfl, rfl⟩
  | succ n ih =>
    intro w hs
    rw [decode_loop_minus_four]
    obtain ⟨cs, _, hq⟩ := dispatch_and_reply_quiet hru (decode_message env [])
      { w with decode_buffer := [] } hs
    have h := ih _ (hq.sending.trans hs)
    refine ⟨h.1, ?_⟩
    rw [h.2, hq.dispatched]
    simp
    omega

theorem post_guarded_active {env : Env} {ru : Bool → Plasmacore → Plasmacore}
    (hru : Guarded env ru) (m : PlasmacoreMessage) (v : Plasmacore)
    (hs : v.is_sending = true) (ht : v.update_timer = true) :
    post ru m v = { v with update_requested := true,
                           pending_message_data := v.pending_message_data ++ frame m.data } := by
  unfold post
  simp only []
  rw [hru _ _ (by simpa using hs)]
  simp [nested_tick, ht, frame]

theorem ping_dispatch {env : Env} {ru : Bool → Plasmacore → Plasmacore} (hru : Guarded env ru)
    (t : String) (c : Nat) (hp : PingPong env t c) (m : PlasmacoreMessage) (v : Plasmacore)
    (hm : m.type = t) (hs : v.is_sending = true) (ht : v.update_timer = true)
    (hh : Handles v t c) :
    ∃ m', (env.callback c (v.trace ++ [Event.dispatch m]) m).actions = [Action.post m'] ∧
      dispatch_and_reply ru env m v
        = { v with update_requested := true,
                   pending_message_data := v.pending_message_data ++ frame m'.data,
                   trace := v.trace ++ [Event.dispatch m, Event.callback c m] } := by
  obtain ⟨m', ha, hr⟩ := hp.2 (v.trace ++ [Event.dispatch m]) m
  obtain ⟨h, hf, hc⟩ := hh
  refine ⟨m', ha, ?_⟩
  unfold dispatch_and_reply dispatch
  simp only [Plasmacore.log, hm, hf, invoke, hc, call_user, ha, run_actions, List.foldl,
    run_action]
  rw [post_guarded_active hru _ _ (by simpa using hs) (by simpa using ht)]
  cases hrep : (env.callback c (v.trace ++ [Event.dispatch m]) m).reply with
  | none => simp
  | some r => simp [hr r hrep]

theorem ping_iteration {env : Env} {ru : Bool → Plasmacore → Plasmacore} (hru : Guarded env ru)
    (t : String) (c : Nat) (hp : PingPong env t c) (j : Nat) (v : Plasmacore)
    (hs : v.is_sending = true) (ht : v.update_timer = true) (hh : Handles v t c)
    (hf : v.fault = none) :
    PingPass env c v (burst_iteration ru env (j + 1) v) := by
  rw [burst_iteration_eq]
  obtain ⟨p, hio, hlen, hty⟩ := hp.1 v.trace v.pending_message_data
  have hio' : (exchange_step env v).io_buffer = frame p := hio
  rw [hio']
  have hB : frame p = [] ++ (frame p ++ []) := by simp
  have h1 := decode_loop_frame ru env (frame p) [] p [] j (exchange_step env v) hB
    (by rw [frame_length]; omega)
  simp only [List.length_nil, Nat.cast_zero, List.nil_append] at h1
  have hdone : ¬ wrap32 (((frame p).length : Int) + 4) ≤ count (frame p) := by
    rw [count_eq _ (by rw [frame_length]; omega), wrap32_eq _ (by omega)
      (by rw [frame_length]; push_cast; omega)]
    omega
  rw [h1, decode_loop_done _ _ _ _ _ _ _ hdone]
  obtain ⟨m', ha, hd⟩ := ping_dispatch hru t c hp (decode_message env p)
    { exchange_step env v with decode_buffer := p } hty
    (by simpa [exchange_step] using hs) (by simpa [exchange_step] using ht)
    (by simpa [Handles, exchange_step] using hh)
  rw [hd]
  have hf' : v.fault = none := hf
  simp only [exchange_step, hf', Option.isSome_none, Bool.false_eq_true, if_false]
  refine ⟨rfl, rfl, rfl, hf.symm, rfl, ?_, ?_, ?_, ?_, _, _, m', ha, ?_⟩
  · simp [exchanged_append, exchanged]
  · simp [dispatched_append, dispatched]
  · simp [called_append, called]
  · simp [async_calls_append, async_calls]
  · simp

theorem ping_burst {env : Env} {ru : Bool → Plasmacore → Plasmacore} (hru : Guarded env ru)
    (t : String) (c : Nat) (hp : PingPong env t c) (j : Nat) :
    ∀ (n : Nat) (v : Plasmacore), v.is_sending = true → v.update_timer = true →
      Handles v t c → v.fault = none →
      (burst ru env (j + 1) (n + 1) v).is_sending = true ∧
      (burst ru env (j + 1) (n + 1) v).fault = none ∧
      (burst ru env (j + 1) (n + 1) v).update_requested = true ∧
      (exchanged (burst ru env (j + 1) (n + 1) v).trace).length
        = (exchanged v.trace).length + (n + 1) ∧
      (dispatched (burst ru env (j + 1) (n + 1) v).trace).length
        = (dispatched v.trace).length + (n + 1) ∧
      (called (burst ru env (j + 1) (n + 1) v).trace).length
        = (called v.trace).length + (n + 1) ∧
      async_calls (burst ru env (j + 1) (n + 1) v).trace = async_calls v.trace ∧
      ∃ tr m m', (env.callback c tr m).actions = [Action.post m'] ∧
        (burst ru env (j + 1) (n + 1) v).pending_message_data = frame m'.data := by
  intro n
  induction n with
  | zero =>
    intro v hs ht hh hf
    obtain ⟨p1, p2, p3, p4, p5, p6, p7, p8, p9, p10⟩ := ping_iteration hru t c hp j v hs ht hh hf
    have e : burst ru env (j + 1) (0 + 1) v = burst_iteration ru env (j + 1) v := by
      rw [burst]
      simp only [p4, hf, p5, burst]
      simp
    rw [e]
    exact ⟨p1.trans hs, p4.trans hf, p5, p6, p7, p8, p9, p10⟩
  | succ n ih =>
    intro v hs ht hh hf
    obtain ⟨p1, p2, p3, p4, p5, p6, p7, p8, p9, _⟩ := ping_iteration hru t c hp j v hs ht hh hf
    have e : burst ru env (j + 1) (n + 1 + 1) v
        = burst ru env (j + 1) (n + 1) (burst_iteration ru env (j + 1) v) := by
      rw [burst]
      simp only [p4, hf, p5]
      simp
    rw [e]
    have hh' : Handles (burst_iteration ru env (j + 1) v) t c := by
      unfold Handles
      rw [p3]
      exact hh
    obtain ⟨q1, q2, q3, q4, q5, q6, q7, q8⟩ := ih _ (p1.trans hs) (p2.trans ht) hh' (p4.trans hf)
    refine ⟨q1, q2, q3, ?_, ?_, ?_, q7.trans p9, q8⟩
    · rw [q4, p6]; omega
    · rw [q5, p7]; omega
    · rw [q6, p8]; omega

theorem burst_entry_fields (env : Env) (r : Bool) (w : Plasmacore) :
    (burst_entry env r w).is_sending = true ∧
      (burst_entry env r w).update_timer = w.update_timer ∧
      (burst_entry env r w).handlers = w.handlers ∧
      (burst_entry env r w).fault = w.fault ∧
      (burst_entry env r w).pending_message_data = w.pending_message_data ∧
      exchanged (burst_entry env r w).trace = exchanged w.trace ∧
      dispatched (burst_entry env r w).trace = dispatched w.trace ∧
      called (burst_entry env r w).trace = called w.trace ∧
      async_calls (burst_entry env r w).trace = async_calls w.trace
        ++ (if r then [(AsyncTarget.update, env.idle_millis w.idleUpdateFrequency)] else []) := by
  cases r <;>
    simp [burst_entry, tick_entry, do_async_call, Plasmacore.log, exchanged_append, exchanged,
      dispatched_append, dispatched, called_append, called, async_calls_append, async_calls]

theorem ping_pong_echo : PingPong echo_env "t" 0 :=
  ⟨fun _ _ => ⟨[], rfl, by decide, rfl⟩, fun _ _ => ⟨message_of [], rfl, by intro r h; cases h⟩⟩

theorem tick_finish_ping (env : Env) (c : Nat) (X : Plasmacore) (ne nd nc : Nat)
    (old : List (AsyncTarget × Int))
    (h : X.is_sending = true ∧ X.fault = none ∧ X.update_requested = true ∧
      (exchanged X.trace).length = ne ∧ (dispatched X.trace).length = nd ∧
      (called X.trace).length = nc ∧ async_calls X.trace = old ∧
      ∃ tr m m', (env.callback c tr m).actions = [Action.post m'] ∧
        X.pending_message_data = frame m'.data) :
    (tick_finish X).fault = none ∧ (tick_finish X).is_sending = false ∧
    (exchanged (tick_finish X).trace).length = ne ∧
    (dispatched (tick_finish X).trace).length = nd ∧
    (called (tick_finish X).trace).length = nc ∧
    (∃ tr m m', (env.callback c tr m).actions = [Action.post m'] ∧
      (tick_finish X).pending_message_data = frame m'.data) ∧
    async_calls (tick_finish X).trace = old ++ [(AsyncTarget.fast_update, 16)] := by
  obtain ⟨_, q2, q3, q4, q5, q6, q7, q8⟩ := h
  rw [tick_finish_requested _ q2 q3]
  refine ⟨q2, rfl, ?_, ?_, ?_, q8, ?_⟩
  · show (exchanged (X.trace ++ [Event.async_call AsyncTarget.fast_update 16])).length = _
    rw [exchanged_append, ← q4]
    simp [exchanged]
  · show (dispatched (X.trace ++ [Event.async_call AsyncTarget.fast_update 16])).length = _
    rw [dispatched_append, ← q5]
    simp [dispatched]
  · show (called (X.trace ++ [Event.async_call AsyncTarget.fast_update 16])).length = _
    rw [called_append, ← q6]
    simp [called]
  · show async_calls (X.trace ++ [Event.async_call AsyncTarget.fast_update 16]) = _
    rw [async_calls_append, q7]
    rfl

theorem conserved_refl (w : Plasmacore) : Conserved w w :=
  ⟨[], [], by simp, by simp [handed_over, frames]⟩

theorem conserved_of_same {w v v' : Plasmacore} (h : Conserved w v)
    (h1 : exchanged v'.trace = exchanged v.trace)
    (h2 : v'.pending_message_data = v.pending_message_data) : Conserved w v' := by
  obtain ⟨news, fs, e1, e2⟩ := h
  exact ⟨news, fs, by rw [h1, e1], by rw [h2, e2]⟩

theorem conserved_of_quiet {w v v' : Plasmacore} {ds cs} (h : Conserved w v)
    (hq : Quiet ds cs v v') : Conserved w v' := by
  obtain ⟨news, fs, e1, e2⟩ := h
  obtain ⟨fs2, e3⟩ := hq.pending
  refine ⟨news, fs ++ fs2, by rw [hq.exchanged, e1], ?_⟩
  rw [e3, ← List.append_assoc, e2, frames_append, List.append_assoc]

theorem conserved_exchange (env : Env) {w v : Plasmacore} (h : Conserved w v) :
    Conserved w (exchange_step env v) := by
  obtain ⟨news, fs, e1, e2⟩ := h
  refine ⟨news ++ [(v.pending_message_data, env.post_messages v.trace v.pending_message_data)],
    fs, ?_, ?_⟩
  · simp [exchange_step, exchanged_append, exchanged, e1]
  · rw [← e2]
    simp [exchange_step, handed_over]

theorem decode_loop_conserved {env : Env} {ru : Bool → Plasmacore → Plasmacore}
    (hru : Guarded env ru) (w0 : Plasmacore) (bytes : List Byte) (cnt : Int)
    (fuel : Nat) (read_pos : Int) (w : Plasmacore) (hs : w.is_sending = true)
    (h : Conserved w0 w) :
    (decode_loop ru env bytes cnt fuel read_pos w).is_sending = true ∧
      Conserved w0 (decode_loop ru env bytes cnt fuel read_pos w) := by
  refine decode_loop_induct (fun v => v.is_sending = true ∧ Conserved w0 v) bytes cnt
    ?_ ?_ ?_ fuel read_pos w ⟨hs, h⟩
  · intro v f hv
    exact ⟨hv.1, conserved_of_same hv.2 rfl rfl⟩
  · intro v hv
    exact ⟨hv.1, conserved_of_same hv.2
      (by simp [Plasmacore.log, exchanged_append, exchanged]) rfl⟩
  · intro v payload hv
    obtain ⟨cs, _, hq⟩ := dispatch_and_reply_quiet hru (decode_message env payload)
      { v with decode_buffer := payload } hv.1
    have h1 : Conserved w0 { v with decode_buffer := payload } :=
      conserved_of_same hv.2 rfl rfl
    exact ⟨by rw [hq.sending]; exact hv.1, conserved_of_quiet h1 hq⟩

theorem burst_iteration_conserved {env : Env} {ru : Bool → Plasmacore → Plasmacore}
    (hru : Guarded env ru) (w0 : Plasmacore) (fuel : Nat) (w : Plasmacore)
    (hs : w.is_sending = true) (h : Conserved w0 w) :
    (burst_iteration ru env fuel w).is_sending = true ∧
      Conserved w0 (burst_iteration ru env fuel w) := by
  rw [burst_iteration_eq]
  have h1 := decode_loop_conserved hru w0 (exchange_step env w).io_buffer
    (count (exchange_step env w).io_buffer) fuel 0 (exchange_step env w) hs
    (conserved_exchange env h)
  split
  · exact h1
  · exact ⟨h1.1, conserved_of_same h1.2 rfl rfl⟩

theorem burst_conserved {env : Env} {ru : Bool → Plasmacore → Plasmacore}
    (hru : Guarded env ru) (w0 : Plasmacore) (fuel n : Nat) (w : Plasmacore)
    (hs : w.is_sending = true) (h : Conserved w0 w) :
    Conserved w0 (burst ru env fuel n w) :=
  (burst_induct (fun v => v.is_sending = true ∧ Conserved w0 v)
    (fun v hv => burst_iteration_conserved hru w0 fuel v hv.1 hv.2) n w ⟨hs, h⟩).2

theorem tick_finish_pending (w : Plasmacore) :
    (tick_finish w).pending_message_data = w.pending_message_data := by
  unfold tick_finish
  split
  · rfl
  · split <;> rfl

theorem real_update_conserved (env : Env) (fuel : Nat) (r : Bool) (w : Plasmacore) :
    Conserved w (real_update env fuel r w) := by
  cases ht : w.update_timer with
  | false => rw [real_update_stopped _ _ _ _ ht]; exact conserved_refl w
  | true =>
    cases hs : w.is_sending with
    | true =>
      rw [real_update_sending _ _ _ _ hs]
      exact conserved_of_quiet (conserved_refl w) (nested_tick_quiet env r w)
    | false =>
      have he := tick_entry_fields env r w
      cases fuel with
      | zero =>
        rw [real_update_out_of_fuel _ _ _ ht hs]
        exact conserved_of_same (conserved_refl w) he.2.2.2.2 he.2.2.2.1
      | succ k =>
        rw [real_update_burst _ _ _ _ ht hs]
        have h0 : Conserved w (burst_entry env r w) :=
          conserved_of_same (conserved_refl w) he.2.2.2.2 he.2.2.2.1
        have h1 := burst_conserved (real_update_guarded env k) w k 10 (burst_entry env r w)
          rfl h0
        exact conserved_of_same h1 (tick_finish_exchanged _) (tick_finish_pending _)

theorem sample_iteration (ru : Bool → Plasmacore → Plasmacore) (k : Nat) (v : Plasmacore)
    (hf : v.fault = none) :
    burst_iteration ru sample_env k v = empty_pass sample_env v := by
  rw [burst_iteration_eq]
  have hio : (exchange_step sample_env v).io_buffer = [] := rfl
  rw [hio, decode_loop_done _ _ _ _ _ _ _ (by decide)]
  have hf' : (exchange_step sample_env v).fault = none := hf
  rw [hf']
  rfl

/-- A tick of the runtime that answers nothing: one pass, which hands the
outbound buffer over, and the idle tick of its entry. -/
theorem sample_tick (k : Nat) (r : Bool) (w : Plasmacore) (ht : w.update_timer = true)
    (hs : w.is_sending = false) (hf : w.fault = none) :
    (real_update sample_env (k + 1) r w).update_timer = true ∧
    (real_update sample_env (k + 1) r w).is_sending = false ∧
    (real_update sample_env (k + 1) r w).is_launched = w.is_launched ∧
    (real_update sample_env (k + 1) r w).fault = none ∧
    async_calls (real_update sample_env (k + 1) r w).trace
      = async_calls w.trace
        ++ (if r then [(AsyncTarget.update, sample_env.idle_millis w.idleUpdateFrequency)]
            else []) := by
  obtain ⟨e1, e2, e3, e4, e5, e6, e7, e8, e9⟩ := burst_entry_fields sample_env r w
  have hb : burst (real_update sample_env k) sample_env k 10 (burst_entry sample_env r w)
      = empty_pass sample_env (burst_entry sample_env r w) := by
    show burst (real_update sample_env k) sample_env k (9 + 1) (burst_entry sample_env r w) = _
    rw [burst, sample_iteration _ _ _ (e4.trans hf)]
    have hf' : (empty_pass sample_env (burst_entry sample_env r w)).fault = none :=
      e4.trans hf
    have hr' : (empty_pass sample_env (burst_entry sample_env r w)).update_requested = false :=
      rfl
    simp only [hf', hr']
    rfl
  rw [real_update_burst _ _ _ _ ht hs, hb,
    tick_finish_settled (empty_pass sample_env (burst_entry sample_env r w)) (e4.trans hf) rfl]
  refine ⟨e2.trans ht, rfl, ?_, e4.trans hf, ?_⟩
  · cases r <;> rfl
  · show async_calls ((burst_entry sample_env r w).trace ++ _) = _
    rw [async_calls_append, e9]
    simp [async_calls]

theorem setIdleUpdateFrequency_running (ru : Bool → Plasmacore → Plasmacore) (env : Env)
    (f : Double) (w : Plasmacore) (ht : w.update_timer = true) (hl : w.is_launched = true) :
    setIdleUpdateFrequency ru env f w
      = ru true { w with idleUpdateFrequency := f, update_timer := true } := by
  unfold setIdleUpdateFrequency start stop
  simp [ht, hl]

theorem cadence_change_running (k : Nat) (f : Double) (s : Timed) (h : Running s) :
    Running (Timed.run (setIdleUpdateFrequency (real_update sample_env (k + 1)) sample_env f) s) ∧
    (Timed.run (setIdleUpdateFrequency (real_update sample_env (k + 1)) sample_env f) s).queue
      = s.queue ++ [(AsyncTarget.update, sample_env.idle_millis f)] := by
  obtain ⟨h1, h2, h3, h4, h5⟩ := h
  have e := setIdleUpdateFrequency_running (real_update sample_env (k + 1)) sample_env f s.bus
    h1 h3
  have t := sample_tick k true { s.bus with idleUpdateFrequency := f, update_timer := true }
    rfl h2 h4
  rw [← e] at t
  obtain ⟨t1, t2, t3, t4, t5⟩ := t
  have hq : (Timed.run (setIdleUpdateFrequency (real_update sample_env (k + 1)) sample_env f)
      s).queue = s.queue ++ [(AsyncTarget.update, sample_env.idle_millis f)] := by
    unfold Timed.run
    simp only [t5]
    have : async_calls ({ s.bus with idleUpdateFrequency := f, update_timer := true }).trace
        = async_calls s.bus.trace := rfl
    rw [this, List.drop_left]
    rfl
  refine ⟨⟨t1, t2, t3.trans h3, t4, ?_⟩, hq⟩
  intro c hc
  rw [hq] at hc
  rcases List.mem_append.1 hc with hc | hc
  · exact h5 c hc
  · simp at hc
    rw [hc]

theorem fire_running (k : Nat) (i : Nat) (s : Timed) (h : Running s) :
    Running (Timed.fire sample_env (k + 1) i s) ∧
    (Timed.fire sample_env (k + 1) i s).queue.length = s.queue.length := by
  obtain ⟨h1, h2, h3, h4, h5⟩ := h
  unfold Timed.fire
  cases hq : s.queue[i]? with
  | none => exact ⟨⟨h1, h2, h3, h4, h5⟩, rfl⟩
  | some c =>
    obtain ⟨cb, ms⟩ := c
    have hi : i < s.queue.length := (List.getElem?_eq_some_iff.1 hq).1
    have hmem : (cb, ms) ∈ s.queue := by
      obtain ⟨hlt, heq⟩ := List.getElem?_eq_some_iff.1 hq
      rw [← heq]
      exact List.getElem_mem hlt
    have hc : cb = AsyncTarget.update := h5 (cb, ms) hmem
    subst hc
    simp only []
    obtain ⟨t1, t2, t3, t4, t5⟩ := sample_tick k true s.bus h1 h2 h4
    have hqueue : (Timed.run (update (real_update sample_env (k + 1)))
        { s with queue := s.queue.eraseIdx i }).queue
        = s.queue.eraseIdx i
          ++ [(AsyncTarget.update, sample_env.idle_millis s.bus.idleUpdateFrequency)] := by
      unfold Timed.run update
      simp only [t5]
      rw [List.drop_left]
      rfl
    refine ⟨⟨t1, t2, t3.trans h3, t4, ?_⟩, ?_⟩
    · intro c hc
      rw [hqueue] at hc
      rcases List.mem_append.1 hc with hc | hc
      · exact h5 c (List.mem_of_mem_eraseIdx hc)
      · simp at hc
        rw [hc]
    · rw [hqueue, List.length_append, List.length_eraseIdx, if_pos hi]
      simp
      omega

theorem started_running : Running started ∧ started.queue.length = 1 := by
  have e : start (real_update sample_env 1) sample_env Plasmacore.singleton
      = real_update sample_env 1 true
          { launch (real_update sample_env 1) sample_env (configure Plasmacore.singleton)
            with update_timer := true } := rfl
  have hl : (launch (real_update sample_env 1) sample_env
      (configure Plasmacore.singleton)).is_launched = true := by decide
  have hs : (launch (real_update sample_env 1) sample_env
      (configure Plasmacore.singleton)).is_sending = false := by decide
  have hf : (launch (real_update sample_env 1) sample_env
      (configure Plasmacore.singleton)).fault = none := by decide
  have ha : async_calls (launch (real_update sample_env 1) sample_env
      (configure Plasmacore.singleton)).trace = [] := by decide
  obtain ⟨t1, t2, t3, t4, t5⟩ := sample_tick 0 true
    { launch (real_update sample_env 1) sample_env (configure Plasmacore.singleton)
      with update_timer := true } rfl hs hf
  rw [← e] at t1 t2 t3 t4 t5
  have hq : started.queue
      = [(AsyncTarget.update, sample_env.idle_millis
          (launch (real_update sample_env 1) sample_env
            (configure Plasmacore.singleton)).idleUpdateFrequency)] := by
    unfold started Timed.run
    simp only [t5]
    have h0 : async_calls ({ launch (real_update sample_env 1) sample_env
        (configure Plasmacore.singleton) with update_timer := true }).trace = [] := ha
    rw [h0]
    rfl
  refine ⟨⟨t1, t2, t3.trans hl, t4, ?_⟩, by rw [hq]; rfl⟩
  intro c hc
  rw [hq] at hc
  simp at hc
  rw [hc]

theorem steps_running (k : Nat) (l : List TimerStep) :
    ∀ (s : Timed), Running s →
      Running (Timed.steps sample_env (k + 1) l s) ∧
      (Timed.steps sample_env (k + 1) l s).queue.length
        = s.queue.length + cadence_changes l := by
  induction l with
  | nil => intro s h; exact ⟨h, rfl⟩
  | cons a l ih =>
    intro s h
    cases a with
    | cadence f =>
      obtain ⟨h1, h2⟩ := cadence_change_running k f s h
      obtain ⟨h3, h4⟩ := ih _ h1
      refine ⟨h3, Eq.trans h4 ?_⟩
      rw [h2]
      simp [cadence_changes]
      omega
    | fire i =>
      obtain ⟨h1, h2⟩ := fire_running k i s h
      obtain ⟨h3, h4⟩ := ih _ h1
      refine ⟨h3, Eq.trans h4 ?_⟩
      rw [h2]
      simp [cadence_changes]

theorem idle_pending_running (s : Timed) (h : Running s) : idle_pending s = s.queue.length := by
  unfold idle_pending
  rw [List.filter_eq_self.2]
  intro c hc
  simpa using h.2.2.2.2 c hc

theorem nested_tick_pending (env : Env) (r : Bool) (w : Plasmacore) :
    (nested_tick env r w).pending_message_data = w.pending_message_data := by
  unfold nested_tick
  split
  · rfl
  · cases r <;> rfl

theorem configure_fields (w : Plasmacore) :
    (configure w).is_sending = w.is_sending ∧ (configure w).is_launched = w.is_launched ∧
      (configure w).pending_message_data = w.pending_message_data := by
  unfold configure
  split
  · exact ⟨rfl, rfl, rfl⟩
  · exact ⟨rfl, rfl, rfl⟩

theorem start_pending {env : Env} {ru : Bool → Plasmacore → Plasmacore} (hru : Guarded env ru)
    (w : Plasmacore) (h : w.is_sending = true) :
    (start ru env w).pending_message_data
      = w.pending_message_data
        ++ frames (if w.is_launched then [] else [env.launch_message]) := by
  unfold start
  cases hl : w.is_launched with
  | true =>
    simp only [Bool.not_true, Bool.false_eq_true, if_false, if_true]
    rw [hru _ _ (by exact h), nested_tick_pending]
    simp [frames]
  | false =>
    obtain ⟨c1, c2, c3⟩ := configure_fields w
    simp only [Bool.not_false, if_true, Bool.false_eq_true, if_false]
    have hs1 : ({ launch ru env (configure w) with update_timer := true } : Plasmacore).is_sending
        = true := by
      show (launch ru env (configure w)).is_sending = true
      rw [(launch_quiet hru (configure w) (c1.trans h)).sending]
      exact c1.trans h
    rw [hru _ _ hs1, nested_tick_pending]
    show (launch ru env (configure w)).pending_message_data = _
    unfold launch
    rw [if_neg (by rw [c2, hl]; simp)]
    simp only []
    rw [post_pending_guarded hru _ _ (by exact c1.trans h)]
    show (configure w).pending_message_data ++ frame env.launch_message = _
    rw [c3]
    simp [frames]

theorem run_action_pending {env : Env} {ru : Bool → Plasmacore → Plasmacore}
    (hru : Guarded env ru) (a : Action) (w : Plasmacore) (h : w.is_sending = true) :
    (run_action ru env a w).pending_message_data
      = w.pending_message_data ++ frames (enqueued_by env a w) := by
  cases a with
  | set_message_handler t c => simp [run_action, enqueued_by, frames, set_message_handler, new_handler]
  | remove_message_handler t =>
    simp only [run_action, enqueued_by, frames, List.append_nil]
    unfold remove_message_handler
    split <;> rfl
  | post m =>
    simp only [run_action, enqueued_by, frames, List.append_nil]
    exact post_pending_guarded hru m w h
  | post_rsvp m c =>
    simp only [run_action, enqueued_by, frames, List.append_nil]
    unfold post_rsvp new_handler
    simp only []
    rw [post_pending_guarded hru _ _ (by exact h)]
  | setIdleUpdateFrequency f =>
    simp only [run_action, enqueued_by]
    unfold setIdleUpdateFrequency
    simp only []
    cases ht : w.update_timer with
    | false => simp [frames]
    | true =>
      simp only [if_true, Bool.true_and]
      rw [start_pending hru _ (by exact h)]
      cases hl : w.is_launched <;> simp [stop, hl]
  | start =>
    simp only [run_action, enqueued_by]
    exact start_pending hru w h
  | stop => simp [run_action, enqueued_by, frames, stop]
  | update =>
    simp only [run_action, enqueued_by, frames, List.append_nil, update]
    rw [hru _ _ h, nested_tick_pending]
  | fast_update =>
    simp only [run_action, enqueued_by, frames, List.append_nil, fast_update]
    rw [hru _ _ h, nested_tick_pending]

theorem run_actions_pending {env : Env} {ru : Bool → Plasmacore → Plasmacore}
    (hru : Guarded env ru) (as : List Action) :
    ∀ (w : Plasmacore), w.is_sending = true →
      (run_actions ru env as w).pending_message_data
        = w.pending_message_data ++ frames (enqueued_by_all ru env as w) := by
  induction as with
  | nil => intro w _; simp [run_actions, enqueued_by_all, frames]
  | cons a as ih =>
    intro w h
    have h1 : (run_action ru env a w).is_sending = true := by
      rw [(run_action_quiet hru a w h).sending]; exact h
    have e : run_actions ru env (a :: as) w = run_actions ru env as (run_action ru env a w) := rfl
    rw [e, ih _ h1, run_action_pending hru a w h]
    simp [enqueued_by_all, frames_append]

theorem call_user_pending {env : Env} {ru : Bool → Plasmacore → Plasmacore}
    (hru : Guarded env ru) (id : Nat) (m : PlasmacoreMessage) (w : Plasmacore)
    (h : w.is_sending = true) :
    (call_user ru env id m w).1.pending_message_data
      = w.pending_message_data
        ++ frames (enqueued_by_all ru env (env.callback id w.trace m).actions
            (w.log (Event.callback id m))) := by
  unfold call_user
  simp only []
  rw [run_actions_pending hru _ _ (by exact h)]
  rfl

theorem dispatch_and_reply_pending {env : Env} {ru : Bool → Plasmacore → Plasmacore}
    (hru : Guarded env ru) (m : PlasmacoreMessage) (w : Plasmacore) (hs : w.is_sending = true) :
    (dispatch_and_reply ru env m w).pending_message_data
      = (dispatch ru env m w).1.pending_message_data
        ++ auto_reply_frames (dispatch ru env m w).2 := by
  obtain ⟨cs, _, hq⟩ := dispatch_quiet hru m w hs
  have hs1 : (dispatch ru env m w).1.is_sending = true := by rw [hq.sending]; exact hs
  unfold dispatch_and_reply
  cases hr : (dispatch ru env m w).2.reply with
  | none => simp [auto_reply_frames, hr]
  | some r =>
    cases hsent : r.sent with
    | true => simp [auto_reply_frames, hr, hsent]
    | false =>
      simp only [hr, hsent, auto_reply_frames]
      simp only [Bool.not_false, if_true, Bool.false_eq_true, if_false]
      unfold post_reply
      rw [post_pending_guarded hru _ _ hs1]

theorem catch_ups_append (a b : List Event) : catch_ups (a ++ b) = catch_ups a ++ catch_ups b := by
  simp [catch_ups, async_calls_append]

theorem catch_ups_of_quiet {ds cs} {v v' : Plasmacore} (hq : Quiet ds cs v v') :
    catch_ups v'.trace = catch_ups v.trace := by
  obtain ⟨more, e, hm⟩ := hq.scheduled
  unfold catch_ups
  rw [e, List.filter_append]
  have : more.filter (fun c => decide (c.1 = AsyncTarget.fast_update)) = [] := by
    rw [List.filter_eq_nil_iff]
    intro c hc
    simp [hm c hc]
  rw [this, List.append_nil]

theorem run_action_ticking {env : Env} {ru : Bool → Plasmacore → Plasmacore}
    (hru : Guarded env ru) (a : Action) (w : Plasmacore) (h : w.is_sending = true)
    (ht : w.update_timer = true) (ha : a.ticks = true) :
    (run_action ru env a w).update_timer = true ∧
      (run_action ru env a w).handlers = w.handlers ∧
      (run_action ru env a w).update_requested = true := by
  cases a with
  | update =>
    simp only [run_action, update]
    rw [hru _ _ h]
    simp [nested_tick, ht, do_async_call, Plasmacore.log]
  | fast_update =>
    simp only [run_action, fast_update]
    rw [hru _ _ h]
    simp [nested_tick, ht]
  | post m =>
    simp only [run_action]
    rw [post_guarded_active hru m w h ht]
    exact ⟨ht, rfl, rfl⟩
  | set_message_handler t c => simp [Action.ticks] at ha
  | remove_message_handler t => simp [Action.ticks] at ha
  | post_rsvp m c => simp [Action.ticks] at ha
  | setIdleUpdateFrequency f => simp [Action.ticks] at ha
  | start => simp [Action.ticks] at ha
  | stop => simp [Action.ticks] at ha

theorem run_actions_ticking {env : Env} {ru : Bool → Plasmacore → Plasmacore}
    (hru : Guarded env ru) (as : List Action) :
    ∀ (w : Plasmacore), w.is_sending = true → w.update_timer = true →
      (∀ a ∈ as, a.ticks = true) →
      (run_actions ru env as w).update_timer = true ∧
        (run_actions ru env as w).handlers = w.handlers ∧
        (as ≠ [] → (run_actions ru env as w).update_requested = true) ∧
        (as = [] → (run_actions ru env as w).update_requested = w.update_requested) := by
  induction as with
  | nil => intro w _ ht _; exact ⟨ht, rfl, fun h => absurd rfl h, fun _ => rfl⟩
  | cons a as ih =>
    intro w hs ht ha
    obtain ⟨a1, a2, a3⟩ := run_action_ticking hru a w hs ht (ha a (List.mem_cons_self _ _))
    have hs1 : (run_action ru env a w).is_sending = true := by
      rw [(run_action_quiet hru a w hs).sending]; exact hs
    obtain ⟨b1, b2, b3, b4⟩ := ih (run_action ru env a w) hs1 a1
      (fun x hx => ha x (List.mem_cons_of_mem _ hx))
    have e : run_actions ru env (a :: as) w = run_actions ru env as (run_action ru env a w) := rfl
    rw [e]
    refine ⟨b1, b2.trans a2, fun _ => ?_, fun h => absurd h (List.cons_ne_nil _ _)⟩
    by_cases has : as = []
    · rw [b4 has]; exact a3
    · exact b3 has

/-- The pass of the burst loop when nothing comes in. -/
theorem empty_iteration (ru : Bool → Plasmacore → Plasmacore) (env : Env) (k : Nat)
    (v : Plasmacore) (hr : env.post_messages v.trace v.pending_message_data = [])
    (hf : v.fault = none) :
    burst_iteration ru env k v = empty_pass env v := by
  rw [burst_iteration_eq]
  have hio : (exchange_step env v).io_buffer = [] := hr
  rw [hio, decode_loop_done _ _ _ _ _ _ _ (by decide)]
  have hf' : (exchange_step env v).fault = none := hf
  rw [hf']
  rfl

theorem handled_dispatch {env : Env} (ru : Bool → Plasmacore → Plasmacore)
    (c : Nat) (m : PlasmacoreMessage) (v : Plasmacore) (hh : Handles v m.type c)
    (hr : ∀ r, (env.callback c (v.trace ++ [Event.dispatch m]) m).reply = some r →
      r.sent = true) :
    dispatch_and_reply ru env m v
      = run_actions ru env (env.callback c (v.trace ++ [Event.dispatch m]) m).actions
          ((v.log (Event.dispatch m)).log (Event.callback c m)) := by
  obtain ⟨h, hf, hc⟩ := hh
  unfold dispatch_and_reply dispatch
  have hf' : Table.find (v.log (Event.dispatch m)).handlers m.type = some h := hf
  simp only [hf', invoke, hc, call_user]
  have ht : (v.log (Event.dispatch m)).trace = v.trace ++ [Event.dispatch m] := rfl
  rw [ht]
  cases hrep : (env.callback c (v.trace ++ [Event.dispatch m]) m).reply with
  | none => rfl
  | some r => simp [hr r hrep]

theorem nagging_dispatch {env : Env} {ru : Bool → Plasmacore → Plasmacore}
    (hru : Guarded env ru) (t : String) (c : Nat) (n0 j : Nat) (hp : Nagging env t c n0 j)
    (m : PlasmacoreMessage) (x : Plasmacore) (hm : m.type = t) (hs : x.is_sending = true)
    (ht : x.update_timer = true) (hh : Handles x t c) :
    (dispatch_and_reply ru env m x).is_sending = true ∧
      (dispatch_and_reply ru env m x).update_timer = true ∧
      Handles (dispatch_and_reply ru env m x) t c ∧
      (dispatch_and_reply ru env m x).fault = x.fault ∧
      (dispatch_and_reply ru env m x).update_requested = true ∧
      exchanged (dispatch_and_reply ru env m x).trace = exchanged x.trace ∧
      (called (dispatch_and_reply ru env m x).trace).length = (called x.trace).length + 1 ∧
      catch_ups (dispatch_and_reply ru env m x).trace = catch_ups x.trace := by
  obtain ⟨n1, n2, n3⟩ := hp.2.2 (x.trace ++ [Event.dispatch m]) m
  rw [handled_dispatch ru c m x (by rw [hm]; exact hh) n3]
  have hs0 : ((x.log (Event.dispatch m)).log (Event.callback c m)).is_sending = true := hs
  have ht0 : ((x.log (Event.dispatch m)).log (Event.callback c m)).update_timer = true := ht
  have hq := run_actions_quiet hru (env.callback c (x.trace ++ [Event.dispatch m]) m).actions
    _ hs0
  obtain ⟨t1, t2, t3, _⟩ := run_actions_ticking hru
    (env.callback c (x.trace ++ [Event.dispatch m]) m).actions _ hs0 ht0 n2
  refine ⟨hq.sending.trans hs, t1, ?_, hq.fault, t3 n1, ?_, ?_, ?_⟩
  · unfold Handles
    rw [t2]
    exact hh
  · rw [hq.exchanged]
    simp [Plasmacore.log, exchanged_append, exchanged]
  · rw [hq.called]
    simp [Plasmacore.log, called_append, called]
  · rw [catch_ups_of_quiet hq]
    simp [Plasmacore.log, catch_ups, async_calls_append, async_calls]

theorem nagging_pass_end {env : Env} {ru : Bool → Plasmacore → Plasmacore}
    (hru : Guarded env ru) (t : String) (c : Nat) (n0 j : Nat) (hp : Nagging env t c n0 j)
    (m : PlasmacoreMessage) (x : Plasmacore) (hm : m.type = t) (hs : x.is_sending = true)
    (ht : x.update_timer = true) (hh : Handles x t c) (hf : x.fault = none) (ne nc : Nat)
    (old : List (AsyncTarget × Int)) (he : (exchanged x.trace).length = ne)
    (hc : (called x.trace).length = nc) (ho : catch_ups x.trace = old) :
    (if (dispatch_and_reply ru env m x).fault.isSome then dispatch_and_reply ru env m x
      else { dispatch_and_reply ru env m x with io_buffer := [] }).is_sending = true ∧
    (if (dispatch_and_reply ru env m x).fault.isSome then dispatch_and_reply ru env m x
      else { dispatch_and_reply ru env m x with io_buffer := [] }).update_timer = true ∧
    Handles (if (dispatch_and_reply ru env m x).fault.isSome then dispatch_and_reply ru env m x
      else { dispatch_and_reply ru env m x with io_buffer := [] }) t c ∧
    (if (dispatch_and_reply ru env m x).fault.isSome then dispatch_and_reply ru env m x
      else { dispatch_and_reply ru env m x with io_buffer := [] }).fault = none ∧
    (if (dispatch_and_reply ru env m x).fault.isSome then dispatch_and_reply ru env m x
      else { dispatch_and_reply ru env m x with io_buffer := [] }).update_requested = true ∧
    (exchanged (if (dispatch_and_reply ru env m x).fault.isSome then dispatch_and_reply ru env m x
      else { dispatch_and_reply ru env m x with io_buffer := [] }).trace).length = ne ∧
    (called (if (dispatch_and_reply ru env m x).fault.isSome then dispatch_and_reply ru env m x
      else { dispatch_and_reply ru env m x with io_buffer := [] }).trace).length = nc + 1 ∧
    catch_ups (if (dispatch_and_reply ru env m x).fault.isSome then dispatch_and_reply ru env m x
      else { dispatch_and_reply ru env m x with io_buffer := [] }).trace = old := by
  obtain ⟨d1, d2, d3, d4, d5, d6, d7, d8⟩ := nagging_dispatch hru t c n0 j hp m x hm hs ht hh
  have hfR : (dispatch_and_reply ru env m x).fault = none := d4.trans hf
  rw [if_neg (by simp [hfR])]
  exact ⟨d1, d2, d3, hfR, d5, by rw [← he, ← d6], by rw [← hc, ← d7], by rw [← ho, ← d8]⟩

theorem nagging_iteration {env : Env} {ru : Bool → Plasmacore → Plasmacore}
    (hru : Guarded env ru) (t : String) (c : Nat) (n0 j : Nat) (hp : Nagging env t c n0 j)
    (i : Nat) (v : Plasmacore) (hs : v.is_sending = true) (ht : v.update_timer = true)
    (hh : Handles v t c) (hf : v.fault = none)
    (hlt : (exchanged v.trace).length < n0 + j) :
    (burst_iteration ru env (i + 1) v).is_sending = true ∧
      (burst_iteration ru env (i + 1) v).update_timer = true ∧
      Handles (burst_iteration ru env (i + 1) v) t c ∧
      (burst_iteration ru env (i + 1) v).fault = none ∧
      (burst_iteration ru env (i + 1) v).update_requested = true ∧
      (exchanged (burst_iteration ru env (i + 1) v).trace).length
        = (exchanged v.trace).length + 1 ∧
      (called (burst_iteration ru env (i + 1) v).trace).length
        = (called v.trace).length + 1 ∧
      catch_ups (burst_iteration ru env (i + 1) v).trace = catch_ups v.trace := by
  rw [burst_iteration_eq]
  obtain ⟨p, hio, hlen, hty⟩ := hp.1 v.trace v.pending_message_data hlt
  have hio' : (exchange_step env v).io_buffer = frame p := hio
  rw [hio']
  have hB : frame p = [] ++ (frame p ++ []) := by simp
  have h1 := decode_loop_frame ru env (frame p) [] p [] i (exchange_step env v) hB
    (by rw [frame_length]; omega)
  simp only [List.length_nil, Nat.cast_zero, List.nil_append] at h1
  have hdone : ¬ wrap32 (((frame p).length : Int) + 4) ≤ count (frame p) := by
    rw [count_eq _ (by rw [frame_length]; omega), wrap32_eq _ (by omega)
      (by rw [frame_length]; push_cast; omega)]
    omega
  rw [h1, decode_loop_done _ _ _ _ _ _ _ hdone]
  have g1 : (exchanged (exchange_step env v).trace).length = (exchanged v.trace).length + 1 := by
    simp [exchange_step, exchanged_append, exchanged]
  have g2 : (called (exchange_step env v).trace).length = (called v.trace).length := by
    simp [exchange_step, called_append, called]
  have g3 : catch_ups (exchange_step env v).trace = catch_ups v.trace := by
    simp [exchange_step, catch_ups, async_calls_append, async_calls]
  exact nagging_pass_end hru t c n0 j hp (decode_message env p)
    { exchange_step env v with decode_buffer := p } hty hs ht hh hf
    ((exchanged v.trace).length + 1) (called v.trace).length (catch_ups v.trace) g1 g2 g3

theorem empty_pass_fields (env : Env) (v : Plasmacore) :
    (empty_pass env v).is_sending = v.is_sending ∧
      (empty_pass env v).fault = v.fault ∧
      (empty_pass env v).update_requested = false ∧
      (exchanged (empty_pass env v).trace).length = (exchanged v.trace).length + 1 ∧
      called (empty_pass env v).trace = called v.trace ∧
      catch_ups (empty_pass env v).trace = catch_ups v.trace := by
  refine ⟨rfl, rfl, rfl, ?_, ?_, ?_⟩
  · simp [empty_pass, exchange_step, exchanged_append, exchanged]
  · simp [empty_pass, exchange_step, called_append, called]
  · simp [empty_pass, exchange_step, catch_ups, async_calls_append, async_calls]

/-- The burst loop in the scenario of coalescing, with `n + 1` passes left:
it makes one pass per frame that the runtime still has and one more, up to
the passes that are left, and ends with a continuation requested exactly when
the last pass it was allowed still brought a frame. -/
theorem nagging_burst {env : Env} {ru : Bool → Plasmacore → Plasmacore}
    (hru : Guarded env ru) (t : String) (c : Nat) (n0 j : Nat) (hp : Nagging env t c n0 j)
    (i : Nat) :
    ∀ (n : Nat) (v : Plasmacore), v.is_sending = true → v.update_timer = true →
      Handles v t c → v.fault = none →
      (burst ru env (i + 1) (n + 1) v).is_sending = true ∧
      (burst ru env (i + 1) (n + 1) v).fault = none ∧
      ((burst ru env (i + 1) (n + 1) v).update_requested = true ↔
        (exchanged v.trace).length + (n + 1) ≤ n0 + j) ∧
      (exchanged (burst ru env (i + 1) (n + 1) v).trace).length
        = (exchanged v.trace).length
          + min (n + 1) (n0 + j - (exchanged v.trace).length + 1) ∧
      (called (burst ru env (i + 1) (n + 1) v).trace).length
        = (called v.trace).length + min (n + 1) (n0 + j - (exchanged v.trace).length) ∧
      catch_ups (burst ru env (i + 1) (n + 1) v).trace = catch_ups v.trace := by
  intro n
  induction n with
  | zero =>
    intro v hs ht hh hf
    by_cases hlt : (exchanged v.trace).length < n0 + j
    · obtain ⟨p1, p2, p3, p4, p5, p6, p7, p8⟩ :=
        nagging_iteration hru t c n0 j hp i v hs ht hh hf hlt
      have e : burst ru env (i + 1) (0 + 1) v = burst_iteration ru env (i + 1) v := by
        rw [burst]
        simp only [p4, p5, burst]
        simp
      rw [e]
      refine ⟨p1, p4, ⟨fun _ => by omega, fun _ => p5⟩, ?_, ?_, p8⟩
      · rw [p6]; omega
      · rw [p7]; omega
    · have hr := hp.2.1 v.trace v.pending_message_data (by omega)
      obtain ⟨q1, q2, q3, q4, q5, q6⟩ := empty_pass_fields env v
      have e : burst ru env (i + 1) (0 + 1) v = empty_pass env v := by
        rw [burst, empty_iteration ru env _ v hr hf]
        simp only [q2, hf, q3]
        simp
      rw [e]
      refine ⟨q1.trans hs, q2.trans hf, ⟨fun h => ?_, fun h => by omega⟩, ?_, ?_, q6⟩
      · rw [q3] at h; cases h
      · rw [q4]; omega
      · rw [q5]; omega
  | succ n ih =>
    intro v hs ht hh hf
    by_cases hlt : (exchanged v.trace).length < n0 + j
    · obtain ⟨p1, p2, p3, p4, p5, p6, p7, p8⟩ :=
        nagging_iteration hru t c n0 j hp i v hs ht hh hf hlt
      have e : burst ru env (i + 1) (n + 1 + 1) v
          = burst ru env (i + 1) (n + 1) (burst_iteration ru env (i + 1) v) := by
        rw [burst]
        simp only [p4, p5]
        simp
      rw [e]
      obtain ⟨r1, r2, r3, r4, r5, r6⟩ := ih _ p1 p2 p3 p4
      refine ⟨r1, r2, ?_, ?_, ?_, r6.trans p8⟩
      · rw [r3, p6]; omega
      · rw [r4, p6]; omega
      · rw [r5, p6, p7]; omega
    · have hr := hp.2.1 v.trace v.pending_message_data (by omega)
      obtain ⟨q1, q2, q3, q4, q5, q6⟩ := empty_pass_fields env v
      have e : burst ru env (i + 1) (n + 1 + 1) v = empty_pass env v := by
        rw [burst, empty_iteration ru env _ v hr hf]
        simp only [q2, hf, q3]
        simp
      rw [e]
      refine ⟨q1.trans hs, q2.trans hf, ⟨fun h => ?_, fun h => by omega⟩, ?_, ?_, q6⟩
      · rw [q3] at h; cases h
      · rw [q4]; omega
      · rw [q5]; omega

theorem tick_finish_fields (X : Plasmacore) (hf : X.fault = none) :
    (tick_finish X).fault = none ∧ (tick_finish X).is_sending = false ∧
      exchanged (tick_finish X).trace = exchanged X.trace ∧
      called (tick_finish X).trace = called X.trace ∧
      catch_ups (tick_finish X).trace
        = catch_ups X.trace
          ++ (if X.update_requested then [(AsyncTarget.fast_update, 16)] else []) := by
  cases hr : X.update_requested with
  | true =>
    rw [tick_finish_requested X hf hr]
    refine ⟨hf, rfl, ?_, ?_, ?_⟩
    · show exchanged (X.trace ++ [Event.async_call AsyncTarget.fast_update 16]) = _
      rw [exchanged_append]
      simp [exchanged]
    · show called (X.trace ++ [Event.async_call AsyncTarget.fast_update 16]) = _
      rw [called_append]
      simp [called]
    · show catch_ups (X.trace ++ [Event.async_call AsyncTarget.fast_update 16]) = _
      rw [catch_ups_append]
      simp [catch_ups, async_calls]
  | false =>
    rw [tick_finish_settled X hf hr]
    exact ⟨hf, rfl, rfl, rfl, by simp⟩

theorem tick_finish_nagging (X : Plasmacore) (ne nc : Nat) (old : List (AsyncTarget × Int))
    (P : Prop) [Decidable P]
    (h : X.is_sending = true ∧ X.fault = none ∧ (X.update_requested = true ↔ P) ∧
      (exchanged X.trace).length = ne ∧ (called X.trace).length = nc ∧
      catch_ups X.trace = old) :
    (tick_finish X).fault = none ∧ (tick_finish X).is_sending = false ∧
      (exchanged (tick_finish X).trace).length = ne ∧
      (called (tick_finish X).trace).length = nc ∧
      catch_ups (tick_finish X).trace
        = old ++ (if P then [(AsyncTarget.fast_update, 16)] else []) := by
  obtain ⟨_, h2, h3, h4, h5, h6⟩ := h
  obtain ⟨f1, f2, f3, f4, f5⟩ := tick_finish_fields X h2
  refine ⟨f1, f2, by rw [f3, h4], by rw [f4, h5], ?_⟩
  rw [f5, h6]
  by_cases hP : P
  · rw [if_pos hP, h3.2 hP]; rfl
  · rw [if_neg hP]
    have : X.update_requested = false := by
      cases hr : X.update_requested with
      | true => exact absurd (h3.1 hr) hP
      | false => rfl
    rw [this]
    rfl

/-- The tick in the scenario of coalescing: one pass per frame that the
runtime has and one more, ten at most; one call of the callback per frame;
and one catch-up tick exactly when the tenth pass still brought a frame,
none otherwise, however many ticks the callback started in each pass. -/
theorem nagging_tick (env : Env) (t : String) (c : Nat) (j k : Nat) (r : Bool)
    (v : Plasmacore) (hp : Nagging env t c (exchanged v.trace).length j)
    (hh : Handles v t c) (ht : v.update_timer = true) (hs : v.is_sending = false)
    (hf : v.fault = none) :
    (real_update env (k + 2) r v).fault = none ∧
    (real_update env (k + 2) r v).is_sending = false ∧
    (exchanged (real_update env (k + 2) r v).trace).length
      = (exchanged v.trace).length + min 10 (j + 1) ∧
    (called (real_update env (k + 2) r v).trace).length
      = (called v.trace).length + min 10 j ∧
    catch_ups (real_update env (k + 2) r v).trace
      = catch_ups v.trace ++ (if 10 ≤ j then [(AsyncTarget.fast_update, 16)] else []) := by
  obtain ⟨e1, e2, e3, e4, _, e6, _, e8, e9⟩ := burst_entry_fields env r v
  have hh' : Handles (burst_entry env r v) t c := by
    unfold Handles
    rw [e3]
    exact hh
  have hc : catch_ups (burst_entry env r v).trace = catch_ups v.trace := by
    unfold catch_ups
    rw [e9]
    cases r <;> simp
  have hp' : Nagging env t c (exchanged (burst_entry env r v).trace).length j := by
    rw [e6]; exact hp
  have hb := nagging_burst (real_update_guarded env (k + 1)) t c _ j hp' k 9
    (burst_entry env r v) e1 (e2.trans ht) hh' (e4.trans hf)
  rw [e6, e8, hc] at hb
  rw [real_update_burst _ _ _ _ ht hs]
  have key := tick_finish_nagging _ _ _ _ (10 ≤ j) ⟨hb.1, hb.2.1, ?_, hb.2.2.2.1, hb.2.2.2.2.1,
    hb.2.2.2.2.2⟩
  · obtain ⟨k1, k2, k3, k4, k5⟩ := key
    refine ⟨k1, k2, ?_, ?_, k5⟩
    · rw [k3]; omega
    · rw [k4]; omega
  · rw [hb.2.2.1]
    omega

theorem nagging_env_nags (j : Nat) :
    Nagging (nagging_env j) "t" 0 (exchanged echo_bus.trace).length j := by
  refine ⟨?_, ?_, ?_⟩
  · intro tr out h
    refine ⟨[], ?_, by decide, rfl⟩
    have h' : (exchanged tr).length < j := by
      have : (exchanged echo_bus.trace).length = 0 := rfl
      omega
    simp [nagging_env, h']
    rfl
  · intro tr out h
    have h' : ¬ (exchanged tr).length < j := by
      have : (exchanged echo_bus.trace).length = 0 := rfl
      omega
    simp [nagging_env, h']
  · intro tr m
    refine ⟨by simp [nagging_env], ?_, ?_⟩
    · intro a ha
      simp [nagging_env] at ha
      rcases ha with h | h | h <;> subst h <;> rfl
    · intro r hr
      simp [nagging_env] at hr

/-- A message that is not a reply to the id `X` leaves the reply entry of `X`
pending: `dispatch` keeps the entry, and the one callback call it may make is
the call of the handler of its type or of the reply entry of its own id. -/
theorem dispatch_other_keeps_entry {env : Env} {ru : Bool → Plasmacore → Plasmacore}
    (hru : Guarded env ru) (X : Int) (m : PlasmacoreMessage) (v : Plasmacore)
    (hs : v.is_sending = true) (hw : RouterInstalled v) (hres : RouterReserved v)
    (hother : m.type ≠ "" ∨ m.message_id ≠ X)
    (hkeep : ∀ c tr, ∀ a ∈ (env.callback c tr m).actions, a.keeps X) :
    Table.find (dispatch ru env m v).1.reply_handlers X = Table.find v.reply_handlers X ∧
    RouterInstalled (dispatch ru env m v).1 ∧
    (∃ cs, called (dispatch ru env m v).1.trace = called v.trace ++ cs ∧ cs.length ≤ 1 ∧
      ∀ c m', (c, m') ∈ cs → m' = m ∧ OtherCall X v m c) := by
  have hlogc : called (v.log (Event.dispatch m)).trace = called v.trace := by
    simp [Plasmacore.log, called_append, called]
  unfold dispatch
  simp only []
  have hh : (v.log (Event.dispatch m)).handlers = v.handlers := rfl
  rw [hh]
  cases hf : Table.find v.handlers m.type with
  | none =>
    simp only []
    exact ⟨rfl, hw, [], by rw [hlogc]; simp, by simp, by simp⟩
  | some h =>
    simp only []
    cases hc : h.callback with
    | user c =>
      simp only [invoke]
      have hk := call_user_kept hru X c m (v.log (Event.dispatch m)) hs (hkeep c _)
      have hq := call_user_quiet hru c m (v.log (Event.dispatch m)) hs
      have hty : m.type ≠ "" := by
        intro e
        unfold RouterInstalled at hw
        rw [e] at hf
        rw [hf] at hw
        simp [hc] at hw
      refine ⟨hk.1, hk.2 hw, [(c, m)], by rw [hq.called, hlogc], by simp, ?_⟩
      intro c' m' hmem
      simp at hmem
      obtain ⟨e1, e2⟩ := hmem
      subst e1 e2
      exact ⟨rfl, Or.inl ⟨hty, h, hf, hc⟩⟩
    | reply_router =>
      have hty : m.type = "" := hres _ _ hf hc
      have hid : m.message_id ≠ X := by
        rcases hother with h1 | h1
        · exact absurd hty h1
        · exact h1
      simp only [invoke]
      have hr : (v.log (Event.dispatch m)).reply_handlers = v.reply_handlers := rfl
      rw [hr]
      cases hf2 : Table.find v.reply_handlers m.message_id with
      | none =>
        simp only []
        exact ⟨rfl, hw, [], by rw [hlogc]; simp, by simp, by simp⟩
      | some h2 =>
        simp only []
        cases hc2 : h2.callback with
        | reply_router =>
          simp only [delete_handler]
          refine ⟨Table.find_remove_other _ _ _ (Ne.symm hid), hw, [],
            by rw [hlogc]; simp, by simp, by simp⟩
        | user c2 =>
          simp only []
          have hv : ∃ x : Plasmacore, x = { v.log (Event.dispatch m) with
              reply_handlers := Table.remove v.reply_handlers m.message_id } := ⟨_, rfl⟩
          obtain ⟨x, hx⟩ := hv
          rw [← hx]
          have hxs : x.is_sending = true := by rw [hx]; exact hs
          have hxc : called x.trace = called v.trace := by rw [hx]; exact hlogc
          have hxr : RouterInstalled x := by rw [hx]; exact hw
          have hxf : Table.find x.reply_handlers X = Table.find v.reply_handlers X := by
            rw [hx]; exact Table.find_remove_other _ _ _ (Ne.symm hid)
          have hk := call_user_kept hru X c2 m x hxs (hkeep c2 _)
          have hq := call_user_quiet hru c2 m x hxs
          refine ⟨?_, ?_, [(c2, m)], ?_, by simp, ?_⟩
          · simp only [delete_handler]
            exact hk.1.trans hxf
          · exact hk.2 hxr
          · simp only [delete_handler]
            rw [hq.called, hxc]
          · intro c' m' hmem
            simp at hmem
            obtain ⟨e1, e2⟩ := hmem
            subst e1 e2
            exact ⟨rfl, Or.inr ⟨hty, hid, h2, hf2, hc2⟩⟩

theorem reserved_of_handlers {w w' : Plasmacore} (h : w'.handlers = w.handlers)
    (hr : RouterReserved w) : RouterReserved w' := by
  unfold RouterReserved
  rw [h]
  exact hr

theorem set_message_handler_reserved (t : String) (c : Callback) (w : Plasmacore)
    (hc : c = Callback.reply_router → t = "") (hr : RouterReserved w) :
    RouterReserved (set_message_handler t c w) := by
  intro t' h hf hcb
  by_cases e : t' = t
  · subst e
    have : Table.find (set_message_handler t' c w).handlers t'
        = some { addr := w.next_addr, type := t', callback := c } := by
      simp [set_message_handler, new_handler, Table.find_set_self]
    rw [this] at hf
    simp only [Option.some.injEq] at hf
    subst hf
    exact hc hcb
  · have : Table.find (set_message_handler t c w).handlers t' = Table.find w.handlers t' := by
      simp [set_message_handler, new_handler, Table.find_set_other _ _ _ _ e]
    rw [this] at hf
    exact hr t' h hf hcb

theorem remove_message_handler_reserved (t : String) (w : Plasmacore)
    (hr : RouterReserved w) : RouterReserved (remove_message_handler t w) := by
  intro t' h hf hcb
  unfold remove_message_handler at hf
  cases hfind : Table.find w.handlers t with
  | none =>
    rw [hfind] at hf
    exact hr t' h hf hcb
  | some h0 =>
    rw [hfind] at hf
    simp only [delete_handler] at hf
    by_cases e : t' = t
    · subst e
      rw [Table.find_remove_self] at hf
      cases hf
    · rw [Table.find_remove_other _ _ _ e] at hf
      exact hr t' h hf hcb

theorem configure_reserved (w : Plasmacore) (hr : RouterReserved w) :
    RouterReserved (configure w) := by
  unfold configure
  split
  · exact hr
  · simp only []
    refine reserved_of_handlers (w := set_message_handler "" Callback.reply_router
      { w with is_configured := true }) rfl ?_
    exact set_message_handler_reserved "" Callback.reply_router _ (fun _ => rfl)
      (reserved_of_handlers (w := w) rfl hr)

theorem post_handlers {env : Env} {ru : Bool → Plasmacore → Plasmacore} (hru : Guarded env ru)
    (m : PlasmacoreMessage) (w : Plasmacore) (h : w.is_sending = true) :
    (post ru m w).handlers = w.handlers := by
  unfold post
  simp only []
  rw [hru _ _ (by simpa using h)]
  exact (nested_tick_tables _ _ _).2

theorem launch_reserved {env : Env} {ru : Bool → Plasmacore → Plasmacore} (hru : Guarded env ru)
    (w : Plasmacore) (h : w.is_sending = true) (hr : RouterReserved w) :
    RouterReserved (launch ru env w) := by
  unfold launch
  split
  · exact hr
  · simp only []
    exact reserved_of_handlers (w := w) (post_handlers hru _ _ (by exact h)) hr

theorem start_reserved {env : Env} {ru : Bool → Plasmacore → Plasmacore} (hru : Guarded env ru)
    (w : Plasmacore) (h : w.is_sending = true) (hr : RouterReserved w) :
    RouterReserved (start ru env w) := by
  unfold start
  have h1 : Quiet [] [] w (if !w.is_launched then launch ru env (configure w) else w) := by
    split
    · exact Quiet.trans_nil (configure_quiet w)
        (launch_quiet hru _ (by rw [(configure_quiet w).sending]; exact h))
    · exact Quiet.refl w
  have h2 : RouterReserved (if !w.is_launched then launch ru env (configure w) else w) := by
    split
    · exact launch_reserved hru _ (by rw [(configure_quiet w).sending]; exact h)
        (configure_reserved w hr)
    · exact hr
  simp only []
  rw [hru _ _ (by simp only []; rw [h1.sending]; exact h)]
  exact reserved_of_handlers ((nested_tick_tables _ _ _).2) (reserved_of_handlers rfl h2)

theorem run_action_reserved {env : Env} {ru : Bool → Plasmacore → Plasmacore}
    (hru : Guarded env ru) (a : Action) (w : Plasmacore) (h : w.is_sending = true)
    (hr : RouterReserved w) : RouterReserved (run_action ru env a w) := by
  cases a with
  | set_message_handler t c =>
    exact set_message_handler_reserved t (Callback.user c) w (fun e => by cases e) hr
  | remove_message_handler t => exact remove_message_handler_reserved t w hr
  | post m => exact reserved_of_handlers (post_handlers hru m w h) hr
  | post_rsvp m c =>
    simp only [run_action, post_rsvp, new_handler]
    exact reserved_of_handlers (w := w) (post_handlers hru _ _ (by exact h)) hr
  | setIdleUpdateFrequency f =>
    simp only [run_action, setIdleUpdateFrequency]
    split
    · exact start_reserved hru _ (by exact h) (reserved_of_handlers (w := w) rfl hr)
    · exact reserved_of_handlers (w := w) rfl hr
  | start => exact start_reserved hru w h hr
  | stop => exact reserved_of_handlers (w := w) rfl hr
  | update =>
    simp only [run_action, update]
    rw [hru _ _ h]
    exact reserved_of_handlers ((nested_tick_tables _ _ _).2) hr
  | fast_update =>
    simp only [run_action, fast_update]
    rw [hru _ _ h]
    exact reserved_of_handlers ((nested_tick_tables _ _ _).2) hr

theorem run_actions_reserved {env : Env} {ru : Bool → Plasmacore → Plasmacore}
    (hru : Guarded env ru) (as : List Action) :
    ∀ (w : Plasmacore), w.is_sending = true → RouterReserved w →
      RouterReserved (run_actions ru env as w) := by
  induction as with
  | nil => intro w _ hr; exact hr
  | cons a as ih =>
    intro w h hr
    exact ih _ (by rw [(run_action_quiet hru a w h).sending]; exact h)
      (run_action_reserved hru a w h hr)

theorem call_user_reserved {env : Env} {ru : Bool → Plasmacore → Plasmacore}
    (hru : Guarded env ru) (id : Nat) (m : PlasmacoreMessage) (w : Plasmacore)
    (h : w.is_sending = true) (hr : RouterReserved w) :
    RouterReserved (call_user ru env id m w).1 := by
  unfold call_user
  simp only []
  exact run_actions_reserved hru _ _ (by exact h) (reserved_of_handlers (w := w) rfl hr)

theorem dispatch_reserved {env : Env} {ru : Bool → Plasmacore → Plasmacore}
    (hru : Guarded env ru) (m : PlasmacoreMessage) (w : Plasmacore)
    (h : w.is_sending = true) (hr : RouterReserved w) :
    RouterReserved (dispatch ru env m w).1 := by
  unfold dispatch
  simp only []
  have h0 : RouterReserved (w.log (Event.dispatch m)) := reserved_of_handlers (w := w) rfl hr
  split
  · rename_i entry _
    cases hc : entry.callback with
    | user c =>
      simp only [invoke]
      exact call_user_reserved hru c m _ (by exact h) h0
    | reply_router =>
      simp only [invoke]
      split
      · rename_i handler _
        simp only []
        cases hc2 : handler.callback with
        | user c2 =>
          simp only [delete_handler]
          exact reserved_of_handlers rfl
            (call_user_reserved hru c2 m _ (by exact h) (reserved_of_handlers (w := w) rfl hr))
        | reply_router => exact reserved_of_handlers (w := w) rfl hr
      · exact h0
  · exact h0

theorem dispatch_all_keeps_entry {env : Env} {ru : Bool → Plasmacore → Plasmacore}
    (hru : Guarded env ru) (X : Int) (ms : List PlasmacoreMessage) :
    ∀ (v : Plasmacore), v.is_sending = true → RouterInstalled v → RouterReserved v →
      (∀ m ∈ ms, (m.type ≠ "" ∨ m.message_id ≠ X) ∧
        ∀ c tr, ∀ a ∈ (env.callback c tr m).actions, a.keeps X) →
      (dispatch_all ru env ms v).is_sending = true ∧
        RouterInstalled (dispatch_all ru env ms v) ∧
        RouterReserved (dispatch_all ru env ms v) ∧
        Table.find (dispatch_all ru env ms v).reply_handlers X
          = Table.find v.reply_handlers X := by
  induction ms with
  | nil => intro v hs hw hr _; exact ⟨hs, hw, hr, rfl⟩
  | cons m ms ih =>
    intro v hs hw hr hms
    obtain ⟨ho, hk⟩ := hms m (List.mem_cons_self _ _)
    obtain ⟨d1, d2, _⟩ := dispatch_other_keeps_entry hru X m v hs hw hr ho hk
    obtain ⟨cs, _, hq⟩ := dispatch_quiet hru m v hs
    have d3 := dispatch_reserved hru m v hs hr
    obtain ⟨i1, i2, i3, i4⟩ := ih (dispatch ru env m v).1 (hq.sending.trans hs) d2 d3
      (fun x hx => hms x (List.mem_cons_of_mem _ hx))
    exact ⟨i1, i2, i3, i4.trans d1⟩

theorem awaiting_bus_reserved : RouterReserved awaiting_bus := by
  have h0 : RouterReserved sending_bus := by
    intro t h hf _
    simp [sending_bus, Plasmacore.singleton, Table.find] at hf
  have h1 := configure_reserved sending_bus h0
  have hs : (configure sending_bus).is_sending = true :=
    (configure_quiet sending_bus).sending.trans rfl
  exact run_action_reserved (real_update_guarded sample_env 1)
    (Action.post_rsvp { type := "q", message_id := 5, data := [1], reply := none } 3)
    (configure sending_bus) hs h1

theorem settle_settle (o : Outbound) : o.settle.settle = o.settle := by
  unfold Outbound.settle
  cases h : o.awaiting <;> simp [h]

theorem settle_fields (o : Outbound) :
    o.settle.seen = o.seen ∧ o.settle.awaiting = none ∧ o.settle.handed = o.handed := by
  unfold Outbound.settle
  cases h : o.awaiting <;> simp [h]

theorem settle_of_none (o : Outbound) (h : o.awaiting = none) : o.settle = o := by
  unfold Outbound.settle
  simp [h]

theorem step_settle (env : Env) (o : Outbound) (e : Event)
    (he : ∀ id m, e ≠ Event.callback id m) :
    Outbound.step env o.settle e = Outbound.step env o e := by
  cases e with
  | callback id m => exact absurd rfl (he id m)
  | dispatch m => simp [Outbound.step, settle_settle, (settle_fields o).1]
  | post_messages s r => simp [Outbound.step, settle_settle, (settle_fields o).1]
  | skipped => simp [Outbound.step, settle_settle, (settle_fields o).1]
  | async_call cb ms => simp [Outbound.step, settle_settle, (settle_fields o).1]
  | rogue_configure => simp [Outbound.step, settle_settle, (settle_fields o).1]
  | rogue_launch => simp [Outbound.step, settle_settle, (settle_fields o).1]

/-- Events added to a run are read from the settled state, when they do not
begin with a callback call. -/
theorem replay_append (env : Env) (w : Plasmacore) (S D : List Event)
    (hD : ∀ id m rest, D ≠ Event.callback id m :: rest) :
    outbound_replay env w (S ++ D)
      = (D.foldl (Outbound.step env) (outbound_replay env w S)).settle := by
  unfold outbound_replay
  rw [List.foldl_append]
  generalize S.foldl (Outbound.step env) _ = o
  cases D with
  | nil => simp [settle_settle]
  | cons e D' =>
    simp only [List.foldl_cons]
    rw [step_settle env o e (fun id m h => hD id m D' (by rw [h]))]

theorem replay_nil (env : Env) (w : Plasmacore) :
    outbound_replay env w []
      = { seen := w.trace, awaiting := none, handed := [], enqueued := [],
          buffer := w.pending_message_data } := rfl

theorem fold_seen (env : Env) (S : List Event) :
    ∀ o : Outbound, (S.foldl (Outbound.step env) o).seen = o.seen ++ S := by
  induction S with
  | nil => intro o; simp
  | cons e S ih =>
    intro o
    rw [List.foldl_cons, ih]
    have : (Outbound.step env o e).seen = o.seen ++ [e] := by
      cases e with
      | callback id m =>
        unfold Outbound.step
        cases h : o.awaiting <;> simp [h]
      | dispatch m => simp [Outbound.step]
      | post_messages s r => simp [Outbound.step]
      | skipped => simp [Outbound.step]
      | async_call cb ms => simp [Outbound.step]
      | rogue_configure => simp [Outbound.step]
      | rogue_launch => simp [Outbound.step]
    rw [this]
    simp

theorem replay_seen (env : Env) (w : Plasmacore) (S : List Event) :
    (outbound_replay env w S).seen = w.trace ++ S := by
  unfold outbound_replay
  rw [(settle_fields _).1, fold_seen]

theorem replay_awaiting (env : Env) (w : Plasmacore) (S : List Event) :
    (outbound_replay env w S).awaiting = none := by
  unfold outbound_replay
  exact (settle_fields _).2.1

theorem fold_plain (env : Env) (E : List Event) (hE : ∀ e ∈ E, e.plain = true) :
    ∀ (s : List Event) (h q : List (List Byte)) (b : List Byte),
      E.foldl (Outbound.step env) ⟨s, none, h, q, b⟩ = ⟨s ++ E, none, h, q, b⟩ := by
  induction E with
  | nil => intro s h q b; simp
  | cons e E ih =>
    intro s h q b
    have h1 : Outbound.step env ⟨s, none, h, q, b⟩ e = ⟨s ++ [e], none, h, q, b⟩ := by
      have hp := hE e (List.mem_cons_self _ _)
      cases e with
      | callback id m => simp [Event.plain] at hp
      | dispatch m => simp [Event.plain] at hp
      | post_messages s r => simp [Event.plain] at hp
      | skipped => simp [Outbound.step, Outbound.settle]
      | async_call cb ms => simp [Outbound.step, Outbound.settle]
      | rogue_configure => simp [Outbound.step, Outbound.settle]
      | rogue_launch => simp [Outbound.step, Outbound.settle]
    rw [List.foldl_cons, h1, ih (fun x hx => hE x (List.mem_cons_of_mem _ hx))]
    simp

theorem exchanged_plain (E : List Event) (hE : ∀ e ∈ E, e.plain = true) : exchanged E = [] := by
  induction E with
  | nil => rfl
  | cons e E ih =>
    have hp := hE e (List.mem_cons_self _ _)
    have := ih (fun x hx => hE x (List.mem_cons_of_mem _ hx))
    cases e <;> simp [Event.plain] at hp <;> simp [exchanged, this]

theorem plain_not_callback (E : List Event) (hE : ∀ e ∈ E, e.plain = true) :
    ∀ id m rest, E ≠ Event.callback id m :: rest := by
  intro id m rest h
  have := hE (Event.callback id m) (by rw [h]; exact List.mem_cons_self _ _)
  simp [Event.plain] at this

theorem replayed_refl (env : Env) (w : Plasmacore) : Replayed env w w :=
  ⟨[], by simp, rfl, rfl⟩

theorem replayed_plain {env : Env} {w v v' : Plasmacore} (h : Replayed env w v)
    (E : List Event) (hE : ∀ e ∈ E, e.plain = true) (ht : v'.trace = v.trace ++ E)
    (hp : v'.pending_message_data = v.pending_message_data) : Replayed env w v' := by
  obtain ⟨S, e1, e2, e3⟩ := h
  have ha := replay_awaiting env w S
  have hr := replay_append env w S E (plain_not_callback E hE)
  generalize outbound_replay env w S = o at e2 e3 ha hr
  obtain ⟨s, a, hd, q, b⟩ := o
  simp only at ha e2 e3
  subst ha
  rw [fold_plain env E hE] at hr
  refine ⟨S ++ E, by rw [ht, e1, List.append_assoc], ?_, ?_⟩
  · rw [hr, exchanged_append, exchanged_plain E hE, List.append_nil]
    exact e2
  · rw [hr, hp]
    exact e3

theorem replayed_of_same {env : Env} {w v v' : Plasmacore} (h : Replayed env w v)
    (ht : v'.trace = v.trace) (hp : v'.pending_message_data = v.pending_message_data) :
    Replayed env w v' :=
  replayed_plain h [] (by simp) (by simpa using ht) hp

theorem replayed_exchange (env : Env) {w v : Plasmacore} (h : Replayed env w v) :
    Replayed env w (exchange_step env v) := by
  obtain ⟨S, e1, e2, e3⟩ := h
  have ha := replay_awaiting env w S
  have hr := replay_append env w S [Event.post_messages v.pending_message_data
    (env.post_messages v.trace v.pending_message_data)] (by intro id m rest h; cases h)
  generalize outbound_replay env w S = o at e2 e3 ha hr
  obtain ⟨s, a, hd, q, b⟩ := o
  simp only at ha e2 e3
  subst ha
  simp only [List.foldl_cons, List.foldl_nil, Outbound.step, Outbound.settle] at hr
  refine ⟨S ++ [Event.post_messages v.pending_message_data
    (env.post_messages v.trace v.pending_message_data)], ?_, ?_, ?_⟩
  · simp [exchange_step, e1]
  · rw [hr, exchanged_append]
    simp [exchanged, e2, e3]
  · rw [hr]
    rfl

theorem replayed_unhandled {env : Env} {w v v' : Plasmacore} (h : Replayed env w v)
    (m : PlasmacoreMessage) (ht : v'.trace = v.trace ++ [Event.dispatch m])
    (hp : v'.pending_message_data
      = v.pending_message_data ++ frames (auto_reply_payloads m.reply)) :
    Replayed env w v' := by
  obtain ⟨S, e1, e2, e3⟩ := h
  have ha := replay_awaiting env w S
  have hr := replay_append env w S [Event.dispatch m] (by intro id m rest h; cases h)
  generalize outbound_replay env w S = o at e2 e3 ha hr
  obtain ⟨s, a, hd, q, b⟩ := o
  simp only at ha e2 e3
  subst ha
  simp only [List.foldl_cons, List.foldl_nil, Outbound.step, Outbound.settle] at hr
  refine ⟨S ++ [Event.dispatch m], by rw [ht, e1, List.append_assoc], ?_, ?_⟩
  · rw [hr, exchanged_append]
    simp [exchanged, e2]
  · rw [hr, hp]
    simp [e3]

theorem replayed_handled {env : Env} {w v v' : Plasmacore} (h : Replayed env w v)
    (m m' : PlasmacoreMessage) (id : Nat) (E : List Event) (hE : ∀ e ∈ E, e.plain = true)
    (ht : v'.trace = v.trace ++ Event.dispatch m :: Event.callback id m' :: E)
    (hp : v'.pending_message_data
      = v.pending_message_data
        ++ frames (posts_of (env.callback id (v.trace ++ [Event.dispatch m]) m').actions
            ++ auto_reply_payloads
              (env.callback id (v.trace ++ [Event.dispatch m]) m').reply)) :
    Replayed env w v' := by
  obtain ⟨S, e1, e2, e3⟩ := h
  have ha := replay_awaiting env w S
  have hseen : (outbound_replay env w S).seen = v.trace := by rw [replay_seen, e1]
  have hr := replay_append env w S (Event.dispatch m :: Event.callback id m' :: E)
    (by intro id m rest h; cases h)
  generalize outbound_replay env w S = o at e2 e3 ha hr hseen
  obtain ⟨s, a, hd, q, b⟩ := o
  simp only at ha e2 e3 hseen
  subst ha
  subst hseen
  simp only [List.foldl_cons, Outbound.step, Outbound.settle] at hr
  rw [fold_plain env E hE] at hr
  simp only [Outbound.settle] at hr
  refine ⟨S ++ Event.dispatch m :: Event.callback id m' :: E,
    by rw [ht, e1, List.append_assoc], ?_, ?_⟩
  · rw [hr, exchanged_append]
    simp [exchanged, exchanged_plain E hE, e2]
  · rw [hr, hp]
    simp [e3]

theorem settle_conserves (start : List Byte) (o : Outbound) (h : o.conserves start) :
    o.settle.conserves start := by
  unfold Outbound.settle
  cases ha : o.awaiting with
  | none => simpa [ha] using h
  | some m =>
    unfold Outbound.conserves at h ⊢
    simp only []
    rw [← List.append_assoc, h, frames_append, List.append_assoc]

theorem step_conserves (env : Env) (start : List Byte) (o : Outbound) (e : Event)
    (h : o.conserves start) : (Outbound.step env o e).conserves start := by
  have hs := settle_conserves start o h
  cases e with
  | callback id m =>
    unfold Outbound.step
    cases ha : o.awaiting with
    | none => simpa [ha] using h
    | some m0 =>
      unfold Outbound.conserves at h ⊢
      simp only []
      rw [← List.append_assoc, h, frames_append (o.enqueued), List.append_assoc]
  | dispatch m => exact hs
  | post_messages s r =>
    unfold Outbound.conserves at hs ⊢
    simp only [Outbound.step]
    rw [← hs]
    simp
  | skipped => exact hs
  | async_call cb ms => exact hs
  | rogue_configure => exact hs
  | rogue_launch => exact hs

theorem fold_conserves (env : Env) (start : List Byte) (S : List Event) :
    ∀ o : Outbound, o.conserves start →
      (S.foldl (Outbound.step env) o).conserves start := by
  induction S with
  | nil => intro o h; exact h
  | cons e S ih => intro o h; exact ih _ (step_conserves env start o e h)

theorem replay_conserves (env : Env) (w : Plasmacore) (S : List Event) :
    (outbound_replay env w S).handed.flatten ++ (outbound_replay env w S).buffer
      = w.pending_message_data ++ frames (outbound_replay env w S).enqueued :=
  settle_conserves _ _ (fold_conserves env _ S _ (by simp [Outbound.conserves, frames]))

theorem posts_of_append (a b : List Action) : posts_of (a ++ b) = posts_of a ++ posts_of b := by
  induction a with
  | nil => rfl
  | cons x a ih => cases x <;> simp [posts_of, ih]

theorem nested_tick_plain (env : Env) (r : Bool) (x : Plasmacore) :
    (nested_tick env r x).is_launched = x.is_launched ∧
      (∃ E, (nested_tick env r x).trace = x.trace ++ E ∧ ∀ e ∈ E, e.plain = true) ∧
      (nested_tick env r x).pending_message_data = x.pending_message_data := by
  unfold nested_tick
  split
  · exact ⟨rfl, ⟨[], by simp, by simp⟩, rfl⟩
  · cases r
    · exact ⟨rfl, ⟨[], by simp, by simp⟩, rfl⟩
    · refine ⟨rfl, ⟨[Event.async_call AsyncTarget.update (env.idle_millis x.idleUpdateFrequency)],
        rfl, ?_⟩, rfl⟩
      intro e he
      simp at he
      subst he
      rfl

/-- A call of a callback on a launched bus in its burst: it only adds plain
events to the trace, and it appends to the outbound buffer exactly the frame
of the message it posts, if it posts one. -/
theorem run_action_exact {env : Env} {ru : Bool → Plasmacore → Plasmacore}
    (hru : Guarded env ru) (a : Action) (w : Plasmacore) (h : w.is_sending = true)
    (hl : w.is_launched = true) :
    (run_action ru env a w).is_launched = true ∧
      (∃ E, (run_action ru env a w).trace = w.trace ++ E ∧ ∀ e ∈ E, e.plain = true) ∧
      (run_action ru env a w).pending_message_data
        = w.pending_message_data ++ frames (posts_of [a]) := by
  have hn := nested_tick_plain env
  cases a with
  | set_message_handler t c =>
    exact ⟨hl, ⟨[], by simp [run_action, set_message_handler, new_handler], by simp⟩,
      by simp [run_action, set_message_handler, new_handler, posts_of, frames]⟩
  | remove_message_handler t =>
    simp only [run_action, posts_of, frames, List.append_nil]
    unfold remove_message_handler
    split
    · exact ⟨hl, ⟨[], by simp [delete_handler], by simp⟩, rfl⟩
    · exact ⟨hl, ⟨[], by simp, by simp⟩, rfl⟩
  | post m =>
    simp only [run_action, posts_of, frames, List.append_nil]
    unfold post
    simp only []
    rw [hru _ _ (by exact h)]
    refine ⟨(hn false _).1.trans hl, (hn false _).2.1, ?_⟩
    rw [(hn false _).2.2]
    simp [frame]
  | post_rsvp m c =>
    simp only [run_action, posts_of, frames, List.append_nil]
    unfold post_rsvp new_handler post
    simp only []
    rw [hru _ _ (by exact h)]
    refine ⟨(hn false _).1.trans hl, (hn false _).2.1, ?_⟩
    rw [(hn false _).2.2]
    simp [frame]
  | setIdleUpdateFrequency f =>
    simp only [run_action, posts_of, frames, List.append_nil]
    unfold setIdleUpdateFrequency
    simp only []
    split
    · unfold start stop
      simp only [hl, Bool.not_true, Bool.false_eq_true, if_false]
      rw [hru _ _ (by exact h)]
      exact ⟨(hn true _).1.trans rfl, (hn true _).2.1, (hn true _).2.2⟩
    · exact ⟨hl, ⟨[], by simp, by simp⟩, rfl⟩
  | start =>
    simp only [run_action, posts_of, frames, List.append_nil]
    unfold start
    simp only [hl, Bool.not_true, Bool.false_eq_true, if_false]
    rw [hru _ _ (by exact h)]
    exact ⟨(hn true _).1.trans rfl, (hn true _).2.1, (hn true _).2.2⟩
  | stop =>
    exact ⟨hl, ⟨[], by simp [run_action, stop], by simp⟩,
      by simp [run_action, stop, posts_of, frames]⟩
  | update =>
    simp only [run_action, posts_of, frames, List.append_nil, update]
    rw [hru _ _ h]
    exact ⟨(hn true w).1.trans hl, (hn true w).2.1, (hn true w).2.2⟩
  | fast_update =>
    simp only [run_action, posts_of, frames, List.append_nil, fast_update]
    rw [hru _ _ h]
    exact ⟨(hn false w).1.trans hl, (hn false w).2.1, (hn false w).2.2⟩

theorem run_actions_exact {env : Env} {ru : Bool → Plasmacore → Plasmacore}
    (hru : Guarded env ru) (as : List Action) :
    ∀ (w : Plasmacore), w.is_sending = true → w.is_launched = true →
      (run_actions ru env as w).is_sending = true ∧
      (run_actions ru env as w).is_launched = true ∧
      (∃ E, (run_actions ru env as w).trace = w.trace ++ E ∧ ∀ e ∈ E, e.plain = true) ∧
      (run_actions ru env as w).pending_message_data
        = w.pending_message_data ++ frames (posts_of as) := by
  induction as with
  | nil => intro w h hl; exact ⟨h, hl, ⟨[], by simp [run_actions], by simp⟩,
      by simp [run_actions, posts_of, frames]⟩
  | cons a as ih =>
    intro w h hl
    obtain ⟨a1, ⟨E1, a2, a3⟩, a4⟩ := run_action_exact hru a w h hl
    have hs1 : (run_action ru env a w).is_sending = true := by
      rw [(run_action_quiet hru a w h).sending]; exact h
    obtain ⟨b0, b1, ⟨E2, b2, b3⟩, b4⟩ := ih (run_action ru env a w) hs1 a1
    have e : run_actions ru env (a :: as) w = run_actions ru env as (run_action ru env a w) := rfl
    rw [e]
    refine ⟨b0, b1, ⟨E1 ++ E2, by rw [b2, a2, List.append_assoc], ?_⟩, ?_⟩
    · intro x hx
      rcases List.mem_append.1 hx with hx | hx
      · exact a3 x hx
      · exact b3 x hx
    · rw [b4, a4, List.append_assoc, ← frames_append]
      have : posts_of (a :: as) = posts_of [a] ++ posts_of as := posts_of_append [a] as
      rw [this]

theorem dispatch_and_reply_eq (ru : Bool → Plasmacore → Plasmacore) (env : Env)
    (m : PlasmacoreMessage) (v : Plasmacore) :
    dispatch_and_reply ru env m v = auto_reply ru (dispatch ru env m v) := rfl

theorem auto_reply_exact {env : Env} {ru : Bool → Plasmacore → Plasmacore}
    (hru : Guarded env ru) (x : Plasmacore) (mm : PlasmacoreMessage)
    (hs : x.is_sending = true) :
    (auto_reply ru (x, mm)).trace = x.trace ∧
      (auto_reply ru (x, mm)).pending_message_data
        = x.pending_message_data ++ frames (auto_reply_payloads mm.reply) ∧
      (auto_reply ru (x, mm)).is_sending = true ∧
      (auto_reply ru (x, mm)).is_launched = x.is_launched := by
  unfold auto_reply
  simp only []
  cases hr : mm.reply with
  | none => simp [auto_reply_payloads, frames, hs]
  | some r =>
    cases hsent : r.sent with
    | true => simp [auto_reply_payloads, frames, hs, hsent]
    | false =>
      simp only [Bool.not_false, if_true, auto_reply_payloads, hsent, Bool.false_eq_true,
        if_false]
      unfold post_reply post
      simp only []
      rw [hru _ _ (by exact hs)]
      simp [nested_tick, hs, frames, frame]
      split <;> simp [hs]

theorem call_user_exact {env : Env} {ru : Bool → Plasmacore → Plasmacore}
    (hru : Guarded env ru) (c : Nat) (m : PlasmacoreMessage) (x : Plasmacore)
    (hs : x.is_sending = true) (hl : x.is_launched = true) :
    (call_user ru env c m x).1.is_sending = true ∧
      (call_user ru env c m x).1.is_launched = true ∧
      (∃ E, (call_user ru env c m x).1.trace = x.trace ++ Event.callback c m :: E ∧
        ∀ e ∈ E, e.plain = true) ∧
      (call_user ru env c m x).1.pending_message_data
        = x.pending_message_data ++ frames (posts_of (env.callback c x.trace m).actions) ∧
      (call_user ru env c m x).2.reply = (env.callback c x.trace m).reply := by
  unfold call_user
  simp only []
  obtain ⟨a0, a1, ⟨E, a2, a3⟩, a4⟩ := run_actions_exact hru (env.callback c x.trace m).actions
    (x.log (Event.callback c m)) hs hl
  refine ⟨a0, a1, ⟨E, ?_, a3⟩, a4, trivial⟩
  rw [a2]
  simp [Plasmacore.log]

/-- Inside a burst on a launched bus, the processing of one decoded message
keeps the outbound side as the trace tells it. -/
theorem dispatch_and_reply_replayed {env : Env} {ru : Bool → Plasmacore → Plasmacore}
    (hru : Guarded env ru) (w0 : Plasmacore) (m : PlasmacoreMessage) (v : Plasmacore)
    (hs : v.is_sending = true) (hl : v.is_launched = true) (h : Replayed env w0 v) :
    (dispatch_and_reply ru env m v).is_sending = true ∧
      (dispatch_and_reply ru env m v).is_launched = true ∧
      Replayed env w0 (dispatch_and_reply ru env m v) := by
  have unhandled : ∀ x : Plasmacore, x.trace = v.trace ++ [Event.dispatch m] →
      x.pending_message_data = v.pending_message_data → x.is_sending = true →
      x.is_launched = true →
      (auto_reply ru (x, m)).is_sending = true ∧ (auto_reply ru (x, m)).is_launched = true ∧
        Replayed env w0 (auto_reply ru (x, m)) := by
    intro x ht hp hxs hxl
    obtain ⟨a1, a2, a3, a4⟩ := auto_reply_exact hru x m hxs
    exact ⟨a3, a4.trans hxl, replayed_unhandled h m (a1.trans ht) (by rw [a2, hp])⟩
  have handled : ∀ (c : Nat) (x : Plasmacore) (del : Plasmacore → Plasmacore),
      (∀ y, (del y).trace = y.trace ∧ (del y).pending_message_data = y.pending_message_data ∧
        (del y).is_sending = y.is_sending ∧ (del y).is_launched = y.is_launched) →
      x.trace = v.trace ++ [Event.dispatch m] →
      x.pending_message_data = v.pending_message_data → x.is_sending = true →
      x.is_launched = true →
      (auto_reply ru (del (call_user ru env c m x).1, (call_user ru env c m x).2)).is_sending
          = true ∧
        (auto_reply ru (del (call_user ru env c m x).1,
          (call_user ru env c m x).2)).is_launched = true ∧
        Replayed env w0 (auto_reply ru (del (call_user ru env c m x).1,
          (call_user ru env c m x).2)) := by
    intro c x del hdel ht hp hxs hxl
    obtain ⟨c1, c2, ⟨E, c3, c4⟩, c5, c6⟩ := call_user_exact hru c m x hxs hxl
    obtain ⟨d1, d2, d3, d4⟩ := hdel (call_user ru env c m x).1
    obtain ⟨a1, a2, a3, a4⟩ := auto_reply_exact hru (del (call_user ru env c m x).1)
      (call_user ru env c m x).2 (d3.trans c1)
    refine ⟨a3, a4.trans (d4.trans c2), replayed_handled h m m c E c4 ?_ ?_⟩
    · rw [a1, d1, c3, ht]
      simp
    · rw [a2, d2, c5, c6, hp, ht, frames_append, List.append_assoc]
  rw [dispatch_and_reply_eq]
  unfold dispatch
  simp only []
  have hlog : (v.log (Event.dispatch m)).trace = v.trace ++ [Event.dispatch m] := rfl
  cases hf : Table.find (v.log (Event.dispatch m)).handlers m.type with
  | none =>
    simp only []
    exact unhandled _ hlog rfl hs hl
  | some entry =>
    simp only []
    cases hc : entry.callback with
    | user c =>
      simp only [invoke]
      exact handled c _ id (fun y => ⟨rfl, rfl, rfl, rfl⟩) hlog rfl hs hl
    | reply_router =>
      simp only [invoke]
      cases hf2 : Table.find (v.log (Event.dispatch m)).reply_handlers m.message_id with
      | none =>
        simp only []
        exact unhandled _ hlog rfl hs hl
      | some handler =>
        simp only []
        cases hc2 : handler.callback with
        | user c2 =>
          simp only []
          exact handled c2 _ (delete_handler handler) (fun y => ⟨rfl, rfl, rfl, rfl⟩)
            hlog rfl hs hl
        | reply_router =>
          simp only []
          exact unhandled _ hlog rfl hs hl

theorem decode_loop_replayed {env : Env} {ru : Bool → Plasmacore → Plasmacore}
    (hru : Guarded env ru) (w0 : Plasmacore) (bytes : List Byte) (cnt : Int)
    (fuel : Nat) (read_pos : Int) (w : Plasmacore) (hs : w.is_sending = true)
    (hl : w.is_launched = true) (h : Replayed env w0 w) :
    (decode_loop ru env bytes cnt fuel read_pos w).is_sending = true ∧
      (decode_loop ru env bytes cnt fuel read_pos w).is_launched = true ∧
      Replayed env w0 (decode_loop ru env bytes cnt fuel read_pos w) := by
  refine decode_loop_induct
    (fun v => v.is_sending = true ∧ v.is_launched = true ∧ Replayed env w0 v) bytes cnt
    ?_ ?_ ?_ fuel read_pos w ⟨hs, hl, h⟩
  · intro v f hv
    exact ⟨hv.1, hv.2.1, replayed_of_same hv.2.2 rfl rfl⟩
  · intro v hv
    refine ⟨hv.1, hv.2.1, replayed_plain hv.2.2 [Event.skipped] ?_ rfl rfl⟩
    intro e he
    simp at he
    subst he
    rfl
  · intro v payload hv
    exact dispatch_and_reply_replayed hru w0 (decode_message env payload)
      { v with decode_buffer := payload } hv.1 hv.2.1 (replayed_of_same hv.2.2 rfl rfl)

theorem burst_iteration_replayed {env : Env} {ru : Bool → Plasmacore → Plasmacore}
    (hru : Guarded env ru) (w0 : Plasmacore) (fuel : Nat) (w : Plasmacore)
    (hs : w.is_sending = true) (hl : w.is_launched = true) (h : Replayed env w0 w) :
    (burst_iteration ru env fuel w).is_sending = true ∧
      (burst_iteration ru env fuel w).is_launched = true ∧
      Replayed env w0 (burst_iteration ru env fuel w) := by
  rw [burst_iteration_eq]
  have h1 := decode_loop_replayed hru w0 (exchange_step env w).io_buffer
    (count (exchange_step env w).io_buffer) fuel 0 (exchange_step env w) hs hl
    (replayed_exchange env h)
  split
  · exact h1
  · exact ⟨h1.1, h1.2.1, replayed_of_same h1.2.2 rfl rfl⟩

theorem burst_replayed {env : Env} {ru : Bool → Plasmacore → Plasmacore}
    (hru : Guarded env ru) (w0 : Plasmacore) (fuel n : Nat) (w : Plasmacore)
    (hs : w.is_sending = true) (hl : w.is_launched = true) (h : Replayed env w0 w) :
    Replayed env w0 (burst ru env fuel n w) :=
  (burst_induct (fun v => v.is_sending = true ∧ v.is_launched = true ∧ Replayed env w0 v)
    (fun v hv => burst_iteration_replayed hru w0 fuel v hv.1 hv.2.1 hv.2.2) n w
    ⟨hs, hl, h⟩).2.2

theorem tick_entry_plain (env : Env) (r : Bool) (w : Plasmacore) :
    ∃ E, (tick_entry env r w).trace = w.trace ++ E ∧ (∀ e ∈ E, e.plain = true) ∧
      (tick_entry env r w).pending_message_data = w.pending_message_data ∧
      (tick_entry env r w).is_launched = w.is_launched := by
  cases r
  · exact ⟨[], by simp [tick_entry], by simp, rfl, rfl⟩
  · refine ⟨[Event.async_call AsyncTarget.update (env.idle_millis w.idleUpdateFrequency)],
      rfl, ?_, rfl, rfl⟩
    intro e he
    simp at he
    subst he
    rfl

theorem tick_finish_plain (X : Plasmacore) :
    ∃ E, (tick_finish X).trace = X.trace ++ E ∧ (∀ e ∈ E, e.plain = true) ∧
      (tick_finish X).pending_message_data = X.pending_message_data := by
  unfold tick_finish
  split
  · exact ⟨[], by simp, by simp, rfl⟩
  · split
    · refine ⟨[Event.async_call AsyncTarget.fast_update 16], rfl, ?_, rfl⟩
      intro e he
      simp at he
      subst he
      rfl
    · exact ⟨[], by simp, by simp, rfl⟩

theorem real_update_replayed (env : Env) (fuel : Nat) (r : Bool) (w : Plasmacore)
    (hl : w.is_launched = true) : Replayed env w (real_update env fuel r w) := by
  cases ht : w.update_timer with
  | false => rw [real_update_stopped _ _ _ _ ht]; exact replayed_refl env w
  | true =>
    cases hs : w.is_sending with
    | true =>
      rw [real_update_sending _ _ _ _ hs]
      obtain ⟨_, ⟨E, n2, n3⟩, n4⟩ := nested_tick_plain env r w
      exact replayed_plain (replayed_refl env w) E n3 n2 n4
    | false =>
      obtain ⟨E, t1, t2, t3, t4⟩ := tick_entry_plain env r w
      cases fuel with
      | zero =>
        rw [real_update_out_of_fuel _ _ _ ht hs]
        exact replayed_plain (replayed_refl env w) E t2 t1 t3
      | succ k =>
        rw [real_update_burst _ _ _ _ ht hs]
        have h0 : Replayed env w (burst_entry env r w) :=
          replayed_plain (replayed_refl env w) E t2 t1 t3
        have h1 := burst_replayed (real_update_guarded env k) w k 10 (burst_entry env r w)
          rfl (t4.trans hl) h0
        obtain ⟨E2, f1, f2, f3⟩ := tick_finish_plain
          (burst (real_update env k) env k 10 (burst_entry env r w))
        exact replayed_plain h1 E2 f2 f1 f3

/-- The first pass of a tick that runs a burst hands the whole outbound
buffer over. -/
theorem real_update_first_exchange (env : Env) (k : Nat) (r : Bool) (w : Plasmacore)
    (ht : w.update_timer = true) (hs : w.is_sending = false) :
    ∃ rest, exchanged (real_update env (k + 1) r w).trace
      = exchanged w.trace
        ++ (w.pending_message_data,
            env.post_messages (tick_entry env r w).trace w.pending_message_data) :: rest := by
  obtain ⟨e1, _, _, _, e5, e6, _, _, _⟩ := burst_entry_fields env r w
  have hX : exchanged (exchange_step env (burst_entry env r w)).trace
      = exchanged w.trace
        ++ [(w.pending_message_data,
            env.post_messages (tick_entry env r w).trace w.pending_message_data)] := by
    have hx : (burst_entry env r w).trace = (tick_entry env r w).trace := rfl
    have hy : exchanged (tick_entry env r w).trace = exchanged w.trace := by
      rw [← hx]; exact e6
    simp only [exchange_step, exchanged_append, exchanged, e5, hx, hy]
  have hru := real_update_guarded env k
  have hit : (burst_iteration (real_update env k) env k (burst_entry env r w)).is_sending = true ∧
      Conserved (exchange_step env (burst_entry env r w))
        (burst_iteration (real_update env k) env k (burst_entry env r w)) := by
    rw [burst_iteration_eq]
    have h1 := decode_loop_conserved hru (exchange_step env (burst_entry env r w))
      (exchange_step env (burst_entry env r w)).io_buffer
      (count (exchange_step env (burst_entry env r w)).io_buffer) k 0
      (exchange_step env (burst_entry env r w)) e1 (conserved_refl _)
    split
    · exact h1
    · exact ⟨h1.1, conserved_of_same h1.2 rfl rfl⟩
  have hb : Conserved (exchange_step env (burst_entry env r w))
      (burst (real_update env k) env k 10 (burst_entry env r w)) := by
    show Conserved _ (burst (real_update env k) env k (9 + 1) (burst_entry env r w))
    rw [burst]
    split
    · exact hit.2
    · split
      · exact hit.2
      · exact burst_conserved hru _ k 9 _ hit.1 hit.2
  rw [real_update_burst _ _ _ _ ht hs, tick_finish_exchanged]
  obtain ⟨news, fs, c1, _⟩ := hb
  exact ⟨news, by rw [c1, hX, List.append_assoc]; rfl⟩

/-- The replay of the tick of the echoing runtime: ten payloads enqueued, one
per callback call, and ten buffers handed over, the empty one the bus
started with and then the frame posted in the pass before. -/
theorem echo_enqueued :
    (outbound_replay echo_env launched_echo_bus (new_events launched_echo_bus
        (real_update echo_env 2 true launched_echo_bus))).enqueued = List.replicate 10 [] ∧
    (outbound_replay echo_env launched_echo_bus (new_events launched_echo_bus
        (real_update echo_env 2 true launched_echo_bus))).handed
      = [] :: List.replicate 9 [0, 0, 0, 0] := by
  rw [echo_tick 0 true launched_echo_bus rfl rfl rfl rfl]
  decide

theorem replies_to_append (env : Env) (id : Int) (a b : List (List Byte)) :
    replies_to env id (a ++ b) = replies_to env id a + replies_to env id b := by
  simp [replies_to, List.filter_append]

/-- The replies posted for a message by the end of its processing: when the
reply object that comes back from `dispatch` is marked sent exactly if
`dispatch` has appended one reply to the outbound buffer (and none
otherwise), then after the auto-reply exactly one reply has been appended. -/
theorem one_reply_posted {env : Env} {ru : Bool → Plasmacore → Plasmacore}
    (hru : Guarded env ru) (m : PlasmacoreMessage) (w : Plasmacore) (hs : w.is_sending = true)
    (r : Reply) (ps : List (List Byte))
    (hr : (dispatch ru env m w).2.reply = some r)
    (hdata : is_reply_to env m.message_id r.data = true)
    (hps : (dispatch ru env m w).1.pending_message_data = w.pending_message_data ++ frames ps)
    (htie : replies_to env m.message_id ps = if r.sent then 1 else 0) :
    (dispatch_and_reply ru env m w).pending_message_data
      = w.pending_message_data ++ frames (ps ++ if r.sent then [] else [r.data]) ∧
    replies_to env m.message_id (ps ++ if r.sent then [] else [r.data]) = 1 := by
  rw [dispatch_and_reply_pending hru m w hs, hps]
  cases hsent : r.sent with
  | true =>
    rw [hsent] at htie
    simp [auto_reply_frames, hr, hsent]
    simpa using htie
  | false =>
    rw [hsent] at htie
    refine ⟨?_, ?_⟩
    · simp [auto_reply_frames, hr, hsent, frames_append, frames]
    · rw [replies_to_append]
      simp at htie
      rw [htie]
      simp [replies_to, hdata]

theorem dispatch_handled (ru : Bool → Plasmacore → Plasmacore) (env : Env) (c : Nat)
    (m : PlasmacoreMessage) (v : Plasmacore) (hh : Handles v m.type c) :
    dispatch ru env m v = call_user ru env c m (v.log (Event.dispatch m)) := by
  obtain ⟨h, hf, hc⟩ := hh
  unfold dispatch
  have hf' : Table.find (v.log (Event.dispatch m)).handlers m.type = some h := hf
  simp only [hf', invoke, hc]

/-- The replies posted for a handled message on a launched bus: when the
callback marks the reply object as sent exactly if one of the messages it
posts is the reply (and posts no reply otherwise), the outbound buffer grows
by the frames of its posts and of the auto-reply, of which exactly one is a
reply to the message. -/
theorem one_reply_from_callback {env : Env} {ru : Bool → Plasmacore → Plasmacore}
    (hru : Guarded env ru) (c : Nat) (m : PlasmacoreMessage) (w : Plasmacore)
    (hs : w.is_sending = true) (hl : w.is_launched = true) (hh : Handles w m.type c)
    (r : Reply)
    (hr : (env.callback c (w.trace ++ [Event.dispatch m]) m).reply = some r)
    (hdata : is_reply_to env m.message_id r.data = true)
    (htie : replies_to env m.message_id
        (posts_of (env.callback c (w.trace ++ [Event.dispatch m]) m).actions)
      = if r.sent then 1 else 0) :
    (dispatch_and_reply ru env m w).pending_message_data
      = w.pending_message_data
        ++ frames (posts_of (env.callback c (w.trace ++ [Event.dispatch m]) m).actions
            ++ if r.sent then [] else [r.data]) ∧
    replies_to env m.message_id
      (posts_of (env.callback c (w.trace ++ [Event.dispatch m]) m).actions
        ++ if r.sent then [] else [r.data]) = 1 := by
  obtain ⟨_, _, _, c4, c5⟩ := call_user_exact hru c m (w.log (Event.dispatch m)) hs hl
  have hd := dispatch_handled ru env c m w hh
  exact one_reply_posted hru m w hs r _ (by rw [hd, c5]; exact hr) hdata
    (by rw [hd, c4]; rfl) htie

/-- C1 (amended). Round trip of one frame: for every message whose payload P
leaves room for the frame and one more length read in the `int` count
(|P| + 8 < 2^31), the decode loop of `real_update`, run inside a burst over
exactly the bytes that `post` appends for P, dispatches exactly one message,
built from exactly the bytes P, reports no framing error and ends cleanly. -/
theorem post_decode_round_trip (env : Env) (k fuel : Nat) (m : PlasmacoreMessage)
    (w0 w : Plasmacore) (hstop : w0.update_timer = false)
    (hempty : w0.pending_message_data = []) (hs : w.is_sending = true)
    (hsize : m.data.length + 8 < 2147483648) :
    let B := (post (real_update env k) m w0).pending_message_data
    let w' := decode_loop (real_update env k) env B (count B) (fuel + 1) 0 w
    dispatched w'.trace = dispatched w.trace ++ [decode_message env m.data] ∧
      (decode_message env m.data).data = m.data ∧
      skips w'.trace = skips w.trace ∧ w'.fault = w.fault := by
  intro B w'
  have hB : B = frames [m.data] := by
    simp only [B]
    rw [post_stopped _ _ _ _ hstop, hempty]
    simp [frames]
  have hl : (frames [m.data]).length = m.data.length + 4 := by
    simp [frames, frame_length]
  obtain ⟨w1, cs, f, hq, heq, hf⟩ := decode_loop_complete (real_update_guarded env k)
    [m.data] (fuel + 1) w hs (by omega) (by simp)
  have hw : w' = { w1 with fault := f } := by
    simp only [w']
    rw [hB, heq]
  rw [hw]
  refine ⟨?_, rfl, ?_, ?_⟩
  · simpa using hq.dispatched
  · simpa using hq.skipped
  · simpa using hf (by omega)

/-- Witness of `post_decode_round_trip`: the payload `[7, 8]`. -/
theorem post_decode_round_trip_witness :
    let B := (post (real_update sample_env 1) (message_of [7, 8])
      Plasmacore.singleton).pending_message_data
    let w' := decode_loop (real_update sample_env 1) sample_env B (count B) (0 + 1) 0 sending_bus
    dispatched w'.trace = dispatched sending_bus.trace ++ [decode_message sample_env [7, 8]] ∧
      (decode_message sample_env [7, 8]).data = [7, 8] ∧
      skips w'.trace = skips sending_bus.trace ∧ w'.fault = sending_bus.fault :=
  post_decode_round_trip sample_env 1 0 (message_of [7, 8]) Plasmacore.singleton sending_bus
    rfl rfl rfl (by decide)

/-- C1 as stated fails at the `int` limit: a payload of 2^31 - 4 bytes is
below 2^31, but the frame that `post` appends for it has 2^31 bytes, the
`int` count of the buffer wraps to -2^31, and the decode loop dispatches
nothing, whatever the budget. -/
theorem round_trip_fails_at_int_limit :
    (message_of payload_at_int_limit).data.length < 2147483648 ∧
    ¬ ∃ fuel,
      dispatched (decode_loop (real_update sample_env 1) sample_env
        (post (real_update sample_env 1) (message_of payload_at_int_limit)
          Plasmacore.singleton).pending_message_data
        (count (post (real_update sample_env 1) (message_of payload_at_int_limit)
          Plasmacore.singleton).pending_message_data) fuel 0 sending_bus).trace
      = dispatched sending_bus.trace
          ++ [decode_message sample_env (message_of payload_at_int_limit).data] :=
  no_dispatch_at_int_limit payload_at_int_limit payload_at_int_limit_length

/-- C2 (amended). Multi-frame round trip: for every finite sequence of
messages (the empty sequence and empty payloads included) whose frames leave
room for one more length read in the `int` count (their total length plus 4 is
below 2^31), the buffer obtained by posting them in order is decoded by the
decode loop of `real_update`, run inside a burst, into exactly as many
dispatched messages, built from the same payloads in the same order; no
framing error is reported and the loop ends cleanly. -/
theorem posts_decode_round_trip (env : Env) (k fuel : Nat) (ms : List PlasmacoreMessage)
    (w0 w : Plasmacore) (hstop : w0.update_timer = false)
    (hempty : w0.pending_message_data = []) (hs : w.is_sending = true)
    (hsize : (post_all (real_update env k) ms w0).pending_message_data.length + 4
      < 2147483648)
    (hfuel : ms.length ≤ fuel) :
    let B := (post_all (real_update env k) ms w0).pending_message_data
    let w' := decode_loop (real_update env k) env B (count B) fuel 0 w
    dispatched w'.trace = dispatched w.trace ++ ms.map (fun m => decode_message env m.data) ∧
      (ms.map (fun m => decode_message env m.data)).map (fun m => m.data)
        = ms.map (fun m => m.data) ∧
      skips w'.trace = skips w.trace ∧ w'.fault = w.fault := by
  intro B w'
  have hB : B = frames (ms.map (fun m => m.data)) := by
    simp only [B]
    rw [post_all_stopped _ _ _ _ hstop, hempty]
    simp
  have hsize2 : B.length + 4 < 2147483648 := hsize
  rw [hB] at hsize2
  obtain ⟨w1, cs, f, hq, heq, hf⟩ := decode_loop_complete (real_update_guarded env k)
    (ms.map (fun m => m.data)) fuel w hs (by omega) (by simpa using hfuel)
  have hw : w' = { w1 with fault := f } := by
    simp only [w']
    rw [hB, heq]
  rw [hw]
  refine ⟨?_, ?_, ?_, ?_⟩
  · simpa [Function.comp_def] using hq.dispatched
  · simp [Function.comp_def, decode_message]
  · simpa using hq.skipped
  · simpa using hf hsize2

/-- Witness of `posts_decode_round_trip`: the payloads `[7]`, `[]` and `[8, 9]`. -/
theorem posts_decode_round_trip_witness :
    let B := (post_all (real_update sample_env 1)
      [message_of [7], message_of [], message_of [8, 9]] Plasmacore.singleton).pending_message_data
    let w' := decode_loop (real_update sample_env 1) sample_env B (count B) 3 0 sending_bus
    dispatched w'.trace = dispatched sending_bus.trace
        ++ [message_of [7], message_of [], message_of [8, 9]].map
          (fun m => decode_message sample_env m.data) ∧
      ([message_of [7], message_of [], message_of [8, 9]].map
          (fun m => decode_message sample_env m.data)).map (fun m => m.data)
        = [message_of [7], message_of [], message_of [8, 9]].map (fun m => m.data) ∧
      skips w'.trace = skips sending_bus.trace ∧ w'.fault = sending_bus.fault :=
  posts_decode_round_trip sample_env 1 3 [message_of [7], message_of [], message_of [8, 9]]
    Plasmacore.singleton sending_bus rfl rfl rfl (by decide) (by decide)

/-- C2 as stated fails past the `int` limit: two payloads of 2^30 bytes are
posted as 2^31 + 8 bytes, the `int` count of the buffer wraps to a negative
number, and the decode loop dispatches nothing, whatever the budget. -/
theorem multi_round_trip_fails_past_int_limit :
    ¬ ∃ fuel,
      dispatched (decode_loop (real_update sample_env 1) sample_env
        (post_all (real_update sample_env 1)
          [message_of payload_of_one_gigabyte, message_of payload_of_one_gigabyte]
          Plasmacore.singleton).pending_message_data
        (count (post_all (real_update sample_env 1)
          [message_of payload_of_one_gigabyte, message_of payload_of_one_gigabyte]
          Plasmacore.singleton).pending_message_data) fuel 0 sending_bus).trace
      = dispatched sending_bus.trace
          ++ [message_of payload_of_one_gigabyte, message_of payload_of_one_gigabyte].map
            (fun m => decode_message sample_env m.data) :=
  no_dispatch_past_int_limit payload_of_one_gigabyte payload_of_one_gigabyte_length

/-- C3 at the inbound buffer FF FF FF FF: the declared unsigned length
4294967295 exceeds the zero bytes that remain, yet the loop, reading the
length as the `int` -1, takes the frame for complete: it dispatches a message
with an empty payload, reports no framing error, and ends. -/
theorem negative_size_dispatches_empty_payload :
    dispatched (decode_loop (real_update sample_env 1) sample_env [255, 255, 255, 255]
        (count [255, 255, 255, 255]) 2 0 sending_bus).trace = [decode_message sample_env []] ∧
      skips (decode_loop (real_update sample_env 1) sample_env [255, 255, 255, 255]
        (count [255, 255, 255, 255]) 2 0 sending_bus).trace = 0 ∧
      (decode_loop (real_update sample_env 1) sample_env [255, 255, 255, 255]
        (count [255, 255, 255, 255]) 2 0 sending_bus).fault = none := by
  decide

/-- C5. Burst cap: for every behaviour of the callbacks and of the runtime,
every state and every evaluation budget, one call of `real_update` hands the
outbound buffer to `RogueInterface_post_messages` at most 10 times (also on
the runs that the budget cuts short, so on every prefix of a run that does
not return). -/
theorem burst_cap (env : Env) (fuel : Nat) (reschedule : Bool) (w : Plasmacore) :
    (exchanged (real_update env fuel reschedule w).trace).length
      ≤ (exchanged w.trace).length + 10 := by
  cases ht : w.update_timer with
  | false => rw [real_update_stopped _ _ _ _ ht]; omega
  | true =>
    cases hs : w.is_sending with
    | true =>
      rw [real_update_sending _ _ _ _ hs, (nested_tick_quiet env reschedule w).exchanged]
      omega
    | false =>
      have he := tick_entry_fields env reschedule w
      cases fuel with
      | zero =>
        rw [real_update_out_of_fuel _ _ _ ht hs]
        simp only []
        rw [he.2.2.2.2]
        omega
      | succ k =>
        rw [real_update_burst _ _ _ _ ht hs, tick_finish_exchanged]
        have h := (burst_exchanged (real_update_guarded env k) k 10
          (burst_entry env reschedule w) rfl).2
        have e : exchanged (burst_entry env reschedule w).trace = exchanged w.trace :=
          he.2.2.2.2
        rw [e] at h
        exact h

/-- C8. No stranded work: whenever a tick that ran a burst (entered with
updates active and no burst in progress) returns with a non-empty outbound
buffer while updates are still active, its last act was the call
`do_async_call(fast_update, 16)`: the catch-up tick is scheduled at 16 ms,
whatever the idle interval is. -/
theorem no_stranded_work (env : Env) (fuel : Nat) (reschedule : Bool) (w : Plasmacore)
    (hactive : w.update_timer = true) (hidle : w.is_sending = false)
    (hret : (real_update env fuel reschedule w).fault = none)
    (hpending : (real_update env fuel reschedule w).pending_message_data ≠ [])
    (hstill : (real_update env fuel reschedule w).update_timer = true) :
    ∃ w1, real_update env fuel reschedule w = do_async_call AsyncTarget.fast_update 16 w1 ∧
      (real_update env fuel reschedule w).trace
        = w1.trace ++ [Event.async_call AsyncTarget.fast_update 16] := by
  cases fuel with
  | zero =>
    rw [real_update_out_of_fuel _ _ _ hactive hidle] at hret
    simp at hret
  | succ k =>
    rw [real_update_burst _ _ _ _ hactive hidle] at hret hpending hstill ⊢
    have h := burst_covered (real_update_guarded env k) k 9
      (burst_entry env reschedule w) rfl
    generalize burst (real_update env k) env k (9 + 1)
      (burst_entry env reschedule w) = v at h hret hpending hstill ⊢
    unfold tick_finish at hret hpending hstill ⊢
    cases hf : v.fault with
    | some f => simp [hf] at hret
    | none =>
      simp only [hf, Option.isSome_none, Bool.false_eq_true, if_false] at hret hpending hstill ⊢
      cases hr : v.update_requested with
      | true =>
        simp only [hr, if_true]
        exact ⟨_, rfl, rfl⟩
      | false =>
        simp only [hr, Bool.false_eq_true, if_false] at hpending hstill
        have := h.2 hpending hstill
        rw [hr] at this
        exact absurd this (by simp)

/-- Witness of `no_stranded_work`: the burst of the echoing runtime ends at the
cap with the frame of the tenth pass still pending. -/
theorem no_stranded_work_witness :
    ∃ w1, real_update echo_env 2 false echo_bus
        = do_async_call AsyncTarget.fast_update 16 w1 ∧
      (real_update echo_env 2 false echo_bus).trace
        = w1.trace ++ [Event.async_call AsyncTarget.fast_update 16] :=
  no_stranded_work echo_env 2 false echo_bus rfl rfl
    (by rw [echo_tick 0 false echo_bus rfl rfl rfl rfl]
        exact ((echo_iterate_fields 9 (burst_entry echo_env false echo_bus)).2.2.1).trans
          (echo_entry_fields false echo_bus rfl rfl rfl).2.2.2)
    (by rw [echo_tick 0 false echo_bus rfl rfl rfl rfl]
        have h := (echo_iterate_fields 9 (burst_entry echo_env false echo_bus)).2.2.2.2
        simp only [do_async_call, Plasmacore.log]
        rw [h]
        simp)
    (by rw [echo_tick 0 false echo_bus rfl rfl rfl rfl]
        exact ((echo_iterate_fields 9 (burst_entry echo_env false echo_bus)).2.1).trans
          (echo_entry_fields false echo_bus rfl rfl rfl).2.1)

/-- C7 (amended). End-of-burst rescheduling: a tick that runs a burst
(`real_update` entered with updates active and no burst in progress) and
returns schedules the idle tick, at `int(1000*idleUpdateFrequency)` ms, at
its entry if and only if it was entered with `reschedule` set (from `update`
or `start`, not from `fast_update` or `post`), and schedules the catch-up
tick `fast_update` at 16 ms as its last act if and only if a continuation is
requested when the burst ends, which is the case whenever outbound bytes
remain while updates are active. In between only idle ticks are scheduled,
by the ticks that callbacks start. So the two ticks are scheduled
independently: both, one of them, or none. -/
theorem tick_scheduling (env : Env) (fuel : Nat) (reschedule : Bool) (w : Plasmacore)
    (hactive : w.update_timer = true) (hidle : w.is_sending = false)
    (hret : (real_update env fuel reschedule w).fault = none) :
    (∃ nested, (∀ c ∈ nested, c.1 = AsyncTarget.update) ∧
      async_calls (real_update env fuel reschedule w).trace
        = async_calls w.trace
          ++ (if reschedule then [(AsyncTarget.update, env.idle_millis w.idleUpdateFrequency)]
              else [])
          ++ nested
          ++ (if (real_update env fuel reschedule w).update_requested
              then [(AsyncTarget.fast_update, 16)] else [])) ∧
    ((real_update env fuel reschedule w).pending_message_data ≠ [] →
      (real_update env fuel reschedule w).update_timer = true →
      (real_update env fuel reschedule w).update_requested = true) := by
  cases fuel with
  | zero =>
    rw [real_update_out_of_fuel _ _ _ hactive hidle] at hret
    simp at hret
  | succ k =>
    rw [real_update_burst _ _ _ _ hactive hidle] at hret ⊢
    have hc := burst_covered (real_update_guarded env k) k 9
      (burst_entry env reschedule w) rfl
    have h0 : OnlyIdle (async_calls w.trace
        ++ (if reschedule then [(AsyncTarget.update, env.idle_millis w.idleUpdateFrequency)]
            else [])) (burst_entry env reschedule w) := by
      refine ⟨[], ?_, by simp⟩
      cases reschedule <;>
        simp [burst_entry, tick_entry, do_async_call, Plasmacore.log, async_calls_append,
          async_calls]
    have hi := burst_only_idle (real_update_guarded env k) _ k 10
      (burst_entry env reschedule w) rfl h0
    generalize burst (real_update env k) env k (9 + 1) (burst_entry env reschedule w) = v
      at hc hi hret ⊢
    have hf : v.fault = none := by
      unfold tick_finish at hret
      cases hvf : v.fault with
      | none => rfl
      | some f => simp [hvf] at hret
    obtain ⟨nested, e, a⟩ := hi
    cases hr : v.update_requested with
    | true =>
      rw [tick_finish_requested v hf hr]
      refine ⟨⟨nested, a, ?_⟩, fun _ _ => hr⟩
      simp [do_async_call, Plasmacore.log, async_calls_append, async_calls, e, hr]
    | false =>
      rw [tick_finish_settled v hf hr]
      refine ⟨⟨nested, a, ?_⟩, ?_⟩
      · simp [e, hr]
      · intro hp ht
        exact hc.2 hp ht

/-- Witness of `tick_scheduling`: the tick of the echoing runtime, entered
from `update`, schedules both the idle tick and the catch-up tick. -/
theorem tick_scheduling_witness :
    (∃ nested, (∀ c ∈ nested, c.1 = AsyncTarget.update) ∧
      async_calls (real_update echo_env 2 true echo_bus).trace
        = async_calls echo_bus.trace
          ++ (if true then
                [(AsyncTarget.update, echo_env.idle_millis echo_bus.idleUpdateFrequency)]
              else [])
          ++ nested
          ++ (if (real_update echo_env 2 true echo_bus).update_requested
              then [(AsyncTarget.fast_update, 16)] else [])) ∧
    ((real_update echo_env 2 true echo_bus).pending_message_data ≠ [] →
      (real_update echo_env 2 true echo_bus).update_timer = true →
      (real_update echo_env 2 true echo_bus).update_requested = true) :=
  tick_scheduling echo_env 2 true echo_bus rfl rfl
    (by rw [echo_tick 0 true echo_bus rfl rfl rfl rfl]
        exact ((echo_iterate_fields 9 (burst_entry echo_env true echo_bus)).2.2.1).trans
          (echo_entry_fields true echo_bus rfl rfl rfl).2.2.2)

/-- C7 as stated fails on a tick entered from `fast_update` (or `post`) that
finds nothing to do: it runs a burst of one pass, one exchange with the
runtime, and returns having scheduled no tick at all, neither at the idle
interval nor at 16 ms. -/
theorem fast_tick_schedules_nothing :
    idle_bus.update_timer = true ∧ idle_bus.is_sending = false ∧
      (real_update sample_env 1 false idle_bus).fault = none ∧
      (exchanged (real_update sample_env 1 false idle_bus).trace).length = 1 ∧
      async_calls (real_update sample_env 1 false idle_bus).trace = [] := by
  rw [real_update_burst _ _ _ _ rfl rfl]
  have h1 : burst_iteration (real_update sample_env 0) sample_env 0
      (burst_entry sample_env false idle_bus)
      = { idle_bus with is_sending := true,
                        trace := [Event.post_messages [] []] } := by
    rw [burst_iteration_eq]
    decide
  have h2 : burst (real_update sample_env 0) sample_env 0 10
      (burst_entry sample_env false idle_bus)
      = { idle_bus with is_sending := true,
                        trace := [Event.post_messages [] []] } := by
    rw [burst, h1]
    rfl
  rw [h2]
  decide

/-- C6 (amended). Reentrancy safety: a tick invoked while a burst is in
progress (`is_sending` set, as the `real_update` call that `post` makes from
inside a callback) starts no second burst: it hands nothing to the runtime,
dispatches nothing, calls no callback and reports no framing error, and it
changes no bus state other than `update_requested` (entered with
`reschedule` set while updates are active it also schedules its idle tick).
While updates are active (`update_timer` set), any number of such ticks, one
or more, leaves `update_requested` set and the rest of the bus as it was. The
tick that runs the burst turns them into exactly one continuation per pass:
when the runtime has `j` frames to deliver, one per exchange, and the
callback starts ticks every time it is called, however many, `real_update`
returns after exactly `min 10 (j + 1)` exchanges (one pass per frame and one
more, ten at most) and `min 10 j` calls of the callback, and it schedules
exactly one catch-up tick when the tenth pass still brought a frame and none
otherwise. A tick invoked after `stop` requests nothing. -/
theorem nested_tick_is_coalesced (env : Env) (fuel : Nat) (reschedule : Bool)
    (w : Plasmacore) (hs : w.is_sending = true) :
    (exchanged (real_update env fuel reschedule w).trace = exchanged w.trace ∧
      dispatched (real_update env fuel reschedule w).trace = dispatched w.trace ∧
      called (real_update env fuel reschedule w).trace = called w.trace ∧
      skips (real_update env fuel reschedule w).trace = skips w.trace) ∧
    apart_from_request (real_update env fuel reschedule w) = apart_from_request w ∧
    (real_update env fuel reschedule w).trace = w.trace
      ++ (if reschedule = true ∧ w.update_timer = true
          then [Event.async_call AsyncTarget.update (env.idle_millis w.idleUpdateFrequency)]
          else []) ∧
    (real_update env fuel reschedule w).update_requested
      = (w.update_timer || w.update_requested) ∧
    (∀ rs : List Bool, rs ≠ [] → w.update_timer = true →
      (ticks env fuel rs w).update_requested = true ∧
      apart_from_request (ticks env fuel rs w) = apart_from_request w ∧
      exchanged (ticks env fuel rs w).trace = exchanged w.trace ∧
      dispatched (ticks env fuel rs w).trace = dispatched w.trace) ∧
    (∀ (t : String) (c j k : Nat) (r : Bool) (v : Plasmacore),
      Nagging env t c (exchanged v.trace).length j → Handles v t c →
      v.update_timer = true → v.is_sending = false → v.fault = none →
      (real_update env (k + 2) r v).fault = none ∧
      (real_update env (k + 2) r v).is_sending = false ∧
      (exchanged (real_update env (k + 2) r v).trace).length
        = (exchanged v.trace).length + min 10 (j + 1) ∧
      (called (real_update env (k + 2) r v).trace).length
        = (called v.trace).length + min 10 j ∧
      catch_ups (real_update env (k + 2) r v).trace
        = catch_ups v.trace
          ++ (if 10 ≤ j then [(AsyncTarget.fast_update, 16)] else [])) := by
  have hq := nested_tick_quiet env reschedule w
  have h1 := nested_tick_same env reschedule w
  rw [real_update_sending _ _ _ _ hs]
  refine ⟨⟨hq.exchanged, by simpa using hq.dispatched, by simpa using hq.called, hq.skipped⟩,
    h1.1, h1.2.1, h1.2.2, ?_, ?_⟩
  · intro rs hrs ht
    have h := ticks_sending env fuel rs w hs
    exact ⟨h.2.1 ht hrs, h.1, h.2.2.1, h.2.2.2⟩
  · intro t c j k r v hp hh ht hs' hf
    exact nagging_tick env t c j k r v hp hh ht hs' hf

/-- Witness of `nested_tick_is_coalesced`: a tick while `sending_bus` is in
its burst, and the tick of `echo_bus` with a callback that starts three ticks
per call: with a runtime that has three frames it makes four exchanges and
three calls and schedules no catch-up tick, with a runtime that has twelve
it makes ten exchanges and schedules one. -/
theorem nested_tick_is_coalesced_witness :
    (real_update (nagging_env 3) 1 false sending_bus).update_requested = true ∧
    apart_from_request (real_update (nagging_env 3) 1 false sending_bus)
      = apart_from_request sending_bus ∧
    (exchanged (real_update (nagging_env 3) (0 + 2) true echo_bus).trace).length = 4 ∧
    (called (real_update (nagging_env 3) (0 + 2) true echo_bus).trace).length = 3 ∧
    catch_ups (real_update (nagging_env 3) (0 + 2) true echo_bus).trace = [] ∧
    (exchanged (real_update (nagging_env 12) (0 + 2) true echo_bus).trace).length = 10 ∧
    catch_ups (real_update (nagging_env 12) (0 + 2) true echo_bus).trace
      = [(AsyncTarget.fast_update, 16)] :=
  ⟨(nested_tick_is_coalesced (nagging_env 3) 1 false sending_bus rfl).2.2.2.1,
    (nested_tick_is_coalesced (nagging_env 3) 1 false sending_bus rfl).2.1,
    ((nested_tick_is_coalesced (nagging_env 3) 1 false sending_bus rfl).2.2.2.2.2
      "t" 0 3 0 true echo_bus (nagging_env_nags 3) ⟨_, rfl, rfl⟩ rfl rfl rfl).2.2.1,
    ((nested_tick_is_coalesced (nagging_env 3) 1 false sending_bus rfl).2.2.2.2.2
      "t" 0 3 0 true echo_bus (nagging_env_nags 3) ⟨_, rfl, rfl⟩ rfl rfl rfl).2.2.2.1,
    ((nested_tick_is_coalesced (nagging_env 3) 1 false sending_bus rfl).2.2.2.2.2
      "t" 0 3 0 true echo_bus (nagging_env_nags 3) ⟨_, rfl, rfl⟩ rfl rfl rfl).2.2.2.2,
    ((nested_tick_is_coalesced (nagging_env 12) 1 false sending_bus rfl).2.2.2.2.2
      "t" 0 12 0 true echo_bus (nagging_env_nags 12) ⟨_, rfl, rfl⟩ rfl rfl rfl).2.2.1,
    ((nested_tick_is_coalesced (nagging_env 12) 1 false sending_bus rfl).2.2.2.2.2
      "t" 0 12 0 true echo_bus (nagging_env_nags 12) ⟨_, rfl, rfl⟩ rfl rfl rfl).2.2.2.2⟩

/-- C6 as stated fails for a tick invoked after `stop`: in the burst of
`echo_bus` with a callback that calls `stop` and then `post`, the tick that
`post` starts while the burst is in progress requests nothing; the burst ends
after its first pass, schedules no catch-up tick, and the posted frame stays
in the outbound buffer: the tick is not coalesced into any continuation. -/
theorem stopped_nested_tick_is_dropped :
    (exchanged (real_update stopping_env 2 false echo_bus).trace).length = 1 ∧
      called (real_update stopping_env 2 false echo_bus).trace
        = [(0, decode_message stopping_env [])] ∧
      (real_update stopping_env 2 false echo_bus).pending_message_data = [0, 0, 0, 0] ∧
      (real_update stopping_env 2 false echo_bus).update_requested = false ∧
      async_calls (real_update stopping_env 2 false echo_bus).trace = [] ∧
      (real_update stopping_env 2 false echo_bus).fault = none := by
  rw [real_update_burst _ _ _ _ rfl rfl]
  have h1 : burst_iteration (real_update stopping_env 1) stopping_env 1
      (burst_entry stopping_env false echo_bus)
      = { echo_bus with is_sending := true, update_timer := false,
                        pending_message_data := [0, 0, 0, 0],
                        trace := [Event.post_messages [] [0, 0, 0, 0],
                          Event.dispatch (decode_message stopping_env []),
                          Event.callback 0 (decode_message stopping_env [])] } := by
    rw [burst_iteration_eq]
    decide
  have h2 : burst (real_update stopping_env 1) stopping_env 1 10
      (burst_entry stopping_env false echo_bus)
      = { echo_bus with is_sending := true, update_timer := false,
                        pending_message_data := [0, 0, 0, 0],
                        trace := [Event.post_messages [] [0, 0, 0, 0],
                          Event.dispatch (decode_message stopping_env []),
                          Event.callback 0 (decode_message stopping_env [])] } := by
    rw [burst, h1]
    rfl
  rw [h2]
  decide

/-- C9. Handler replacement: for every type string `t` and callbacks `c1`,
`c2`, after `set_message_handler(t, c1)` followed by
`set_message_handler(t, c2)` the table maps `t` to the handler of `c2`, every
other type keeps its entry, and `dispatch` of a message of type `t` is one
call of `c2`: inside a burst the callback calls it adds to the trace are
exactly the one call of `c2` with the message, so none of `c1`. -/
theorem handler_replacement (env : Env) (fuel : Nat) (t : String) (c1 c2 : Nat)
    (m : PlasmacoreMessage) (w : Plasmacore) (hm : m.type = t) (hs : w.is_sending = true) :
    Table.find (set_message_handler t (Callback.user c2)
        (set_message_handler t (Callback.user c1) w)).handlers t
      = some { addr := w.next_addr + 1, type := t, callback := Callback.user c2 } ∧
    (∀ t', t' ≠ t →
      Table.find (set_message_handler t (Callback.user c2)
        (set_message_handler t (Callback.user c1) w)).handlers t' = Table.find w.handlers t') ∧
    (∀ ru : Bool → Plasmacore → Plasmacore,
      dispatch ru env m (set_message_handler t (Callback.user c2)
        (set_message_handler t (Callback.user c1) w))
      = call_user ru env c2 m ((set_message_handler t (Callback.user c2)
        (set_message_handler t (Callback.user c1) w)).log (Event.dispatch m))) ∧
    called (dispatch (real_update env fuel) env m (set_message_handler t (Callback.user c2)
        (set_message_handler t (Callback.user c1) w))).1.trace
      = called w.trace ++ [(c2, m)] := by
  have hfind : Table.find (set_message_handler t (Callback.user c2)
        (set_message_handler t (Callback.user c1) w)).handlers t
      = some { addr := w.next_addr + 1, type := t, callback := Callback.user c2 } := by
    simp [set_message_handler, new_handler, Table.find_set_self]
  have hd : ∀ ru : Bool → Plasmacore → Plasmacore,
      dispatch ru env m (set_message_handler t (Callback.user c2)
        (set_message_handler t (Callback.user c1) w))
      = call_user ru env c2 m ((set_message_handler t (Callback.user c2)
        (set_message_handler t (Callback.user c1) w)).log (Event.dispatch m)) := by
    intro ru
    unfold dispatch
    have : Table.find ((set_message_handler t (Callback.user c2)
        (set_message_handler t (Callback.user c1) w)).log (Event.dispatch m)).handlers m.type
        = some { addr := w.next_addr + 1, type := t, callback := Callback.user c2 } := by
      rw [hm]; exact hfind
    simp only [this, invoke]
  refine ⟨hfind, ?_, hd, ?_⟩
  · intro t' ht
    simp [set_message_handler, new_handler, Table.find_set_other _ _ _ _ ht]
  · rw [hd]
    have h1 := call_user_quiet (real_update_guarded env fuel) c2 m
      ((set_message_handler t (Callback.user c2)
        (set_message_handler t (Callback.user c1) w)).log (Event.dispatch m))
      (by simpa [Plasmacore.log, set_message_handler, new_handler] using hs)
    rw [h1.called]
    simp [Plasmacore.log, set_message_handler, new_handler, called_append, called]

/-- Witness of `handler_replacement`: the callbacks 1 and 2 registered for
the type "t" on `sending_bus`. -/
theorem handler_replacement_witness :
    called (dispatch (real_update sample_env 1) sample_env (message_of [7])
        (set_message_handler "t" (Callback.user 2)
          (set_message_handler "t" (Callback.user 1) sending_bus))).1.trace
      = called sending_bus.trace ++ [(2, message_of [7])] :=
  (handler_replacement sample_env 1 "t" 1 2 (message_of [7]) sending_bus rfl rfl).2.2.2

/-- C10. Frame format: for every message and every prior outbound buffer B,
`post` appends to B the four bytes `(size>>24)&255`, `(size>>16)&255`,
`(size>>8)&255`, `size&255` and then the bytes of `m.data` in order, where
`size` is the number of payload bytes, and then calls `real_update(false)`;
when no flush happens (updates inactive, or a burst in progress) the
outbound buffer is left equal to B followed by these bytes. The earlier
contents are untouched, and the four bytes, read back as the decode loop
reads them, give the payload size (a size that an `int` count holds). -/
theorem post_frame_format (env : Env) (fuel : Nat) (m : PlasmacoreMessage) (w : Plasmacore) :
    (∀ ru : Bool → Plasmacore → Plasmacore, post ru m w = ru false
      { w with pending_message_data :=
          w.pending_message_data ++ (size_bytes m.data.length ++ m.data) }) ∧
    (size_bytes m.data.length).map (fun b => b.val)
      = [(m.data.length >>> 24) &&& 255, (m.data.length >>> 16) &&& 255,
         (m.data.length >>> 8) &&& 255, m.data.length &&& 255] ∧
    ((w.update_timer = false ∨ w.is_sending = true) →
      (post (real_update env fuel) m w).pending_message_data
        = w.pending_message_data ++ (size_bytes m.data.length ++ m.data)) ∧
    (m.data.length < 2147483648 →
      ∀ rest, read_size (size_bytes m.data.length ++ rest) 0 = some (m.data.length : Int)) := by
  have e : ∀ ru : Bool → Plasmacore → Plasmacore, post ru m w = ru false
      { w with pending_message_data :=
          w.pending_message_data ++ (size_bytes m.data.length ++ m.data) } := by
    intro ru
    simp [post]
  refine ⟨e, size_bytes_vals _, ?_, ?_⟩
  · intro h
    rw [e]
    rcases h with h | h
    · rw [real_update_stopped _ _ _ _ (by simpa using h)]
    · rw [real_update_sending _ _ _ _ (by simpa using h)]
      have hq := (nested_tick_same env false
        { w with pending_message_data :=
            w.pending_message_data ++ (size_bytes m.data.length ++ m.data) }).1
      exact congrArg Plasmacore.pending_message_data hq
  · intro h rest
    have := read_size_frame [] rest m.data.length (by simp)
    rw [to_int32_eq _ h] at this
    simpa using this

/-- Witness of `post_frame_format`: a payload of three bytes posted on a
stopped bus that holds the byte 9. -/
theorem post_frame_format_witness :
    (post (real_update sample_env 1) (message_of [5, 6, 7])
        { Plasmacore.singleton with pending_message_data := [9] }).pending_message_data
      = [9] ++ ([0, 0, 0, 3] ++ [5, 6, 7]) ∧
    read_size ([0, 0, 0, 3] ++ [5, 6, 7]) 0 = some 3 :=
  ⟨(post_frame_format sample_env 1 (message_of [5, 6, 7])
      { Plasmacore.singleton with pending_message_data := [9] }).2.2.1 (Or.inl rfl),
    (post_frame_format sample_env 1 (message_of [5, 6, 7])
      { Plasmacore.singleton with pending_message_data := [9] }).2.2.2 (by decide) [5, 6, 7]⟩

/-- C4. At-most-one reply firing: `post_rsvp` stores its callback under the
message id X, in a new handler object, and posts the message. In every
state of a burst in which that entry is pending, the first inbound message
of the reserved type `""` with id X that is dispatched removes the entry,
calls the callback exactly once, with that message, and deletes the handler
object; a second inbound message with the same id calls nothing and leaves
the bus as it was, and so does every message of the type `""` whose id has
no pending entry. Conversely the entry fires only for such a message: a
message of another type or with another id leaves the entry of X pending,
and the one callback call that its dispatch may make is the call of the
handler of its type or of the reply entry of its own id; after any sequence
of such messages the entry is still pending and the first reply to X fires
it once. Assumed, as the spec does: the lambda of `configure` is installed
under `""` and only there, and the callbacks neither reuse the id X for
another `post_rsvp` nor touch the reserved type. -/
theorem reply_fires_once (env : Env) (fuel : Nat) (X : Int) (cb : Nat)
    (handler : PlasmacoreMessageHandler) (r1 r2 : PlasmacoreMessage) (w : Plasmacore)
    (hs : w.is_sending = true) (hrouter : RouterInstalled w)
    (hentry : Table.find w.reply_handlers X = some handler)
    (hcb : handler.callback = Callback.user cb)
    (h1 : r1.type = "" ∧ r1.message_id = X) (h2 : r2.type = "" ∧ r2.message_id = X)
    (hkeep : ∀ tr, ∀ a ∈ (env.callback cb tr r1).actions, a.keeps X) :
    (∀ (ru : Bool → Plasmacore → Plasmacore) (m : PlasmacoreMessage) (c : Nat)
        (w0 : Plasmacore),
      post_rsvp ru m c w0 = post ru m (store_reply m.message_id c w0) ∧
      Table.find (store_reply m.message_id c w0).reply_handlers m.message_id
        = some { addr := w0.next_addr, type := "", callback := Callback.user c } ∧
      called (store_reply m.message_id c w0).trace = called w0.trace) ∧
    called (dispatch (real_update env fuel) env r1 w).1.trace = called w.trace ++ [(cb, r1)] ∧
    Table.find (dispatch (real_update env fuel) env r1 w).1.reply_handlers X = none ∧
    handler.addr ∉ (dispatch (real_update env fuel) env r1 w).1.live ∧
    (dispatch (real_update env fuel) env r2 (dispatch (real_update env fuel) env r1 w).1).1
      = (dispatch (real_update env fuel) env r1 w).1.log (Event.dispatch r2) ∧
    (∀ (ru : Bool → Plasmacore → Plasmacore) (r : PlasmacoreMessage) (v : Plasmacore),
      r.type = "" → RouterInstalled v → Table.find v.reply_handlers r.message_id = none →
      dispatch ru env r v = (v.log (Event.dispatch r), r)) ∧
    (∀ (m : PlasmacoreMessage) (v : Plasmacore), v.is_sending = true → RouterInstalled v →
      RouterReserved v → (m.type ≠ "" ∨ m.message_id ≠ X) →
      (∀ c tr, ∀ a ∈ (env.callback c tr m).actions, a.keeps X) →
      Table.find (dispatch (real_update env fuel) env m v).1.reply_handlers X
        = Table.find v.reply_handlers X ∧
      RouterInstalled (dispatch (real_update env fuel) env m v).1 ∧
      RouterReserved (dispatch (real_update env fuel) env m v).1 ∧
      (∃ cs, called (dispatch (real_update env fuel) env m v).1.trace = called v.trace ++ cs ∧
        cs.length ≤ 1 ∧ ∀ c m', (c, m') ∈ cs → m' = m ∧ OtherCall X v m c)) ∧
    (∀ ms : List PlasmacoreMessage, RouterReserved w →
      (∀ m ∈ ms, (m.type ≠ "" ∨ m.message_id ≠ X) ∧
        ∀ c tr, ∀ a ∈ (env.callback c tr m).actions, a.keeps X) →
      Table.find (dispatch_all (real_update env fuel) env ms w).reply_handlers X
        = some handler ∧
      called (dispatch (real_update env fuel) env r1
          (dispatch_all (real_update env fuel) env ms w)).1.trace
        = called (dispatch_all (real_update env fuel) env ms w).trace ++ [(cb, r1)] ∧
      Table.find (dispatch (real_update env fuel) env r1
          (dispatch_all (real_update env fuel) env ms w)).1.reply_handlers X = none) := by
  have hru := real_update_guarded env fuel
  have hd := dispatch_matched_reply hru X cb handler r1 w hs hrouter h1.1 h1.2 hentry hcb hkeep
  refine ⟨?_, hd.1, hd.2.1, hd.2.2.1, ?_,
    fun ru r v hr hv hn => dispatch_unmatched_reply ru env r v hr hv hn, ?_, ?_⟩
  · intro ru m c w0
    exact ⟨rfl, Table.find_set_self _ _ _, rfl⟩
  · generalize (dispatch (real_update env fuel) env r1 w).1 = w1 at hd ⊢
    rw [dispatch_unmatched_reply _ env r2 w1 h2.1 hd.2.2.2 (by rw [h2.2]; exact hd.2.1)]
  · intro m v hvs hvw hvr ho hk
    obtain ⟨d1, d2, d3⟩ := dispatch_other_keeps_entry hru X m v hvs hvw hvr ho hk
    exact ⟨d1, d2, dispatch_reserved hru m v hvs hvr, d3⟩
  · intro ms hres hms
    obtain ⟨a1, a2, _, a4⟩ := dispatch_all_keeps_entry hru X ms w hs hrouter hres hms
    have hd2 := dispatch_matched_reply hru X cb handler r1 _ a1 a2 h1.1 h1.2
      (a4.trans hentry) hcb hkeep
    exact ⟨a4.trans hentry, hd2.1, hd2.2.1⟩

/-- Witness of `reply_fires_once`: two replies with the id 5 dispatched on
`awaiting_bus`, and a message of the type "t" that leaves the entry of the
id 5 pending. -/
theorem reply_fires_once_witness :
    called (dispatch (real_update sample_env 1) sample_env
        { type := "", message_id := 5, data := [], reply := none } awaiting_bus).1.trace
      = called awaiting_bus.trace
        ++ [(3, { type := "", message_id := 5, data := [], reply := none })] ∧
    (dispatch (real_update sample_env 1) sample_env
        { type := "", message_id := 5, data := [], reply := none }
        (dispatch (real_update sample_env 1) sample_env
          { type := "", message_id := 5, data := [], reply := none } awaiting_bus).1).1
      = (dispatch (real_update sample_env 1) sample_env
          { type := "", message_id := 5, data := [], reply := none } awaiting_bus).1.log
          (Event.dispatch { type := "", message_id := 5, data := [], reply := none }) ∧
    Table.find (dispatch (real_update sample_env 1) sample_env (message_of [7])
        awaiting_bus).1.reply_handlers 5
      = Table.find awaiting_bus.reply_handlers 5 :=
  ⟨(reply_fires_once sample_env 1 5 3 { addr := 1, type := "", callback := Callback.user 3 }
      { type := "", message_id := 5, data := [], reply := none }
      { type := "", message_id := 5, data := [], reply := none }
      awaiting_bus rfl rfl rfl rfl ⟨rfl, rfl⟩ ⟨rfl, rfl⟩
      (fun _ a ha => absurd ha (List.not_mem_nil a))).2.1,
   (reply_fires_once sample_env 1 5 3 { addr := 1, type := "", callback := Callback.user 3 }
      { type := "", message_id := 5, data := [], reply := none }
      { type := "", message_id := 5, data := [], reply := none }
      awaiting_bus rfl rfl rfl rfl ⟨rfl, rfl⟩ ⟨rfl, rfl⟩
      (fun _ a ha => absurd ha (List.not_mem_nil a))).2.2.2.2.1,
   ((reply_fires_once sample_env 1 5 3 { addr := 1, type := "", callback := Callback.user 3 }
      { type := "", message_id := 5, data := [], reply := none }
      { type := "", message_id := 5, data := [], reply := none }
      awaiting_bus rfl rfl rfl rfl ⟨rfl, rfl⟩ ⟨rfl, rfl⟩
      (fun _ a ha => absurd ha (List.not_mem_nil a))).2.2.2.2.2.2.1
      (message_of [7]) awaiting_bus rfl rfl awaiting_bus_reserved (Or.inl (by decide))
      (fun _ _ a ha => absurd ha (List.not_mem_nil a))).1⟩

/-- C11. Auto-reply exactly once: after `dispatch` of a decoded message,
`real_update` calls the `post` of the reply object exactly once when the
message that comes back carries a reply object that is not marked sent, and
not at all when the reply object is marked sent or when there is none. When
no handler is registered for the type, the message comes back as it was
decoded, so an unsent reply object is posted once: the outbound buffer grows
by exactly its frame. Given that the reply object is marked sent exactly
when a reply has been posted during dispatch (what the callback posted holds
one reply to the message if it marked the reply sent, and none otherwise),
exactly one reply to the message has been appended to the outbound buffer
when the processing of the frame ends: the one of the callback and no
auto-reply, or the auto-reply alone. -/
theorem auto_reply_once (env : Env) (ru : Bool → Plasmacore → Plasmacore)
    (m : PlasmacoreMessage) (w : Plasmacore) :
    (∀ r, (dispatch ru env m w).2.reply = some r → r.sent = false →
      dispatch_and_reply ru env m w
        = post_reply ru (dispatch ru env m w).2 r (dispatch ru env m w).1) ∧
    (∀ r, (dispatch ru env m w).2.reply = some r → r.sent = true →
      dispatch_and_reply ru env m w = (dispatch ru env m w).1) ∧
    ((dispatch ru env m w).2.reply = none →
      dispatch_and_reply ru env m w = (dispatch ru env m w).1) ∧
    (Table.find w.handlers m.type = none →
      dispatch ru env m w = (w.log (Event.dispatch m), m) ∧
      ∀ r, m.reply = some r → r.sent = false →
        dispatch_and_reply ru env m w = post_reply ru m r (w.log (Event.dispatch m))) ∧
    (Guarded env ru → w.is_sending = true →
      (dispatch_and_reply ru env m w).pending_message_data
        = (dispatch ru env m w).1.pending_message_data
          ++ auto_reply_frames (dispatch ru env m w).2) ∧
    (Guarded env ru → w.is_sending = true → Table.find w.handlers m.type = none →
      ∀ r, m.reply = some r → r.sent = false →
        (dispatch_and_reply ru env m w).pending_message_data
          = w.pending_message_data ++ frame r.data) ∧
    (Guarded env ru → w.is_sending = true →
      ∀ (r : Reply) (ps : List (List Byte)), (dispatch ru env m w).2.reply = some r →
        is_reply_to env m.message_id r.data = true →
        (dispatch ru env m w).1.pending_message_data = w.pending_message_data ++ frames ps →
        replies_to env m.message_id ps = (if r.sent then 1 else 0) →
        (dispatch_and_reply ru env m w).pending_message_data
          = w.pending_message_data ++ frames (ps ++ if r.sent then [] else [r.data]) ∧
        replies_to env m.message_id (ps ++ if r.sent then [] else [r.data]) = 1) ∧
    (Guarded env ru → w.is_sending = true → w.is_launched = true →
      ∀ (c : Nat) (r : Reply), Handles w m.type c →
        (env.callback c (w.trace ++ [Event.dispatch m]) m).reply = some r →
        is_reply_to env m.message_id r.data = true →
        replies_to env m.message_id
            (posts_of (env.callback c (w.trace ++ [Event.dispatch m]) m).actions)
          = (if r.sent then 1 else 0) →
        (dispatch_and_reply ru env m w).pending_message_data
          = w.pending_message_data
            ++ frames (posts_of (env.callback c (w.trace ++ [Event.dispatch m]) m).actions
                ++ if r.sent then [] else [r.data]) ∧
        replies_to env m.message_id
          (posts_of (env.callback c (w.trace ++ [Event.dispatch m]) m).actions
            ++ if r.sent then [] else [r.data]) = 1) := by
  have h1 : ∀ r, (dispatch ru env m w).2.reply = some r → r.sent = false →
      dispatch_and_reply ru env m w
        = post_reply ru (dispatch ru env m w).2 r (dispatch ru env m w).1 := by
    intro r hr hs
    unfold dispatch_and_reply
    simp only [hr, hs]
    rfl
  have h2 : ∀ r, (dispatch ru env m w).2.reply = some r → r.sent = true →
      dispatch_and_reply ru env m w = (dispatch ru env m w).1 := by
    intro r hr hs
    unfold dispatch_and_reply
    simp only [hr, hs]
    rfl
  have h3 : (dispatch ru env m w).2.reply = none →
      dispatch_and_reply ru env m w = (dispatch ru env m w).1 := by
    intro hr
    unfold dispatch_and_reply
    simp only [hr]
  have h4 : Table.find w.handlers m.type = none →
      dispatch ru env m w = (w.log (Event.dispatch m), m) := by
    intro hf
    unfold dispatch
    have : Table.find (w.log (Event.dispatch m)).handlers m.type = none := hf
    simp only [this]
  refine ⟨h1, h2, h3, ?_, ?_, ?_, ?_, ?_⟩
  · intro hf
    refine ⟨h4 hf, ?_⟩
    intro r hr hs
    have e := h1 r (by rw [h4 hf]; exact hr) hs
    rw [h4 hf] at e
    exact e
  · intro hru hs
    exact dispatch_and_reply_pending hru m w hs
  · intro hru hs hf r hr hsent
    rw [dispatch_and_reply_pending hru m w hs, h4 hf]
    simp [auto_reply_frames, hr, hsent, Plasmacore.log]
  · intro hru hs r ps hr hdata hps htie
    exact one_reply_posted hru m w hs r ps hr hdata hps htie
  · intro hru hs hl c r hh hr hdata htie
    exact one_reply_from_callback hru c m w hs hl hh r hr hdata htie

/-- Witness of `auto_reply_once`: a message with an unsent reply object and no
handler for its type, inside a burst, gets the auto-reply; the same message
handled by a callback that posts the reply itself and marks it sent gets no
second one. -/
theorem auto_reply_once_witness :
    (dispatch_and_reply (real_update sample_env 1) sample_env asking_message
        sending_bus).pending_message_data
      = sending_bus.pending_message_data ++ frame [5] ∧
    (dispatch_and_reply (real_update replying_env 1) replying_env asking_message
        echo_sending_bus).pending_message_data
      = [] ++ frames ([[5]] ++ if true then [] else [[5]]) ∧
    replies_to replying_env 9 ([[5]] ++ if true then [] else [[5]]) = 1 :=
  ⟨(auto_reply_once sample_env (real_update sample_env 1) asking_message
      sending_bus).2.2.2.2.2.1 (real_update_guarded sample_env 1) rfl rfl
      { data := [5], sent := false } rfl rfl,
   ((auto_reply_once replying_env (real_update replying_env 1) asking_message
      echo_sending_bus).2.2.2.2.2.2.2
      (real_update_guarded replying_env 1) rfl rfl 0 { data := [5], sent := true }
      ⟨_, rfl, rfl⟩ rfl (by decide) (by decide)).1,
   ((auto_reply_once replying_env (real_update replying_env 1) asking_message
      echo_sending_bus).2.2.2.2.2.2.2
      (real_update_guarded replying_env 1) rfl rfl 0 { data := [5], sent := true }
      ⟨_, rfl, rfl⟩ rfl (by decide) (by decide)).2⟩

/-- C12. A stopped bus ignores ticks: in every state with `update_timer = false`
(the state that `stop` leaves, and the state before the first `start`), the
ticks `update`, `fast_update` and `real_update` with either flag return the
state they were given (so no exchange with the runtime, no dispatch, no
scheduled tick, and the buffers, tables and flags as before), and `post` only
appends the frame of its message to the outbound buffer. -/
theorem stopped_tick_is_no_op (env : Env) (fuel : Nat) (w : Plasmacore)
    (h : w.update_timer = false) :
    update (real_update env fuel) w = w ∧
    fast_update (real_update env fuel) w = w ∧
    (∀ r, real_update env fuel r w = w) ∧
    (∀ m, post (real_update env fuel) m w
      = { w with pending_message_data := w.pending_message_data ++ frame m.data }) ∧
    (∀ v, (stop v).update_timer = false) ∧
    Plasmacore.singleton.update_timer = false := by
  refine ⟨real_update_stopped env fuel true w h, real_update_stopped env fuel false w h,
    fun r => real_update_stopped env fuel r w h, fun m => post_stopped env fuel m w h,
    fun v => rfl, rfl⟩

/-- Witness of `stopped_tick_is_no_op`: the bus that `stop` leaves. -/
theorem stopped_tick_is_no_op_witness :
    update (real_update sample_env 1) (stop idle_bus) = stop idle_bus ∧
    fast_update (real_update sample_env 1) (stop idle_bus) = stop idle_bus :=
  ⟨(stopped_tick_is_no_op sample_env 1 (stop idle_bus) rfl).1,
   (stopped_tick_is_no_op sample_env 1 (stop idle_bus) rfl).2.1⟩

/-- C13. Unregister: for every type string `t`, after
`remove_message_handler(t)` the table has no entry for `t`; when it had none
the bus is unchanged; when it had one the entry is removed and its handler
object deleted; every other type keeps its entry; and `dispatch` of a message
of type `t` afterwards calls no callback and leaves the bus as it is (only
the record that `dispatch` was called grows) and the message as it is. -/
theorem unregister (env : Env) (ru : Bool → Plasmacore → Plasmacore) (t : String)
    (m : PlasmacoreMessage) (w : Plasmacore) (hm : m.type = t) :
    Table.find (remove_message_handler t w).handlers t = none ∧
    (Table.find w.handlers t = none → remove_message_handler t w = w) ∧
    (∀ h, Table.find w.handlers t = some h →
      (remove_message_handler t w).handlers = Table.remove w.handlers t ∧
      h.addr ∉ (remove_message_handler t w).live) ∧
    (∀ t', t' ≠ t →
      Table.find (remove_message_handler t w).handlers t' = Table.find w.handlers t') ∧
    dispatch ru env m (remove_message_handler t w)
      = ({ remove_message_handler t w with
            trace := (remove_message_handler t w).trace ++ [Event.dispatch m] }, m) ∧
    called (dispatch ru env m (remove_message_handler t w)).1.trace
      = called (remove_message_handler t w).trace := by
  have hnone : Table.find (remove_message_handler t w).handlers t = none := by
    unfold remove_message_handler
    cases hf : Table.find w.handlers t with
    | none => simpa using hf
    | some h => simp [delete_handler, Table.find_remove_self]
  have hd : dispatch ru env m (remove_message_handler t w)
      = ({ remove_message_handler t w with
            trace := (remove_message_handler t w).trace ++ [Event.dispatch m] }, m) := by
    unfold dispatch
    have : Table.find ((remove_message_handler t w).log (Event.dispatch m)).handlers m.type
        = none := by rw [hm]; exact hnone
    simp only [this]
    rfl
  refine ⟨hnone, ?_, ?_, ?_, hd, ?_⟩
  · intro hf
    unfold remove_message_handler
    simp [hf]
  · intro h hf
    unfold remove_message_handler
    simp [hf, delete_handler]
  · intro t' ht'
    unfold remove_message_handler
    cases hf : Table.find w.handlers t with
    | none => rfl
    | some h => simp [delete_handler, Table.find_remove_other _ _ _ ht']
  · rw [hd]
    simp [called_append, called]

/-- Witness of `unregister`: the type "t" removed from `echo_bus`. -/
theorem unregister_witness :
    Table.find (remove_message_handler "t" echo_bus).handlers "t" = none ∧
    called (dispatch (real_update sample_env 1) sample_env (message_of [7])
        (remove_message_handler "t" echo_bus)).1.trace
      = called (remove_message_handler "t" echo_bus).trace :=
  ⟨(unregister sample_env (real_update sample_env 1) "t" (message_of [7]) echo_bus rfl).1,
   (unregister sample_env (real_update sample_env 1) "t" (message_of [7]) echo_bus
      rfl).2.2.2.2.2⟩

/-- C14. Burst bound: when the runtime answers every exchange with one
complete frame for the type `t` and the callback registered for `t` posts
exactly one message every time it is called, a tick entered with updates
active and no burst in progress returns after exactly 10 passes: it adds 10
exchanges with the runtime, 10 dispatches and 10 calls of the callback, the
outbound buffer holds exactly the frame of one message posted by the
callback (the one of the last pass, the earlier ones were handed over), the
guard is released, and the last thing the tick did is to schedule
`fast_update` in 16 ms (after the idle tick of its entry, if it was entered
with `reschedule`). -/
theorem burst_runs_ten_passes (env : Env) (t : String) (c : Nat) (k : Nat) (r : Bool)
    (w : Plasmacore) (hp : PingPong env t c) (hh : Handles w t c)
    (ht : w.update_timer = true) (hs : w.is_sending = false) (hf : w.fault = none) :
    (real_update env (k + 2) r w).fault = none ∧
    (real_update env (k + 2) r w).is_sending = false ∧
    (exchanged (real_update env (k + 2) r w).trace).length = (exchanged w.trace).length + 10 ∧
    (dispatched (real_update env (k + 2) r w).trace).length
      = (dispatched w.trace).length + 10 ∧
    (called (real_update env (k + 2) r w).trace).length = (called w.trace).length + 10 ∧
    (∃ tr m m', (env.callback c tr m).actions = [Action.post m'] ∧
      (real_update env (k + 2) r w).pending_message_data = frame m'.data) ∧
    async_calls (real_update env (k + 2) r w).trace
      = async_calls w.trace
        ++ (if r then [(AsyncTarget.update, env.idle_millis w.idleUpdateFrequency)] else [])
        ++ [(AsyncTarget.fast_update, 16)] := by
  obtain ⟨e1, e2, e3, e4, _, e6, e7, e8, e9⟩ := burst_entry_fields env r w
  have hh' : Handles (burst_entry env r w) t c := by
    unfold Handles
    rw [e3]
    exact hh
  have hb := ping_burst (real_update_guarded env (k + 1)) t c hp
    k 9 (burst_entry env r w) e1 (e2.trans ht) hh' (e4.trans hf)
  rw [e6, e7, e8, e9] at hb
  rw [real_update_burst _ _ _ _ ht hs]
  exact tick_finish_ping env c _ _ _ _ _ hb

/-- Witness of `burst_runs_ten_passes`: the echoing runtime and the bus with
the callback 0 registered for the type "t". -/
theorem burst_runs_ten_passes_witness :
    (exchanged (real_update echo_env (0 + 2) true echo_bus).trace).length
      = (exchanged echo_bus.trace).length + 10 :=
  (burst_runs_ten_passes echo_env "t" 0 0 true echo_bus ping_pong_echo
    ⟨_, rfl, rfl⟩ rfl rfl rfl).2.2.1

/-- C15 at the inbound buffer FF FF FF FC: the length is read as the `int` -4,
so the pass leaves the read position where it was; the loop uses up every
budget it is given (the fault is `out_of_fuel` for every `fuel`) and has
dispatched one empty payload per unit of budget. -/
theorem decode_loop_repeats_forever (fuel : Nat) :
    count minus_four_frame = 4 ∧
    (decode_loop (real_update sample_env 1) sample_env minus_four_frame
        (count minus_four_frame) fuel 0 sending_bus).fault = some Fault.out_of_fuel ∧
    (dispatched (decode_loop (real_update sample_env 1) sample_env minus_four_frame
        (count minus_four_frame) fuel 0 sending_bus).trace).length = fuel := by
  have h := decode_loop_never_ends (real_update_guarded sample_env 1) fuel sending_bus rfl
  refine ⟨by decide, h.1, ?_⟩
  rw [h.2]
  simp [sending_bus, Plasmacore.singleton, dispatched]

/-- C16 on `set_message_handler(t, c1)` followed by `set_message_handler(t, c2)`:
the handler object created by the first call is not deleted by the second
(it stays among the live objects), while the table entry of `t` is the object
of the second call: on the bus before `configure`, the objects 0 and 1 are
both live and only object 1 is in the table. -/
theorem replaced_handler_is_not_deleted (t : String) (c1 c2 : Callback) (w : Plasmacore) :
    w.next_addr ∈ (set_message_handler t c2 (set_message_handler t c1 w)).live ∧
    Table.find (set_message_handler t c2 (set_message_handler t c1 w)).handlers t
      = some { addr := w.next_addr + 1, type := t, callback := c2 } ∧
    (set_message_handler "t" (Callback.user 2)
      (set_message_handler "t" (Callback.user 1) Plasmacore.singleton)).live = [0, 1] ∧
    (set_message_handler "t" (Callback.user 2)
      (set_message_handler "t" (Callback.user 1) Plasmacore.singleton)).handlers
      = [("t", { addr := 1, type := "t", callback := Callback.user 2 })] := by
  refine ⟨?_, ?_, ?_, ?_⟩
  · simp [set_message_handler, new_handler]
  · simp [set_message_handler, new_handler, Table.find_set_self]
  · decide
  · decide

/-- C17. Outbound conservation and order: for every behaviour of the runtime
and of the callbacks, every launched state and every budget, the trace after
a tick continues the trace before it, and the outbound side of the tick is
the one that its events tell: a buffer that starts as the outbound buffer
before the tick, that every exchange hands over as a whole and leaves empty,
and to whose end every callback call appends the frames of the messages that
its calls post, in the order of the calls, followed by the auto-reply of its
message when the reply object is not marked sent (for a dispatch without a
callback call, the auto-reply of the decoded message). The buffers that the
exchanges of the tick handed to the runtime are exactly those of that
replay, the outbound buffer that the tick leaves is the one the replay ends
with, and so the buffers handed over, in order, followed by the buffer left,
are the buffer at the start followed by the frames enqueued during the tick
in enqueue order. A tick that runs a burst begins by handing over the whole
buffer it found. -/
theorem outbound_conservation (env : Env) (fuel : Nat) (r : Bool) (w : Plasmacore)
    (hl : w.is_launched = true) :
    (real_update env fuel r w).trace = w.trace ++ new_events w (real_update env fuel r w) ∧
    (exchanged (new_events w (real_update env fuel r w))).map Prod.fst
      = (outbound_replay env w (new_events w (real_update env fuel r w))).handed ∧
    (real_update env fuel r w).pending_message_data
      = (outbound_replay env w (new_events w (real_update env fuel r w))).buffer ∧
    handed_over (exchanged (new_events w (real_update env fuel r w)))
        ++ (real_update env fuel r w).pending_message_data
      = w.pending_message_data
        ++ frames (outbound_replay env w (new_events w (real_update env fuel r w))).enqueued ∧
    (w.update_timer = true → w.is_sending = false → 0 < fuel →
      ∃ rest, exchanged (new_events w (real_update env fuel r w))
        = (w.pending_message_data,
            env.post_messages (tick_entry env r w).trace w.pending_message_data) :: rest) := by
  obtain ⟨S, e1, e2, e3⟩ := real_update_replayed env fuel r w hl
  have hS : new_events w (real_update env fuel r w) = S := by
    unfold new_events
    rw [e1, List.drop_left]
  rw [hS]
  refine ⟨e1, e2.symm, e3.symm, ?_, ?_⟩
  · have hc := replay_conserves env w S
    rw [e2, e3] at hc
    exact hc
  · intro ht hs hfuel
    obtain ⟨k, rfl⟩ : ∃ k, fuel = k + 1 := ⟨fuel - 1, by omega⟩
    obtain ⟨rest, hx⟩ := real_update_first_exchange env k r w ht hs
    rw [e1, exchanged_append] at hx
    exact ⟨rest, List.append_cancel_left hx⟩

/-- Witness of `outbound_conservation`: the tick of the echoing runtime on a
launched bus. -/
theorem outbound_conservation_witness :
    (outbound_replay echo_env launched_echo_bus (new_events launched_echo_bus
        (real_update echo_env 2 true launched_echo_bus))).enqueued = List.replicate 10 [] ∧
    handed_over (exchanged (new_events launched_echo_bus
        (real_update echo_env 2 true launched_echo_bus)))
        ++ (real_update echo_env 2 true launched_echo_bus).pending_message_data
      = launched_echo_bus.pending_message_data
        ++ frames (outbound_replay echo_env launched_echo_bus (new_events launched_echo_bus
            (real_update echo_env 2 true launched_echo_bus))).enqueued :=
  ⟨echo_enqueued.1, (outbound_conservation echo_env 2 true launched_echo_bus rfl).2.2.2.1⟩

/-- C18 (amended). After every tick that ran a burst returns, the guard
`is_sending` is false, and the continuation flag `update_requested` has the
value it had when the burst loop ended: it is true exactly when the tick
scheduled the catch-up tick as its last act. The flag is not read before the
first pass of the next burst resets it: the next tick that runs a burst does
the same as from the state with the flag false. -/
theorem flags_after_burst (env : Env) (k : Nat) (r : Bool) (w : Plasmacore)
    (ht : w.update_timer = true) (hs : w.is_sending = false)
    (hret : (real_update env (k + 1) r w).fault = none) :
    (real_update env (k + 1) r w).is_sending = false ∧
    (real_update env (k + 1) r w).update_requested
      = (burst (real_update env k) env k 10 (burst_entry env r w)).update_requested ∧
    ((real_update env (k + 1) r w).update_requested = true ↔
      async_calls (real_update env (k + 1) r w).trace
        = async_calls (burst (real_update env k) env k 10 (burst_entry env r w)).trace
          ++ [(AsyncTarget.fast_update, 16)]) ∧
    (∀ j r', (real_update env (k + 1) r w).update_timer = true →
      real_update env (j + 1) r' (real_update env (k + 1) r w)
        = real_update env (j + 1) r'
            { real_update env (k + 1) r w with update_requested := false }) := by
  have e := real_update_burst env k r w ht hs
  have hf : (burst (real_update env k) env k 10 (burst_entry env r w)).fault = none := by
    rw [e, tick_finish_fault] at hret
    exact hret
  have hsend : (real_update env (k + 1) r w).is_sending = false := by
    rw [e]
    cases hr : (burst (real_update env k) env k 10 (burst_entry env r w)).update_requested with
    | true => rw [tick_finish_requested _ hf hr]; rfl
    | false => rw [tick_finish_settled _ hf hr]
  refine ⟨hsend, ?_, ?_, ?_⟩
  · rw [e]
    cases hr : (burst (real_update env k) env k 10 (burst_entry env r w)).update_requested with
    | true => rw [tick_finish_requested _ hf hr]; exact hr
    | false => rw [tick_finish_settled _ hf hr]; exact hr
  · rw [e]
    cases hr : (burst (real_update env k) env k 10 (burst_entry env r w)).update_requested with
    | true =>
      rw [tick_finish_requested _ hf hr]
      simp [do_async_call, Plasmacore.log, async_calls_append, async_calls, hr]
    | false =>
      rw [tick_finish_settled _ hf hr]
      simp [hr]
  · intro j r' ht'
    exact (real_update_resets env j r' _ ht' hsend).symm

/-- Witness of `flags_after_burst`: the tick of the echoing runtime. -/
theorem flags_after_burst_witness :
    (real_update echo_env (1 + 1) true echo_bus).is_sending = false :=
  (flags_after_burst echo_env 1 true echo_bus rfl rfl
    (by rw [echo_tick 0 true echo_bus rfl rfl rfl rfl]
        exact ((echo_iterate_fields 9 (burst_entry echo_env true echo_bus)).2.2.1).trans
          (echo_entry_fields true echo_bus rfl rfl rfl).2.2.2)).1

/-- C18 as stated fails at the cap: the tick of the echoing runtime runs its
ten passes, returns (no fault, the guard released, the catch-up tick
scheduled), and `update_requested` is still true. -/
theorem continuation_flag_survives_cap :
    echo_bus.update_timer = true ∧ echo_bus.is_sending = false ∧
    (real_update echo_env 2 true echo_bus).fault = none ∧
    (real_update echo_env 2 true echo_bus).is_sending = false ∧
    (real_update echo_env 2 true echo_bus).pending_message_data = [0, 0, 0, 0] ∧
    (real_update echo_env 2 true echo_bus).update_requested = true := by
  rw [echo_tick 0 true echo_bus rfl rfl rfl rfl]
  have h := echo_iterate_fields 9 (burst_entry echo_env true echo_bus)
  have he := echo_entry_fields true echo_bus rfl rfl rfl
  exact ⟨rfl, rfl, h.2.2.1.trans he.2.2.2, rfl, h.2.2.2.2, h.2.2.2.1⟩

/-- C19 on a bus that was started and whose idle cadence is then changed:
with the runtime that answers nothing, after `start()` one idle tick is
pending, and after any run of cadence changes and timer firings (in any
order, at any positions of the queue) the pending timers are all idle ticks
and their number is one more than the number of cadence changes: the idle
tick that was pending before a change is not spent when it fires, it finds
updates active again and schedules its successor, next to the chain that
`start` began. After one change and the firing of the old tick, two idle
ticks are pending. -/
theorem idle_ticks_accumulate (l : List TimerStep) :
    idle_pending started = 1 ∧
    idle_pending (Timed.steps sample_env 1 l started) = 1 + cadence_changes l ∧
    (∀ c ∈ (Timed.steps sample_env 1 l started).queue, c.1 = AsyncTarget.update) ∧
    (Timed.steps sample_env 1 l started).bus.fault = none ∧
    idle_pending (Timed.steps sample_env 1 [TimerStep.cadence 5, TimerStep.fire 0] started)
      = 2 := by
  obtain ⟨hr, hq⟩ := started_running
  have key : ∀ l, idle_pending (Timed.steps sample_env 1 l started) = 1 + cadence_changes l := by
    intro l
    obtain ⟨h1, h2⟩ := steps_running 0 l started hr
    rw [idle_pending_running _ h1, h2, hq]
  obtain ⟨h1, _⟩ := steps_running 0 l started hr
  refine ⟨by rw [idle_pending_running _ hr, hq], key l, h1.2.2.2.2, h1.2.2.2.1, ?_⟩
  rw [key]
  rfl

/-- C20 at the inbound buffer 80 00 00 00: the length is read as the `int`
-2^31, the frame is taken for complete and an empty payload is dispatched
(the declared unsigned length is 2^31), the read position becomes
4 - 2^31, and the next pass reads the length at that negative index, before
the start of the buffer. -/
theorem negative_size_reads_before_buffer :
    count int_min_frame = 4 ∧
    read_size int_min_frame 0 = some (-2147483648) ∧
    wrap32 (wrap32 (0 + 4) + -2147483648) = -2147483644 ∧
    byte_at int_min_frame (-2147483644) = none ∧
    dispatched (decode_loop (real_update sample_env 1) sample_env int_min_frame
        (count int_min_frame) 2 0 sending_bus).trace = [decode_message sample_env []] ∧
    (decode_loop (real_update sample_env 1) sample_env int_min_frame
        (count int_min_frame) 2 0 sending_bus).fault = some Fault.out_of_bounds := by
  decide

end PlasmacoreBus
